import Mathlib

/-!
# FTPServer: the control-channel session of `FtpConnection`

A shallow embedding of `src/ftpconnection.cpp` and `src/ftpserver.cpp`, and of
the slots of `src/mainwindow.cpp` that start and stop the server.

* `QString` is a list of characters; `QString::split`, `QStringList::join`,
  `startsWith`, `endsWith` are the corresponding list operations.
* The operating system (filesystem, sockets, clock) and the Qt text routines
  whose tables are not part of the repository (`trimmed`, `toUpper`, `toInt`,
  the `QHostAddress` parser) are the fields of an environment `Env W` over an
  arbitrary world type `W`; every handler is a function of that environment.
* Everything a handler does to the outside is appended, in program order, to
  a trace of `Action`s: replies written by `sendResponse`, filesystem calls
  with the paths they were given, socket calls.
* A handler that dereferences a null pointer has no behaviour: the embedding
  returns `none` there. The same holds of `processCommand`, whose first
  statement dereferences `m_timer`, a member that no statement assigns.
* The server is a `ServerSys W` over its own environment `ServerEnv W`; a
  session reads the members of the server at every command, so the handlers
  take the `FtpServer` as an argument.
-/

namespace Ftp

/-! ## Text -/

/-- `QString`, as the list of its characters. -/
abbrev QString := List Char

/-- `QByteArray`, as the list of its bytes. -/
abbrev QByteArray := List Nat

/-- `QString::number(n)` and `%1` filled by `.arg(int)`: decimal digits, with a
minus sign for a negative number. -/
def number (n : Int) : QString :=
  if n < 0 then '-' :: Nat.toDigits 10 n.natAbs else Nat.toDigits 10 n.toNat

/-- `QString::replace(QChar before, QChar after)`. -/
def replaceChar (before after : Char) (s : QString) : QString :=
  s.map (fun c => if c = before then after else c)

/-- `QString::split(sep)` with the default `Qt::KeepEmptyParts`. -/
def split (sep : Char) (s : QString) : List QString :=
  s.splitOn sep

/-- `QString::split(sep, Qt::SkipEmptyParts)`. -/
def splitSkipEmptyParts (sep : Char) (s : QString) : List QString :=
  (s.splitOn sep).filter (fun seg => !seg.isEmpty)

/-- `QStringList::join(QChar sep)`. -/
def join (sep : Char) (parts : List QString) : QString :=
  [sep].intercalate parts

/-- `QString::startsWith(QChar c)`. -/
def startsWith (s : QString) (c : Char) : Bool :=
  s.head? == some c

/-- `QString::endsWith(QChar c)`. -/
def endsWith (s : QString) (c : Char) : Bool :=
  s.getLast? == some c

/-- `QString::indexOf(QChar c)`: the first position of `c`, -1 when absent. -/
def indexOf (s : QString) (c : Char) : Int :=
  if c ∈ s then (s.indexOf c : Int) else -1

/-- A value right-aligned in a field of the given width, as `.arg(value, width)`
does for a positive width: padded on the left with spaces, never truncated. -/
def padLeft (width : Nat) (s : QString) : QString :=
  List.replicate (width - s.length) ' ' ++ s

/-- A number printed in at least two digits, as `dd`, `hh` and `mm` are. -/
def twoDigits (n : Nat) : QString :=
  if n < 10 then '0' :: Nat.toDigits 10 n else Nat.toDigits 10 n

/-! ## Addresses, files, sockets -/

/-- `QAbstractSocket::NetworkLayerProtocol`. -/
inductive NetworkLayerProtocol
  | IPv4Protocol
  | IPv6Protocol
  | UnknownNetworkLayerProtocol
  deriving DecidableEq, Repr

/-- `QHostAddress`: the null address, an IPv4 address (a 32-bit number), or an
IPv6 address (kept as its text). -/
inductive QHostAddress
  | null
  | ipv4 (ip4 : Nat)
  | ipv6 (text : QString)
  deriving DecidableEq, Repr

/-- `QHostAddress::protocol()`. -/
def QHostAddress.protocol : QHostAddress → NetworkLayerProtocol
  | .null => .UnknownNetworkLayerProtocol
  | .ipv4 _ => .IPv4Protocol
  | .ipv6 _ => .IPv6Protocol

/-- The four octets of a 32-bit IPv4 address, most significant first. -/
def octets (ip4 : Nat) : List Nat :=
  [(ip4 / 2 ^ 24) % 256, (ip4 / 2 ^ 16) % 256, (ip4 / 2 ^ 8) % 256, ip4 % 256]

/-- `QHostAddress::toString()`: dotted decimal for IPv4, empty for null. -/
def QHostAddress.toString : QHostAddress → QString
  | .null => []
  | .ipv4 ip4 => join '.' ((octets ip4).map (fun o => Nat.toDigits 10 o))
  | .ipv6 text => text

/-- `QIODevice::OpenMode`, the two modes the handlers use. -/
inductive OpenMode
  | ReadOnly
  | WriteOnly
  deriving DecidableEq, Repr

/-- An open `QFile`: its name, the mode and the read position. -/
structure QFile where
  fileName : QString
  mode : OpenMode
  pos : Nat
  deriving DecidableEq, Repr

/-- The passive `QTcpServer`, by the port it listens on. -/
structure QTcpServer where
  serverPort : Nat
  deriving DecidableEq, Repr

/-- The data `QTcpSocket`: created by `setupDataConnection` for an outgoing
connection, or returned by `nextPendingConnection` of a passive listener. -/
inductive QTcpSocket
  | outgoing (host : QHostAddress) (port : Nat)
  | accepted (listenerPort : Nat)
  deriving DecidableEq, Repr

/-- `QDateTime`, the fields the listing prints. -/
structure QDateTime where
  year : Int
  month : Nat
  day : Nat
  hour : Nat
  minute : Nat
  deriving DecidableEq, Repr

/-- `QFileInfo`, the fields the listing reads. -/
structure QFileInfo where
  fileName : QString
  isDir : Bool
  size : Int
  lastModified : QDateTime
  deriving DecidableEq, Repr

/-! ## Session state -/

/-- `FtpConnection::TransferMode`. -/
inductive TransferMode
  | Passive
  | Active
  deriving DecidableEq, Repr

/-- `FtpConnection::TransferType`. -/
inductive TransferType
  | ASCII
  | Binary
  deriving DecidableEq, Repr

/-- `QTimer`; nothing of a timer is read. -/
structure QTimer where
  deriving DecidableEq, Repr

/-- A pointer member that can be read before any statement has assigned it:
null, pointing to an object, or never assigned. -/
inductive Pointer (α : Type)
  | null
  | object (a : α)
  | unassigned
  deriving DecidableEq, Repr

/-- The member variables of `FtpConnection` (`ftpconnection.h`); for
`m_dataSocket`, `m_passiveServer` and `m_file` a null pointer is `none`.
`m_timer` is assigned by no statement of `src/`. -/
structure FtpConnection where
  m_dataSocket : Option QTcpSocket
  m_passiveServer : Option QTcpServer
  m_timer : Pointer QTimer
  m_file : Option QFile
  m_bytesTotal : Int
  m_bytesSent : Int
  m_transferMode : TransferMode
  m_transferType : TransferType
  m_username : QString
  m_currentPath : QString
  m_renameFrom : QString
  m_isLoggedIn : Bool
  m_waitingForPassword : Bool
  m_dataHostAddress : QHostAddress
  m_dataPort : Nat
  deriving DecidableEq, Repr

/-- The member variables of `FtpServer` (`ftpserver.h`) that a session reads. -/
structure FtpServer where
  m_rootPath : QString
  m_port : Int
  m_isRunning : Bool
  deriving DecidableEq, Repr

/-- `FtpServer::rootPath`. -/
def FtpServer.rootPath (server : FtpServer) : QString :=
  server.m_rootPath

/-- `FtpServer::authenticateUser`: the fixed credential pair. -/
def authenticateUser (username password : QString) : Bool :=
  username == "admin".toList && password == "password".toList

/-- What a handler does to the outside, in program order. -/
inductive Action
  | reply (code : Int) (message : QString)
  | emitDisconnected
  | dirExists (path : QString)
  | entryInfoList (path : QString)
  | mkdir (path : QString)
  | rmdir (path : QString)
  | remove (path : QString)
  | fileExists (path : QString)
  | rename (oldName newName : QString)
  | openFile (path : QString) (mode : OpenMode)
  | closeFile (path : QString)
  | fileRead (path : QString) (maxlen : Int)
  | fileWrite (path : QString) (data : QByteArray)
  | listen
  | closeServer (port : Nat)
  | connectToHost (host : QHostAddress) (port : Nat)
  | closeSocket
  | socketWrite (data : QByteArray)
  | socketWriteUtf8 (text : QString)
  | disconnectFromHost
  deriving DecidableEq, Repr

/-- The path strings an action hands to the filesystem (`QDir`, `QFile`
constructed from a path); reads, writes and closes go through an open handle
and hand over no path. -/
def Action.paths : Action → List QString
  | .dirExists p => [p]
  | .entryInfoList p => [p]
  | .mkdir p => [p]
  | .rmdir p => [p]
  | .remove p => [p]
  | .fileExists p => [p]
  | .rename o n => [o, n]
  | .openFile p _ => [p]
  | _ => []

/-- The reply an action writes to the control channel, if it is one. -/
def Action.reply? : Action → Option (Int × QString)
  | .reply code message => some (code, message)
  | _ => none

/-- The replies of a trace, in order. -/
def replies (trace : List Action) : List (Int × QString) :=
  trace.filterMap Action.reply?

/-- The text `sendResponse` writes for a reply: `"%1 %2\r\n"` with the code and
the message filled in. -/
def responseText (code : Int) (message : QString) : QString :=
  number code ++ " ".toList ++ message ++ "\r\n".toList

/-- The environment of a session: Qt text routines and the operating system,
over a world `W` that the mutating calls thread through. -/
structure Env (W : Type) where
  trimmed : QString → QString
  toUpper : QString → QString
  toInt : QString → Int
  hostAddress : QString → QHostAddress
  shortMonthName : Nat → QString
  currentYear : W → Int
  localAddress : W → QHostAddress
  dirExists : W → QString → Bool
  entryInfoList : W → QString → List QFileInfo
  mkdir : W → QString → Bool × W
  rmdir : W → QString → Bool × W
  remove : W → QString → Bool × W
  fileExists : W → QString → Bool
  rename : W → QString → QString → Bool × W
  openFile : W → QString → OpenMode → Bool × W
  fileSize : W → QString → Int
  fileRead : W → QString → Nat → Int → QByteArray
  fileWrite : W → QString → QByteArray → W
  listen : W → Option Nat × W
  waitForConnected : W → QHostAddress → Nat → Bool × W
  waitForNewConnection : W → Nat → Bool × W
  nextPendingConnection : W → Nat → Bool × W
  controlConnected : W → Bool

/-- A running session: the world, the member variables, and the trace of what
the session has done so far. -/
structure Sys (W : Type) where
  world : W
  conn : FtpConnection
  trace : List Action

variable {W : Type}

/-! ## Helpers of `FtpConnection` -/

/-- `FtpConnection::sendResponse`: one reply on the control channel. -/
def sendResponse (s : Sys W) (code : Int) (message : QString) : Sys W :=
  { s with trace := s.trace ++ [Action.reply code message] }

/-- Record an action in the trace. -/
def Sys.log (s : Sys W) (a : Action) : Sys W :=
  { s with trace := s.trace ++ [a] }

/-- The first block of `closeDataConnection`: a data socket that is not null is
closed and reset. -/
def closeDataSocket (s : Sys W) : Sys W :=
  match s.conn.m_dataSocket with
  | some _ => { s.log Action.closeSocket with conn := { s.conn with m_dataSocket := none } }
  | none => s

/-- The second block of `closeDataConnection`: a passive server that is not null
is closed and reset. -/
def closePassiveServer (s : Sys W) : Sys W :=
  match s.conn.m_passiveServer with
  | some srv =>
    { s.log (Action.closeServer srv.serverPort) with
      conn := { s.conn with m_passiveServer := none } }
  | none => s

/-- The third block of `closeDataConnection`: a file that is not null is closed
and reset. -/
def closeOpenFile (s : Sys W) : Sys W :=
  match s.conn.m_file with
  | some f => { s.log (Action.closeFile f.fileName) with conn := { s.conn with m_file := none } }
  | none => s

/-- `FtpConnection::closeDataConnection`: its three blocks in order. -/
def closeDataConnection (s : Sys W) : Sys W :=
  closeOpenFile (closePassiveServer (closeDataSocket s))

/-- `FtpConnection::setupDataConnection`: the previous data connection is
closed; in passive mode a new server listens on a port the system chooses (a
failure is answered 425 and leaves no server), in active mode a new socket
starts connecting to the stored host and port. -/
def setupDataConnection (env : Env W) (s : Sys W) : Sys W :=
  let s1 := closeDataConnection s
  if s1.conn.m_transferMode = TransferMode.Passive then
    match env.listen s1.world with
    | (none, w) =>
      sendResponse { (s1.log Action.listen) with world := w } 425
        "Cannot open data connection".toList
    | (some port, w) =>
      { (s1.log Action.listen) with
        world := w, conn := { s1.conn with m_passiveServer := some ⟨port⟩ } }
  else
    { s1.log (Action.connectToHost s1.conn.m_dataHostAddress s1.conn.m_dataPort) with
      conn := { s1.conn with
        m_dataSocket := some (QTcpSocket.outgoing s1.conn.m_dataHostAddress s1.conn.m_dataPort) } }

/-- `FtpConnection::checkLogin`: false, with reply 530, when not logged in. -/
def checkLogin (s : Sys W) : Bool × Sys W :=
  if !s.conn.m_isLoggedIn then
    (false, sendResponse s 530 "Not logged in".toList)
  else
    (true, s)

/-- The loop of `resolvePath` over the segments: `.` is skipped, `..` removes
the last kept segment when there is one, any other segment is appended. -/
def resolveSegments (segments : List QString) : List QString :=
  segments.foldl (fun result segment =>
    if segment = ".".toList then result
    else if segment = "..".toList then
      (if !result.isEmpty then result.dropLast else result)
    else result ++ [segment]) []

/-- The first statement of `resolvePath`: an absolute path is taken as it is,
the empty path is the current directory, a relative path is appended to the
current directory with one `/` between them. -/
def resolveStart (m_currentPath : QString) (path : QString) : QString :=
  if startsWith path '/' then path
  else if path.isEmpty then m_currentPath
  else if endsWith m_currentPath '/' then m_currentPath ++ path
  else m_currentPath ++ '/' :: path

/-- `FtpConnection::resolvePath`, as a function of `m_currentPath` and the
path. -/
def resolvePath (m_currentPath : QString) (path : QString) : QString :=
  let resolvedPath := resolveStart m_currentPath path
  let segments := splitSkipEmptyParts '/' resolvedPath
  let result := resolveSegments segments
  let resolvedPath := '/' :: join '/' result
  if resolvedPath.isEmpty then "/".toList else resolvedPath

/-- `FtpConnection::onDataConnected`: in passive mode with a listening server
the data socket becomes the server's next pending connection and, when there is
one, the server is closed; then reply 150. -/
def onDataConnected (env : Env W) (s : Sys W) : Sys W :=
  let s1 : Sys W :=
    if s.conn.m_transferMode = TransferMode.Passive then
      match s.conn.m_passiveServer with
      | some srv =>
        match env.nextPendingConnection s.world srv.serverPort with
        | (true, w) =>
          { world := w,
            conn := { s.conn with
              m_dataSocket := some (QTcpSocket.accepted srv.serverPort),
              m_passiveServer := none },
            trace := s.trace ++ [Action.closeServer srv.serverPort] }
        | (false, w) => { s with world := w, conn := { s.conn with m_dataSocket := none } }
      | none => s
    else s
  sendResponse s1 150 "Data connection established".toList

/-- `FtpConnection::onDataReadyRead`: the bytes read from the data socket are
written to the open file. -/
def onDataReadyRead (env : Env W) (s : Sys W) (data : QByteArray) : Sys W :=
  match s.conn.m_dataSocket, s.conn.m_file with
  | some _, some f =>
    { (s.log (Action.fileWrite f.fileName data)) with
      world := env.fileWrite s.world f.fileName data }
  | _, _ => s

/-- `FtpConnection::onDataDisconnected`: an open file is closed and answered
226; the data socket is reset. -/
def onDataDisconnected (s : Sys W) : Sys W :=
  let s1 : Sys W :=
    match s.conn.m_file with
    | some f =>
      sendResponse
        { s.log (Action.closeFile f.fileName) with conn := { s.conn with m_file := none } }
        226 "Transfer complete".toList
    | none => s
  match s1.conn.m_dataSocket with
  | some _ => { s1 with conn := { s1.conn with m_dataSocket := none } }
  | none => s1

/-- `FtpConnection::onTimeout`. -/
def onTimeout (s : Sys W) : Sys W :=
  (sendResponse s 421 "Timeout: closing control connection".toList).log Action.emitDisconnected

/-- `FtpConnection::onBytesWritten`. -/
def onBytesWritten (env : Env W) (s : Sys W) (bytes : Int) : Sys W :=
  let s1 : Sys W := { s with conn := { s.conn with m_bytesSent := s.conn.m_bytesSent + bytes } }
  match s1.conn.m_file, s1.conn.m_dataSocket with
  | some f, some _ =>
    if s1.conn.m_bytesSent < s1.conn.m_bytesTotal then
      let maxlen := min (s1.conn.m_bytesTotal - s1.conn.m_bytesSent) 4096
      let data := env.fileRead s1.world f.fileName f.pos maxlen
      { ((s1.log (Action.fileRead f.fileName maxlen)).log (Action.socketWrite data)) with
        conn := { s1.conn with m_file := some { f with pos := f.pos + data.length } } }
    else
      s1.log Action.disconnectFromHost
  | _, _ => s1

/-! ## Command handlers -/

/-- `FtpConnection::handleUSER`. -/
def handleUSER (s : Sys W) (param : QString) : Sys W :=
  sendResponse
    { s with conn := { s.conn with m_username := param, m_waitingForPassword := true } }
    331 "User name okay, need password".toList

/-- `FtpConnection::handlePASS`. -/
def handlePASS (s : Sys W) (param : QString) : Sys W :=
  if !s.conn.m_waitingForPassword then
    sendResponse s 503 "Bad sequence of commands".toList
  else
    let s1 : Sys W :=
      if authenticateUser s.conn.m_username param then
        sendResponse { s with conn := { s.conn with m_isLoggedIn := true } }
          230 "User logged in, proceed".toList
      else
        sendResponse { s with conn := { s.conn with m_isLoggedIn := false } }
          530 "Login incorrect".toList
    { s1 with conn := { s1.conn with m_waitingForPassword := false } }

/-- `FtpConnection::handleSYST`. -/
def handleSYST (s : Sys W) (_param : QString) : Sys W :=
  sendResponse s 215 "UNIX Type: L8".toList

/-- `FtpConnection::handleQUIT`. -/
def handleQUIT (s : Sys W) (_param : QString) : Sys W :=
  (sendResponse s 221 "Goodbye".toList).log Action.emitDisconnected

/-- `FtpConnection::handleTYPE`. -/
def handleTYPE (s : Sys W) (param : QString) : Sys W :=
  if param = "A".toList ∨ param = "A N".toList then
    sendResponse { s with conn := { s.conn with m_transferType := TransferType.ASCII } }
      200 "Type set to ASCII".toList
  else if param = "I".toList ∨ param = "L 8".toList then
    sendResponse { s with conn := { s.conn with m_transferType := TransferType.Binary } }
      200 "Type set to Binary".toList
  else
    sendResponse s 504 "Type not implemented".toList

/-- The `quint16` that `(portHi << 8) + portLo` is stored as: the low 16 bits. -/
def portOf (portHi portLo : Int) : Nat :=
  ((portHi * 256 + portLo) % 65536).toNat

/-- `FtpConnection::handlePORT`. -/
def handlePORT (env : Env W) (s : Sys W) (param : QString) : Sys W :=
  match checkLogin s with
  | (false, s1) => s1
  | (true, s1) =>
    let parts := split ',' param
    if parts.length ≠ 6 then
      sendResponse s1 501 "Invalid PORT command".toList
    else
      let ipParts := parts.take 4
      let ipAddress := join '.' ipParts
      let portHi := env.toInt (parts.getD 4 [])
      let portLo := env.toInt (parts.getD 5 [])
      let port := portOf portHi portLo
      sendResponse
        { s1 with conn := { s1.conn with
            m_dataHostAddress := env.hostAddress ipAddress,
            m_dataPort := port,
            m_transferMode := TransferMode.Active } }
        200 "PORT command successful".toList

/-- `FtpConnection::handlePASV`. -/
def handlePASV (env : Env W) (s : Sys W) (_param : QString) : Sys W :=
  match checkLogin s with
  | (false, s1) => s1
  | (true, s1) =>
    let s2 := setupDataConnection env
      { s1 with conn := { s1.conn with m_transferMode := TransferMode.Passive } }
    match s2.conn.m_passiveServer with
    | none => s2
    | some srv =>
      let port := srv.serverPort % 65536
      let address := env.localAddress s2.world
      let ipAddress := replaceChar ':' '.' address.toString
      let ipAddress : QString :=
        if address.protocol = NetworkLayerProtocol.IPv6Protocol then "127.0.0.1".toList
        else ipAddress
      let response := "Entering Passive Mode (".toList ++ replaceChar '.' ',' ipAddress
        ++ ",".toList ++ number ((port >>> 8 : Nat) : Int)
        ++ ",".toList ++ number ((port &&& 0xFF : Nat) : Int) ++ ")".toList
      sendResponse s2 227 response

/-- `QDateTime::toString("MMM dd  yyyy")`. -/
def dateYearFormat (env : Env W) (t : QDateTime) : QString :=
  env.shortMonthName t.month ++ " ".toList ++ twoDigits t.day ++ "  ".toList
    ++ (if t.year < 0 then '-' :: padZero 4 t.year.natAbs else padZero 4 t.year.toNat)
where
  /-- A number printed in at least `width` digits. -/
  padZero (width n : Nat) : QString :=
    List.replicate (width - (Nat.toDigits 10 n).length) '0' ++ Nat.toDigits 10 n

/-- `QDateTime::toString("MMM dd hh:mm")`. -/
def dateTimeFormat (env : Env W) (t : QDateTime) : QString :=
  env.shortMonthName t.month ++ " ".toList ++ twoDigits t.day ++ " ".toList
    ++ twoDigits t.hour ++ ":".toList ++ twoDigits t.minute

/-- One line of the listing built by `handleLIST`. -/
def listLine (env : Env W) (currentYear : Int) (info : QFileInfo) : QString :=
  let permissions : QString := if info.isDir then "drw-r--r--".toList else "-rw-r--r--".toList
  let ownerName := "owner".toList
  let groupName := "group".toList
  let size := info.size
  let modTime := info.lastModified
  let dateStr :=
    if modTime.year = currentYear then dateTimeFormat env modTime
    else dateYearFormat env modTime
  let filename := info.fileName
  permissions ++ " ".toList ++ padLeft 3 (number 1) ++ " ".toList ++ padLeft 8 ownerName
    ++ " ".toList ++ padLeft 8 groupName ++ " ".toList ++ padLeft 8 (number size)
    ++ " ".toList ++ dateStr ++ " ".toList ++ filename ++ "\r\n".toList

/-- The listing of `handleLIST`: the lines of the entries, concatenated. -/
def listing (env : Env W) (currentYear : Int) (entries : List QFileInfo) : QString :=
  (entries.map (listLine env currentYear)).flatten

/-- The part of `handleLIST`, `handleSTOR` and `handleRETR` that waits for the
outgoing connection in active mode: `m_dataSocket->waitForConnected(5000)`; on
failure reply 425 and close; on success the socket has emitted `connected`,
which runs the slot `onDataConnected` that `setupDataConnection` connected to
it, and the handler then calls `onDataConnected` itself. The boolean tells
whether the handler goes on. -/
def waitActive (env : Env W) (s : Sys W) (socket : QTcpSocket) : Bool × Sys W :=
  let connected : Bool × W :=
    match socket with
    | .outgoing host port => env.waitForConnected s.world host port
    | .accepted _ => (true, s.world)
  match connected with
  | (false, w) =>
    (false, closeDataConnection
      (sendResponse { s with world := w } 425 "Can't open data connection".toList))
  | (true, w) =>
    (true, onDataConnected env (onDataConnected env { s with world := w }))

/-- The block `if (m_transferMode == Active && m_dataSocket) ... else ...` of
`handleLIST` and `handleSTOR`: in active mode with a data socket, wait for the
connection; otherwise reply 150 with the message of the handler. -/
def startTransfer (env : Env W) (s : Sys W) (message : QString) : Bool × Sys W :=
  match s.conn.m_transferMode, s.conn.m_dataSocket with
  | TransferMode.Active, some socket => waitActive env s socket
  | _, _ => (true, sendResponse s 150 message)

/-- The part of `handleLIST` that waits for the data connection in passive
mode, when there is no data socket yet: `m_passiveServer->waitForNewConnection(5000)`;
on failure reply 425 and close; on success the server has emitted
`newConnection`, which runs the slot `onDataConnected` that
`setupDataConnection` connected to it. The boolean tells whether the handler
goes on; the result is `none` where `m_passiveServer` is null. -/
def waitPassive (env : Env W) (s : Sys W) : Option (Bool × Sys W) :=
  if s.conn.m_transferMode = TransferMode.Passive ∧ s.conn.m_dataSocket.isNone then
    match s.conn.m_passiveServer with
    | none => none
    | some srv =>
      match env.waitForNewConnection s.world srv.serverPort with
      | (false, w) =>
        some (false, closeDataConnection
          (sendResponse { s with world := w } 425 "Can't open data connection".toList))
      | (true, w) => some (true, onDataConnected env { s with world := w })
  else some (true, s)

/-- `FtpConnection::handleLIST`. The result is `none` where the handler would
call `waitForNewConnection` on a null `m_passiveServer`. -/
def handleLIST (env : Env W) (server : FtpServer) (s : Sys W) (param : QString) :
    Option (Sys W) :=
  match checkLogin s with
  | (false, s1) => some s1
  | (true, s1) =>
    let s2 := setupDataConnection env s1
    if s2.conn.m_dataSocket.isNone ∧ s2.conn.m_passiveServer.isNone then
      some (sendResponse s2 425 "Can't open data connection".toList)
    else
      match startTransfer env s2 "Opening data connection for directory listing".toList with
      | (false, s3) => some s3
      | (true, s3) =>
        let path := resolvePath s3.conn.m_currentPath param
        let fullPath := server.rootPath ++ path
        let s4 := s3.log (Action.dirExists fullPath)
        if !env.dirExists s4.world fullPath then
          some (closeDataConnection (sendResponse s4 550 "Directory not found".toList))
        else
          let entries := env.entryInfoList s4.world fullPath
          let s5 := s4.log (Action.entryInfoList fullPath)
          match waitPassive env s5 with
          | none => none
          | some (false, s6) => some s6
          | some (true, s6) =>
            match s6.conn.m_dataSocket with
            | some _ =>
              some ((s6.log (Action.socketWriteUtf8
                (listing env (env.currentYear s6.world) entries))).log
                Action.disconnectFromHost)
            | none => some s6

/-- `FtpConnection::handleCWD`. -/
def handleCWD (env : Env W) (server : FtpServer) (s : Sys W) (param : QString) : Sys W :=
  match checkLogin s with
  | (false, s1) => s1
  | (true, s1) =>
    let newPath := resolvePath s1.conn.m_currentPath param
    let fullPath := server.rootPath ++ newPath
    let s2 := s1.log (Action.dirExists fullPath)
    if !env.dirExists s2.world fullPath then
      sendResponse s2 550 "Directory not found".toList
    else
      sendResponse { s2 with conn := { s2.conn with m_currentPath := newPath } }
        250 ("Directory changed to ".toList ++ newPath)

/-- `FtpConnection::handlePWD`. -/
def handlePWD (s : Sys W) (_param : QString) : Sys W :=
  match checkLogin s with
  | (false, s1) => s1
  | (true, s1) =>
    sendResponse s1 257 ("\"".toList ++ s1.conn.m_currentPath ++ "\" is current directory".toList)

/-- `FtpConnection::handleMKD`. -/
def handleMKD (env : Env W) (server : FtpServer) (s : Sys W) (param : QString) : Sys W :=
  match checkLogin s with
  | (false, s1) => s1
  | (true, s1) =>
    if param.isEmpty then
      sendResponse s1 501 "Missing directory name".toList
    else
      let newPath := resolvePath s1.conn.m_currentPath param
      let fullPath := server.rootPath ++ newPath
      match env.mkdir s1.world fullPath with
      | (true, w) =>
        sendResponse { (s1.log (Action.mkdir fullPath)) with world := w }
          257 ("\"".toList ++ newPath ++ "\" created".toList)
      | (false, w) =>
        sendResponse { (s1.log (Action.mkdir fullPath)) with world := w }
          550 "Failed to create directory".toList

/-- `FtpConnection::handleRMD`. -/
def handleRMD (env : Env W) (server : FtpServer) (s : Sys W) (param : QString) : Sys W :=
  match checkLogin s with
  | (false, s1) => s1
  | (true, s1) =>
    if param.isEmpty then
      sendResponse s1 501 "Missing directory name".toList
    else
      let path := resolvePath s1.conn.m_currentPath param
      let fullPath := server.rootPath ++ path
      match env.rmdir s1.world fullPath with
      | (true, w) =>
        sendResponse { (s1.log (Action.rmdir fullPath)) with world := w }
          250 "Directory removed".toList
      | (false, w) =>
        sendResponse { (s1.log (Action.rmdir fullPath)) with world := w }
          550 "Failed to remove directory".toList

/-- `FtpConnection::handleDELE`. -/
def handleDELE (env : Env W) (server : FtpServer) (s : Sys W) (param : QString) : Sys W :=
  match checkLogin s with
  | (false, s1) => s1
  | (true, s1) =>
    if param.isEmpty then
      sendResponse s1 501 "Missing file name".toList
    else
      let path := resolvePath s1.conn.m_currentPath param
      let fullPath := server.rootPath ++ path
      match env.remove s1.world fullPath with
      | (true, w) =>
        sendResponse { (s1.log (Action.remove fullPath)) with world := w }
          250 "File deleted".toList
      | (false, w) =>
        sendResponse { (s1.log (Action.remove fullPath)) with world := w }
          550 "Failed to delete file".toList

/-- `FtpConnection::handleRNFR`. -/
def handleRNFR (env : Env W) (server : FtpServer) (s : Sys W) (param : QString) : Sys W :=
  match checkLogin s with
  | (false, s1) => s1
  | (true, s1) =>
    if param.isEmpty then
      sendResponse s1 501 "Missing file name".toList
    else
      let s2 : Sys W :=
        { s1 with conn := { s1.conn with
            m_renameFrom := resolvePath s1.conn.m_currentPath param } }
      let fullPath := server.rootPath ++ s2.conn.m_renameFrom
      let s3 := s2.log (Action.fileExists fullPath)
      if env.fileExists s3.world fullPath then
        sendResponse s3 350 "Ready for RNTO".toList
      else
        let s4 := sendResponse s3 550 "File not found".toList
        { s4 with conn := { s4.conn with m_renameFrom := [] } }

/-- `FtpConnection::handleRNTO`. -/
def handleRNTO (env : Env W) (server : FtpServer) (s : Sys W) (param : QString) : Sys W :=
  match checkLogin s with
  | (false, s1) => s1
  | (true, s1) =>
    if s1.conn.m_renameFrom.isEmpty then
      sendResponse s1 503 "RNFR required first".toList
    else if param.isEmpty then
      let s2 := sendResponse s1 501 "Missing file name".toList
      { s2 with conn := { s2.conn with m_renameFrom := [] } }
    else
      let newPath := resolvePath s1.conn.m_currentPath param
      let oldFullPath := server.rootPath ++ s1.conn.m_renameFrom
      let newFullPath := server.rootPath ++ newPath
      let s2 : Sys W :=
        match env.rename s1.world oldFullPath newFullPath with
        | (true, w) =>
          sendResponse { (s1.log (Action.rename oldFullPath newFullPath)) with world := w }
            250 "File renamed".toList
        | (false, w) =>
          sendResponse { (s1.log (Action.rename oldFullPath newFullPath)) with world := w }
            550 "Failed to rename file".toList
      { s2 with conn := { s2.conn with m_renameFrom := [] } }

/-- `m_file = new QFile(fullPath)` followed by `m_file->open(mode)`: the member
holds the new file whether or not it opened; the boolean is the result of
`open`. -/
def openNewFile (env : Env W) (s : Sys W) (fullPath : QString) (mode : OpenMode) :
    Bool × Sys W :=
  match env.openFile s.world fullPath mode with
  | (ok, w) =>
    (ok, { world := w,
           conn := { s.conn with m_file := some { fileName := fullPath, mode := mode, pos := 0 } },
           trace := s.trace ++ [Action.openFile fullPath mode] })

/-- `FtpConnection::handleSTOR`. -/
def handleSTOR (env : Env W) (server : FtpServer) (s : Sys W) (param : QString) : Sys W :=
  match checkLogin s with
  | (false, s1) => s1
  | (true, s1) =>
    if param.isEmpty then
      sendResponse s1 501 "Missing file name".toList
    else
      let s2 := setupDataConnection env s1
      if s2.conn.m_dataSocket.isNone ∧ s2.conn.m_passiveServer.isNone then
        sendResponse s2 425 "Can't open data connection".toList
      else
        let path := resolvePath s2.conn.m_currentPath param
        let fullPath := server.rootPath ++ path
        match openNewFile env s2 fullPath OpenMode.WriteOnly with
        | (false, s3) =>
          closeDataConnection (sendResponse s3 550 "Failed to open file".toList)
        | (true, s3) =>
          (startTransfer env s3 "Opening data connection for file upload".toList).2

/-- The block "Start sending data" of `handleRETR`: the first chunk of at most
4096 bytes is read from the file and written to the data socket; an empty
chunk disconnects instead. The result is `none` where `m_file` or
`m_dataSocket` is null. -/
def sendFirstChunk (env : Env W) (s : Sys W) : Option (Sys W) :=
  match s.conn.m_file, s.conn.m_dataSocket with
  | some f, some _ =>
    let maxlen := min s.conn.m_bytesTotal 4096
    let data := env.fileRead s.world f.fileName f.pos maxlen
    let s1 : Sys W :=
      { (s.log (Action.fileRead f.fileName maxlen)) with
        conn := { s.conn with m_file := some { f with pos := f.pos + data.length } } }
    if !data.isEmpty then some (s1.log (Action.socketWrite data))
    else some (s1.log Action.disconnectFromHost)
  | _, _ => none

/-- The part of `handleRETR` from `m_bytesTotal = m_file->size()` on. The
result is `none` where `m_file` is null. -/
def startDownload (env : Env W) (s : Sys W) : Option (Sys W) :=
  match s.conn.m_file with
  | none => none
  | some f =>
    let s1 : Sys W :=
      { s with conn := { s.conn with
          m_bytesTotal := env.fileSize s.world f.fileName, m_bytesSent := 0 } }
    match s1.conn.m_transferMode, s1.conn.m_dataSocket with
    | TransferMode.Active, some socket =>
      match waitActive env s1 socket with
      | (false, s2) => some s2
      | (true, s2) => sendFirstChunk env s2
    | _, _ =>
      some (sendResponse s1 150 "Opening data connection for file download".toList)

/-- `FtpConnection::handleRETR`. The result is `none` where the handler calls
`m_file->size()`, `m_file->read` or `m_dataSocket->write` on a null pointer. -/
def handleRETR (env : Env W) (server : FtpServer) (s : Sys W) (param : QString) :
    Option (Sys W) :=
  match checkLogin s with
  | (false, s1) => some s1
  | (true, s1) =>
    if param.isEmpty then
      some (sendResponse s1 501 "Missing file name".toList)
    else
      let path := resolvePath s1.conn.m_currentPath param
      let fullPath := server.rootPath ++ path
      match openNewFile env s1 fullPath OpenMode.ReadOnly with
      | (false, s2) =>
        let s3 := sendResponse s2 550 "Failed to open file".toList
        some { s3 with conn := { s3.conn with m_file := none } }
      | (true, s2) =>
        let s3 := setupDataConnection env s2
        if s3.conn.m_dataSocket.isNone ∧ s3.conn.m_passiveServer.isNone then
          some (closeDataConnection (sendResponse s3 425 "Can't open data connection".toList))
        else
          startDownload env s3

/-- `FtpConnection::handleNOOP`. -/
def handleNOOP (s : Sys W) (_param : QString) : Sys W :=
  sendResponse s 200 "NOOP command successful".toList

/-! ## The command loop -/

/-- The command and the parameter of a trimmed, non-empty line, as
`processCommand` takes them apart at the first space. -/
def parseLine (env : Env W) (line : QString) : QString × QString :=
  let spaceIndex := indexOf line ' '
  if spaceIndex = -1 then
    (env.toUpper line, [])
  else
    (env.toUpper (line.take spaceIndex.toNat), line.drop (spaceIndex.toNat + 1))

/-- The chain of comparisons in `processCommand` that selects the handler. -/
def dispatch (env : Env W) (server : FtpServer) (s : Sys W) (command parameter : QString) :
    Option (Sys W) :=
  if command = "USER".toList then some (handleUSER s parameter)
  else if command = "PASS".toList then some (handlePASS s parameter)
  else if command = "SYST".toList then some (handleSYST s parameter)
  else if command = "QUIT".toList then some (handleQUIT s parameter)
  else if command = "TYPE".toList then some (handleTYPE s parameter)
  else if command = "PORT".toList then some (handlePORT env s parameter)
  else if command = "PASV".toList then some (handlePASV env s parameter)
  else if command = "LIST".toList then handleLIST env server s parameter
  else if command = "CWD".toList then some (handleCWD env server s parameter)
  else if command = "PWD".toList then some (handlePWD s parameter)
  else if command = "MKD".toList then some (handleMKD env server s parameter)
  else if command = "RMD".toList then some (handleRMD env server s parameter)
  else if command = "DELE".toList then some (handleDELE env server s parameter)
  else if command = "RNFR".toList then some (handleRNFR env server s parameter)
  else if command = "RNTO".toList then some (handleRNTO env server s parameter)
  else if command = "STOR".toList then some (handleSTOR env server s parameter)
  else if command = "RETR".toList then handleRETR env server s parameter
  else if command = "NOOP".toList then some (handleNOOP s parameter)
  else some (sendResponse s 502 "Command not implemented".toList)

/-- One turn of the `while` loop of `processCommand` on a line read from the
control socket: the line is trimmed; an empty line is skipped; otherwise it is
parsed and dispatched. The statement before the loop is in `processCommand`. -/
def processLine (env : Env W) (server : FtpServer) (s : Sys W) (rawLine : QString) :
    Option (Sys W) :=
  let line := env.trimmed rawLine
  if line.isEmpty then some s
  else
    let (command, parameter) := parseLine env line
    dispatch env server s command parameter

/-- The loop of `processCommand` over the lines that can be read. -/
def processLines (env : Env W) (server : FtpServer) : Sys W → List QString → Option (Sys W)
  | s, [] => some s
  | s, line :: rest =>
    match processLine env server s line with
    | none => none
    | some s1 => processLines env server s1 rest

/-- `FtpConnection::processCommand`, the slot of `readyRead`, on the lines that
can be read from the control socket: `m_timer->start()`, then the loop. The
result is `none` where `m_timer` does not point to a timer. -/
def processCommand (env : Env W) (server : FtpServer) (s : Sys W) (lines : List QString) :
    Option (Sys W) :=
  match s.conn.m_timer with
  | .object _ => processLines env server s lines
  | _ => none

/-! ## A concrete environment

The handlers are evaluated on this environment where a concrete run is needed:
ASCII versions of the text routines and a filesystem that is a list of
directory names and a list of file names. -/

/-- The world of the concrete environment. -/
structure SimWorld where
  dirs : List QString
  files : List QString
  nextPort : Option Nat
  connects : Bool
  localAddr : QHostAddress
  year : Int
  deriving DecidableEq, Repr

/-- ASCII white space. -/
def isAsciiSpace (c : Char) : Bool :=
  c = ' ' ∨ c = '\t' ∨ c = '\n' ∨ c = '\r' ∨ c = '\x0b' ∨ c = '\x0c'

/-- White space removed at both ends. -/
def simTrimmed (s : QString) : QString :=
  ((s.dropWhile isAsciiSpace).reverse.dropWhile isAsciiSpace).reverse

/-- ASCII letters to upper case. -/
def simToUpper (s : QString) : QString :=
  s.map Char.toUpper

/-- The value of a string of decimal digits; `none` for any other string. -/
def digitsValue (s : QString) : Option Nat :=
  if s.isEmpty ∨ !s.all Char.isDigit then none
  else some (s.foldl (fun acc c => acc * 10 + (c.toNat - '0'.toNat)) 0)

/-- Decimal `toInt`: an optional sign and digits, within the range of `int`;
0 for anything else. -/
def simToInt (s : QString) : Int :=
  let t := simTrimmed s
  let signed : Option Int :=
    match t with
    | '-' :: ds => (digitsValue ds).map (fun n => -(n : Int))
    | '+' :: ds => (digitsValue ds).map (fun n => (n : Int))
    | ds => (digitsValue ds).map (fun n => (n : Int))
  match signed with
  | some v => if -2147483648 ≤ v ∧ v ≤ 2147483647 then v else 0
  | none => 0

/-- Dotted-quad IPv4 text to an address; null for anything else. -/
def simHostAddress (s : QString) : QHostAddress :=
  match (split '.' s).map digitsValue with
  | [some a, some b, some c, some d] =>
    if a < 256 ∧ b < 256 ∧ c < 256 ∧ d < 256 then
      QHostAddress.ipv4 (a * 2 ^ 24 + b * 2 ^ 16 + c * 2 ^ 8 + d)
    else QHostAddress.null
  | _ => QHostAddress.null

/-- English month abbreviations. -/
def simShortMonthName (month : Nat) : QString :=
  (["Jan", "Feb", "Mar", "Apr", "May", "Jun", "Jul", "Aug", "Sep", "Oct", "Nov", "Dec"].getD
    (month - 1) "").toList

/-- The concrete environment. -/
def simEnv : Env SimWorld where
  trimmed := simTrimmed
  toUpper := simToUpper
  toInt := simToInt
  hostAddress := simHostAddress
  shortMonthName := simShortMonthName
  currentYear := fun w => w.year
  localAddress := fun w => w.localAddr
  dirExists := fun w p => decide (p ∈ w.dirs)
  entryInfoList := fun _ _ => []
  mkdir := fun w p =>
    if p ∈ w.dirs ∨ p ∈ w.files then (false, w) else (true, { w with dirs := p :: w.dirs })
  rmdir := fun w p =>
    if p ∈ w.dirs then (true, { w with dirs := w.dirs.erase p }) else (false, w)
  remove := fun w p =>
    if p ∈ w.files then (true, { w with files := w.files.erase p }) else (false, w)
  fileExists := fun w p => decide (p ∈ w.files ∨ p ∈ w.dirs)
  rename := fun w o n =>
    if o ∈ w.files ∧ n ∉ w.files ∧ n ∉ w.dirs then
      (true, { w with files := n :: w.files.erase o })
    else (false, w)
  openFile := fun w p mode =>
    match mode with
    | OpenMode.ReadOnly => (decide (p ∈ w.files), w)
    | OpenMode.WriteOnly =>
      if p ∈ w.dirs then (false, w)
      else if p ∈ w.files then (true, w)
      else (true, { w with files := p :: w.files })
  fileSize := fun _ _ => 0
  fileRead := fun _ _ _ _ => []
  fileWrite := fun w _ _ => w
  listen := fun w => (w.nextPort, w)
  waitForConnected := fun w _ _ => (w.connects, w)
  waitForNewConnection := fun w _ => (w.connects, w)
  nextPendingConnection := fun w _ => (w.connects, w)
  controlConnected := fun _ => true

/-- A world with the directory `/srv/ftp` and the file `/srv/ftp/old.txt`. -/
def simWorld : SimWorld where
  dirs := ["/srv/ftp/".toList]
  files := ["/srv/ftp/old.txt".toList]
  nextPort := some 50000
  connects := true
  localAddr := QHostAddress.ipv4 (192 * 2 ^ 24 + 168 * 2 ^ 16 + 1 * 2 ^ 8 + 10)
  year := 2024

/-- A server rooted at `/srv/ftp`. -/
def simServer : FtpServer where
  m_rootPath := "/srv/ftp".toList
  m_port := 21
  m_isRunning := true

/-- A new session as the specification describes one: no data connection, no
open file, nothing pending, not logged in, the current directory `/`, and an
idle timer. Of these members the constructor of `FtpConnection` assigns the
current directory only; the concrete runs start from this state, and no
theorem about every state depends on it. -/
def freshConnection : FtpConnection where
  m_dataSocket := none
  m_passiveServer := none
  m_timer := Pointer.object {}
  m_file := none
  m_bytesTotal := 0
  m_bytesSent := 0
  m_transferMode := TransferMode.Passive
  m_transferType := TransferType.ASCII
  m_username := []
  m_currentPath := "/".toList
  m_renameFrom := []
  m_isLoggedIn := false
  m_waitingForPassword := false
  m_dataHostAddress := QHostAddress.null
  m_dataPort := 0

/-- A new session, as the specification describes one, in the concrete
world. -/
def simFresh : Sys SimWorld where
  world := simWorld
  conn := freshConnection
  trace := []

/-- What the constructor of `FtpConnection` guarantees of the members of the
model: the current directory is `/`; `m_timer` has not been assigned; the
members with a default constructor are empty or null. Of the other members
(pointers, counters, flags, modes) it guarantees nothing. -/
def Constructed (conn : FtpConnection) : Prop :=
  conn.m_currentPath = "/".toList ∧ conn.m_timer = Pointer.unassigned ∧
  conn.m_username = [] ∧ conn.m_renameFrom = [] ∧
  conn.m_dataHostAddress = QHostAddress.null

/-- A session as the constructor leaves it, in the concrete world: the state
`simFresh` with `m_timer` not assigned. -/
def simConstructed : Sys SimWorld where
  world := simWorld
  conn := { freshConnection with m_timer := Pointer.unassigned }
  trace := []

/-- A logged-in session in the concrete world. -/
def simLoggedIn : Sys SimWorld where
  world := simWorld
  conn := { freshConnection with m_isLoggedIn := true, m_username := "admin".toList }
  trace := []

/-- The property every kept segment has. -/
def GoodSegment (seg : QString) : Prop :=
  seg ≠ [] ∧ seg ≠ ".".toList ∧ seg ≠ "..".toList ∧ '/' ∉ seg

/-! ## Vocabulary of the statements -/

/-- The commands whose handler starts with `checkLogin`. -/
def loginCommands : List QString :=
  ["PORT".toList, "PASV".toList, "LIST".toList, "CWD".toList, "PWD".toList, "MKD".toList,
    "RMD".toList, "DELE".toList, "RNFR".toList, "RNTO".toList, "STOR".toList, "RETR".toList]

/-- The command of a line read from the control socket. -/
def commandOf {W : Type} (env : Env W) (rawLine : QString) : QString :=
  (parseLine env (env.trimmed rawLine)).1

/-- The parameter of a line read from the control socket. -/
def parameterOf {W : Type} (env : Env W) (rawLine : QString) : QString :=
  (parseLine env (env.trimmed rawLine)).2

/-- The line is a `PASS` that reaches the auth predicate in this state, and the
predicate accepts the pending user name with the password of the line. -/
def passAccepted {W : Type} (env : Env W) (s : Sys W) (rawLine : QString) : Bool :=
  !(env.trimmed rawLine).isEmpty && commandOf env rawLine == "PASS".toList
    && s.conn.m_waitingForPassword
    && authenticateUser s.conn.m_username (parameterOf env rawLine)

/-- No line of the sequence, processed in order from this state, is a `PASS`
that the auth predicate accepts. -/
def noPassAccepted {W : Type} (env : Env W) (server : FtpServer) :
    Sys W → List QString → Bool
  | _, [] => true
  | s, line :: rest =>
    !passAccepted env s line &&
      match processLine env server s line with
      | none => true
      | some s1 => noPassAccepted env server s1 rest

/-- Every path that the actions of a trace hand to the filesystem has the
property `P`. -/
def TracePaths (P : QString → Prop) (trace : List Action) : Prop :=
  ∀ a ∈ trace, ∀ q ∈ a.paths, P q

/-- What the helpers of the data connection leave alone: the current directory,
the pending rename path, the login flag; and they hand no path to the
filesystem. -/
def Frame {W : Type} (P : QString → Prop) (s s1 : Sys W) : Prop :=
  s1.conn.m_currentPath = s.conn.m_currentPath ∧
  s1.conn.m_renameFrom = s.conn.m_renameFrom ∧
  s1.conn.m_isLoggedIn = s.conn.m_isLoggedIn ∧
  (TracePaths P s.trace → TracePaths P s1.trace)

/-- The commands whose handler builds a filesystem path from the parameter. -/
def pathCommands : List QString :=
  ["LIST".toList, "CWD".toList, "MKD".toList, "RMD".toList, "DELE".toList, "RNFR".toList,
    "RNTO".toList, "STOR".toList, "RETR".toList]

/-- The pending rename path is empty or was produced by `resolvePath`: what
holds of `m_renameFrom` in the constructed session and after every command. -/
def RenameFromResolved (conn : FtpConnection) : Prop :=
  conn.m_renameFrom = [] ∨ ∃ cwd path : QString, conn.m_renameFrom = resolvePath cwd path

/-- A logged-in connection with the rename of `/old.txt` pending. -/
def simPending : FtpConnection :=
  { freshConnection with
    m_isLoggedIn := true, m_username := "admin".toList, m_renameFrom := "/old.txt".toList }

/-- The code of the last reply the session has written. -/
def lastReplyCode {W : Type} (s : Sys W) : Option Int :=
  (replies s.trace).getLast?.map Prod.fst

/-- The logged-in session after `RNFR old.txt`, which replies 350. -/
def simAfterRNFR : Sys SimWorld :=
  handleRNFR simEnv simServer simLoggedIn "old.txt".toList

/-- The session after `RNFR old.txt` and then `CWD /`. -/
def simAfterCWD : Sys SimWorld :=
  handleCWD simEnv simServer simAfterRNFR "/".toList

/-- The text of the PASV reply as the specification gives it, for the six
numbers `h1,h2,h3,h4,p1,p2`: `Entering Passive Mode (h1,h2,h3,h4,p1,p2)`. -/
def pasvText (fields : List Nat) : QString :=
  "Entering Passive Mode (".toList ++ join ',' (fields.map (fun n => Nat.toDigits 10 n))
    ++ ")".toList

/-- The commands of the table of `processCommand`. -/
def tableCommands : List QString :=
  ["USER".toList, "PASS".toList, "SYST".toList, "QUIT".toList, "TYPE".toList, "PORT".toList,
    "PASV".toList, "LIST".toList, "CWD".toList, "PWD".toList, "MKD".toList, "RMD".toList,
    "DELE".toList, "RNFR".toList, "RNTO".toList, "STOR".toList, "RETR".toList, "NOOP".toList]

/-- The verb of a trimmed line, in the words of the specification: the part
before its first space (the whole line when it has no space). -/
def specVerb (line : QString) : QString :=
  line.takeWhile (fun c => c != ' ')

/-- The parameter of a trimmed line, in the words of the specification: the
rest of the line after its first space, verbatim (empty when the line has no
space). -/
def specParameter (line : QString) : QString :=
  (line.dropWhile (fun c => c != ' ')).drop 1

/-! ## Events -/

/-- What the event loop delivers to a session: `readyRead` of the control
socket with a line to read (the slot `processCommand`), the signals of the data
socket and of the passive server that are connected to slots, the idle timer,
and the single-shot timer of the constructor that sends the welcome message. -/
inductive Event
  | line (rawLine : QString)
  | dataConnected
  | dataReadyRead (data : QByteArray)
  | dataDisconnected
  | bytesWritten (bytes : Int)
  | timeout
  | welcome
  deriving DecidableEq, Repr

/-- The lambda of the constructor: the welcome message, sent when the control
socket is there and in `ConnectedState`. -/
def sendWelcome {W : Type} (env : Env W) (s : Sys W) : Sys W :=
  if env.controlConnected s.world then sendResponse s 220 "FTP Server Ready".toList
  else s

/-- The slot that an event runs. -/
def handleEvent {W : Type} (env : Env W) (server : FtpServer) (s : Sys W) :
    Event → Option (Sys W)
  | .line rawLine => processCommand env server s [rawLine]
  | .dataConnected => some (onDataConnected env s)
  | .dataReadyRead data => some (onDataReadyRead env s data)
  | .dataDisconnected => some (onDataDisconnected s)
  | .bytesWritten bytes => some (onBytesWritten env s bytes)
  | .timeout => some (onTimeout s)
  | .welcome => some (sendWelcome env s)

/-- A session run over a sequence of events. -/
def run {W : Type} (env : Env W) (server : FtpServer) : Sys W → List Event → Option (Sys W)
  | s, [] => some s
  | s, e :: rest =>
    match handleEvent env server s e with
    | none => none
    | some s1 => run env server s1 rest

/-- A normalized absolute path: it begins with `/`, and it is `/` itself or
the segments after the leading `/` are all non-empty and none is `.` or `..`. -/
def NormalizedPath (p : QString) : Prop :=
  p.head? = some '/' ∧
  (p = "/".toList ∨
    ∀ seg ∈ split '/' p.tail, seg ≠ [] ∧ seg ≠ ".".toList ∧ seg ≠ "..".toList)

/-- The trace of `s1` is the trace of `s` followed by new actions, and every
reply among the new actions has the property `R`. -/
def Ext {W : Type} (R : Int → QString → Prop) (s s1 : Sys W) : Prop :=
  ∃ new, s1.trace = s.trace ++ new ∧ ∀ c m, Action.reply c m ∈ new → R c m

/-- The replies with a fixed text that `handleLIST` and the helpers it calls
can send. -/
def listReplies : List (Int × QString) :=
  [(530, "Not logged in".toList), (425, "Cannot open data connection".toList),
    (425, "Can't open data connection".toList), (150, "Data connection established".toList),
    (150, "Opening data connection for directory listing".toList),
    (550, "Directory not found".toList)]

/-- The replies with a fixed text in `ftpconnection.cpp`. The other replies
are 227 of `handlePASV`, 250 of `handleCWD`, and 257 of `handlePWD` and
`handleMKD`, whose text is built from an address or a path. -/
def fixedReplies : List (Int × QString) :=
  [(220, "FTP Server Ready".toList), (421, "Timeout: closing control connection".toList),
    (226, "Transfer complete".toList), (150, "Data connection established".toList),
    (425, "Cannot open data connection".toList), (425, "Can't open data connection".toList),
    (530, "Not logged in".toList), (331, "User name okay, need password".toList),
    (503, "Bad sequence of commands".toList), (230, "User logged in, proceed".toList),
    (530, "Login incorrect".toList), (215, "UNIX Type: L8".toList), (221, "Goodbye".toList),
    (200, "Type set to ASCII".toList), (200, "Type set to Binary".toList),
    (504, "Type not implemented".toList), (501, "Invalid PORT command".toList),
    (200, "PORT command successful".toList),
    (150, "Opening data connection for directory listing".toList),
    (550, "Directory not found".toList), (501, "Missing directory name".toList),
    (550, "Failed to create directory".toList), (250, "Directory removed".toList),
    (550, "Failed to remove directory".toList), (501, "Missing file name".toList),
    (250, "File deleted".toList), (550, "Failed to delete file".toList),
    (350, "Ready for RNTO".toList), (550, "File not found".toList),
    (503, "RNFR required first".toList), (250, "File renamed".toList),
    (550, "Failed to rename file".toList), (550, "Failed to open file".toList),
    (150, "Opening data connection for file upload".toList),
    (150, "Opening data connection for file download".toList),
    (200, "NOOP command successful".toList), (502, "Command not implemented".toList)]

/-- The concrete environment on a system that hands out the next port number at
every `listen`. -/
def simEnvFreshPorts : Env SimWorld :=
  { simEnv with
    listen := fun w => (w.nextPort, { w with nextPort := w.nextPort.map (fun p => p + 1) }) }

/-- The logged-in session after `PASV`, which replies 227 and advertises port
50000. -/
def simAfterPASV : Sys SimWorld :=
  handlePASV simEnvFreshPorts simLoggedIn []

/-- The logged-in session after `PORT 127,0,0,1,195,80`, which replies 200. -/
def simAfterPORT : Sys SimWorld :=
  handlePORT simEnv simLoggedIn "127,0,0,1,195,80".toList

/-- The column at which the name starts in a line of the listing: the length
of the line without the name and the final CRLF. -/
def nameColumn {W : Type} (env : Env W) (currentYear : Int) (info : QFileInfo) : Nat :=
  (listLine env currentYear info).length - (info.fileName.length + 2)

/-- One line of the listing in the words of the specification: perms, space,
link count 1 right-aligned to width 3, space, `owner` right-aligned to width 8,
space, `group` right-aligned to width 8, space, size right-aligned to width 8,
space, date, space, name, CRLF; the date is in the form `MMM dd  yyyy` when the
modification year differs from the current year and in the form `MMM dd hh:mm`
otherwise. -/
def specListLine {W : Type} (env : Env W) (currentYear : Int) (info : QFileInfo) : QString :=
  (if info.isDir then "drw-r--r--" else "-rw-r--r--").toList ++ ' ' :: "  1".toList
    ++ ' ' :: "   owner".toList ++ ' ' :: "   group".toList
    ++ ' ' :: (List.replicate (8 - (number info.size).length) ' ' ++ number info.size)
    ++ ' ' :: (if info.lastModified.year ≠ currentYear then dateYearFormat env info.lastModified
        else dateTimeFormat env info.lastModified)
    ++ ' ' :: info.fileName ++ ['\r', '\n']

/-- An entry whose size has at most eight digits and whose date is printed in
twelve characters apart from the length of the month abbreviation: a year of
the current year or in 0..9999, and day, hour and minute below 100. -/
def PlainEntry (currentYear : Int) (info : QFileInfo) : Prop :=
  0 ≤ info.size ∧ info.size < 100000000 ∧
  (info.lastModified.year = currentYear ∨
    (0 ≤ info.lastModified.year ∧ info.lastModified.year ≤ 9999)) ∧
  info.lastModified.day < 100 ∧ info.lastModified.hour < 100 ∧ info.lastModified.minute < 100

/-- A file of five bytes modified on 2 January 2024 at 03:04. -/
def simEntryThisYear : QFileInfo where
  fileName := "a.txt".toList
  isDir := false
  size := 5
  lastModified := { year := 2024, month := 1, day := 2, hour := 3, minute := 4 }

/-- A file of five bytes modified on 2 January of the year 10000 at 03:04. -/
def simEntryYear10000 : QFileInfo where
  fileName := "b.txt".toList
  isDir := false
  size := 5
  lastModified := { year := 10000, month := 1, day := 2, hour := 3, minute := 4 }

/-- A directory modified on 31 December 1999 at 23:59. -/
def simEntryDir1999 : QFileInfo where
  fileName := "pub".toList
  isDir := true
  size := 4096
  lastModified := { year := 1999, month := 12, day := 31, hour := 23, minute := 59 }

/-- The reply codes the specification lists. -/
def replyCodes : List Int :=
  [150, 200, 215, 220, 221, 225, 226, 227, 230, 250, 257, 331, 350, 421, 425, 426, 501, 502,
    503, 504, 530, 550]

/-- A reply of one line: its code is one of the listed codes and its message
has no line feed. -/
def SingleLine (code : Int) (message : QString) : Prop :=
  code ∈ replyCodes ∧ '\n' ∉ message

/-! ## The server and the main window -/

/-- What `FtpServer` and `MainWindow` ask of the operating system: `QDir::exists`
and `QDir::mkpath` on a path, `QTcpServer::listen` on a port with the
`errorString` of a failure, and the closing of the listening socket and of the
live connections in `FtpServer::stop`. -/
structure ServerEnv (W : Type) where
  dirExists : W → QString → Bool
  mkpath : W → QString → Bool × W
  listen : W → Int → Bool × W
  errorString : W → QString
  close : W → W

/-- An `FtpServer` in its world, with the messages it has emitted through the
signal `logMessage`. The listening socket `m_server` and the list
`m_connections` are part of the world. -/
structure ServerSys (W : Type) where
  world : W
  server : FtpServer
  logMessages : List QString

/-- `FtpServer::setRootPath`: the root path is assigned; the directory is
created when it does not exist (the result of `mkpath` is not read); the
message is emitted. -/
def FtpServer.setRootPath (env : ServerEnv W) (s : ServerSys W) (path : QString) :
    ServerSys W :=
  let s1 : ServerSys W := { s with server := { s.server with m_rootPath := path } }
  let s2 : ServerSys W :=
    if !env.dirExists s1.world s1.server.m_rootPath then
      { s1 with world := (env.mkpath s1.world s1.server.m_rootPath).2 }
    else s1
  { s2 with
    logMessages := s2.logMessages ++ ["Root path set to: ".toList ++ s2.server.m_rootPath] }

/-- `FtpServer::stop`: a running server closes its listening socket and its
connections and is no longer running; a stopped server is left as it is. -/
def FtpServer.stop (env : ServerEnv W) (s : ServerSys W) : ServerSys W :=
  if s.server.m_isRunning then
    { world := env.close s.world,
      server := { s.server with m_isRunning := false },
      logMessages := s.logMessages ++ ["FTP Server stopped".toList] }
  else s

/-- `FtpServer::start`: a running server is stopped first; the port is stored;
when `listen` fails the result is false, otherwise the server is running. -/
def FtpServer.start (env : ServerEnv W) (s : ServerSys W) (port : Int) :
    Bool × ServerSys W :=
  let s1 : ServerSys W := if s.server.m_isRunning then FtpServer.stop env s else s
  let s2 : ServerSys W := { s1 with server := { s1.server with m_port := port } }
  match env.listen s2.world s2.server.m_port with
  | (false, w) =>
    (false, { s2 with
      world := w,
      logMessages := s2.logMessages ++ ["Server failed to start: ".toList ++ env.errorString w] })
  | (true, w) =>
    (true, { world := w,
             server := { s2.server with m_isRunning := true },
             logMessages := s2.logMessages
               ++ ["FTP Server started on port ".toList ++ number s2.server.m_port] })

/-- The server of `MainWindow` and the state of the widgets that its slots
read and write. -/
structure MainWindow (W : Type) where
  m_server : ServerSys W
  startButtonEnabled : Bool
  stopButtonEnabled : Bool
  portSpinBoxEnabled : Bool
  rootDirEditEnabled : Bool
  browseButtonEnabled : Bool
  portSpinBox : Int
  rootDirEdit : QString
  statusLabel : QString

/-- `MainWindow::updateUiState`. -/
def updateUiState (win : MainWindow W) (serverRunning : Bool) : MainWindow W :=
  { win with
    startButtonEnabled := !serverRunning,
    stopButtonEnabled := serverRunning,
    portSpinBoxEnabled := !serverRunning,
    rootDirEditEnabled := !serverRunning,
    browseButtonEnabled := !serverRunning,
    statusLabel := if serverRunning then "Running".toList else "Stopped".toList }

/-- `MainWindow::onStartButtonClicked`; `createDirectory` is the answer to the
question whether a missing directory is to be created. The message boxes that
report a failure change nothing. -/
def onStartButtonClicked (env : ServerEnv W) (win : MainWindow W) (createDirectory : Bool) :
    MainWindow W :=
  let port := win.portSpinBox
  let rootPath := win.rootDirEdit
  let validated : Bool × W :=
    if !env.dirExists win.m_server.world rootPath then
      if createDirectory then env.mkpath win.m_server.world rootPath
      else (false, win.m_server.world)
    else (true, win.m_server.world)
  match validated with
  | (false, w) => { win with m_server := { win.m_server with world := w } }
  | (true, w) =>
    let s1 := FtpServer.setRootPath env { win.m_server with world := w } rootPath
    match FtpServer.start env s1 port with
    | (false, s2) => { win with m_server := s2 }
    | (true, s2) => updateUiState { win with m_server := s2 } true

/-- `MainWindow::onStopButtonClicked`. -/
def onStopButtonClicked (env : ServerEnv W) (win : MainWindow W) : MainWindow W :=
  updateUiState { win with m_server := FtpServer.stop env win.m_server } false

/-- `MainWindow::onBrowseButtonClicked`; `dir` is what the directory dialog
returns, empty when it is cancelled. -/
def onBrowseButtonClicked (win : MainWindow W) (dir : QString) : MainWindow W :=
  if !dir.isEmpty then { win with rootDirEdit := dir } else win

/-- What the user does in the main window: a click on a button, a text typed
into the root directory field, a value set in the port field. -/
inductive GuiEvent
  | startClicked (createDirectory : Bool)
  | stopClicked
  | browseClicked (dir : QString)
  | rootDirEdited (text : QString)
  | portChanged (value : Int)
  deriving DecidableEq, Repr

/-- One event in the main window: a disabled widget takes no input and emits
no signal; an enabled button runs the slot connected to `clicked`. -/
def guiStep (env : ServerEnv W) (win : MainWindow W) : GuiEvent → MainWindow W
  | .startClicked createDirectory =>
    if win.startButtonEnabled then onStartButtonClicked env win createDirectory else win
  | .stopClicked => if win.stopButtonEnabled then onStopButtonClicked env win else win
  | .browseClicked dir => if win.browseButtonEnabled then onBrowseButtonClicked win dir else win
  | .rootDirEdited text => if win.rootDirEditEnabled then { win with rootDirEdit := text } else win
  | .portChanged value => if win.portSpinBoxEnabled then { win with portSpinBox := value } else win

/-- The main window over a sequence of events. -/
def guiRun (env : ServerEnv W) : MainWindow W → List GuiEvent → MainWindow W
  | win, [] => win
  | win, e :: rest => guiRun env (guiStep env win e) rest

/-- The start button is enabled exactly when the server is not running: what
`updateUiState` establishes in the constructor and after every start and
stop. -/
def StartButtonSynced (win : MainWindow W) : Prop :=
  win.startButtonEnabled = !win.m_server.server.m_isRunning

/-- The operating system of the concrete world, for the server. -/
def simServerEnv : ServerEnv SimWorld where
  dirExists := fun w p => decide (p ∈ w.dirs)
  mkpath := fun w p =>
    if p ∈ w.files then (false, w)
    else if p ∈ w.dirs then (true, w)
    else (true, { w with dirs := p :: w.dirs })
  listen := fun w _ => (true, w)
  errorString := fun _ => []
  close := fun w => w

/-- The running server rooted at `/srv/ftp`, in the concrete world. -/
def simRunning : ServerSys SimWorld where
  world := simWorld
  server := simServer
  logMessages := []

/-- The main window after its constructor in the concrete world: the server
stopped on port 21 with the default root, the start button enabled. -/
def simWindow : MainWindow SimWorld where
  m_server := { world := simWorld,
                server := { m_rootPath := "/home/user/ftp".toList, m_port := 21,
                            m_isRunning := false },
                logMessages := [] }
  startButtonEnabled := true
  stopButtonEnabled := false
  portSpinBoxEnabled := true
  rootDirEditEnabled := true
  browseButtonEnabled := true
  portSpinBox := 21
  rootDirEdit := "/home/user/ftp".toList
  statusLabel := "Stopped".toList

/-- Two characters that are equal, or the upper-case and the lower-case form
of one ASCII letter (`A`..`Z` are 65..90, the lower-case form is 32 above). -/
def sameLetter (a b : Char) : Prop :=
  a = b ∨ (65 ≤ a.toNat ∧ a.toNat ≤ 90 ∧ b.toNat = a.toNat + 32) ∨
    (65 ≤ b.toNat ∧ b.toNat ≤ 90 ∧ a.toNat = b.toNat + 32)

/-- Two strings that differ only in the case of ASCII letters. -/
def SameUpToCase (a b : QString) : Prop :=
  List.Forall₂ sameLetter a b

/-- The contract of `QString::toUpper` on ASCII text: the letters `a`..`z`
become `A`..`Z`, every other character stays. -/
def UpperCasesAscii {W : Type} (env : Env W) : Prop :=
  ∀ v : QString, (∀ c ∈ v, c.toNat < 128) → env.toUpper v = v.map Char.toUpper

/-! # Verification -/

/-! ## Path resolution -/

/-- No piece of a split contains the separator. -/
theorem sep_not_mem_of_mem_splitOn (sep : Char) (s : QString) :
    ∀ seg ∈ s.splitOn sep, sep ∉ seg := by
  induction s with
  | nil => intro seg h; simp [List.splitOn, List.splitOnP_nil] at h; simp [h]
  | cons c cs ih =>
    intro seg h
    simp only [List.splitOn] at h ih
    rw [List.splitOnP_cons] at h
    by_cases hc : (c == sep) = true
    · simp only [hc, if_true] at h
      rcases List.mem_cons.1 h with h | h
      · simp [h]
      · exact ih seg h
    · simp only [hc] at h
      have hne : List.splitOnP (fun x => x == sep) cs ≠ [] := List.splitOnP_ne_nil _ _
      cases hsp : List.splitOnP (fun x => x == sep) cs with
      | nil => exact absurd hsp hne
      | cons a as =>
        rw [hsp] at h ih
        simp only [if_false, List.modifyHead, Bool.false_eq_true] at h
        rcases List.mem_cons.1 h with h | h
        · subst h
          have := ih a (List.mem_cons_self _ _)
          intro hm
          rcases List.mem_cons.1 hm with hm | hm
          · exact hc (by simp [hm])
          · exact this hm
        · exact ih seg (List.mem_cons_of_mem _ h)

/-- The segments `resolvePath` works on are non-empty and free of `/`. -/
theorem splitSkipEmptyParts_spec (sep : Char) (s : QString) :
    ∀ seg ∈ splitSkipEmptyParts sep s, seg ≠ [] ∧ sep ∉ seg := by
  intro seg h
  simp only [splitSkipEmptyParts, List.mem_filter] at h
  refine ⟨?_, sep_not_mem_of_mem_splitOn sep s seg h.1⟩
  intro h0
  simp [h0] at h

theorem resolveSegments_good (segments : List QString)
    (h : ∀ seg ∈ segments, seg ≠ [] ∧ '/' ∉ seg) :
    ∀ seg ∈ resolveSegments segments, GoodSegment seg := by
  unfold resolveSegments
  suffices H : ∀ (acc : List QString), (∀ seg ∈ acc, GoodSegment seg) →
      ∀ seg ∈ segments.foldl (fun result segment =>
        if segment = ".".toList then result
        else if segment = "..".toList then
          (if !result.isEmpty then result.dropLast else result)
        else result ++ [segment]) acc, GoodSegment seg by
    exact H [] (by simp)
  induction segments with
  | nil => intro acc hacc; simpa using hacc
  | cons x xs ih =>
    intro acc hacc
    simp only [List.foldl_cons]
    apply ih (fun seg hs => h seg (List.mem_cons_of_mem _ hs))
    by_cases h1 : x = ".".toList
    · simpa [h1] using hacc
    · by_cases h2 : x = "..".toList
      · simp only [h1, h2, if_true, if_false]
        by_cases h3 : (!acc.isEmpty) = true
        · rw [if_pos h3]
          intro seg hs; exact hacc seg (List.mem_of_mem_dropLast hs)
        · rw [if_neg h3]; exact hacc
      · simp only [h1, h2, if_false]
        intro seg hs
        rcases List.mem_append.1 hs with hs | hs
        · exact hacc seg hs
        · have : seg = x := by simpa using hs
          subst this
          exact ⟨(h seg (List.mem_cons_self _ _)).1, h1, h2, (h seg (List.mem_cons_self _ _)).2⟩

theorem join_singleton (sep : Char) (a : QString) : join sep [a] = a := by
  simp [join, List.intercalate, List.intersperse]

theorem join_cons_cons (sep : Char) (a b : QString) (rest : List QString) :
    join sep (a :: b :: rest) = a ++ sep :: join sep (b :: rest) := by
  simp [join, List.intercalate, List.intersperse]

/-- A doubled slash in `a ++ t`, where `a` has no slash, lies in `t`. -/
theorem doubled_slash_append (a t : QString) (ha : '/' ∉ a)
    (h : ['/', '/'] <:+: a ++ t) : ['/', '/'] <:+: t := by
  induction a with
  | nil => simpa using h
  | cons x a ih =>
    have hx : x ≠ '/' := fun e => ha (by simp [e])
    have ha2 : '/' ∉ a := fun e => ha (List.mem_cons_of_mem _ e)
    rw [List.cons_append, List.infix_cons_iff] at h
    rcases h with h | h
    · exact absurd (List.cons_prefix_cons.1 h).1.symm hx
    · exact ih ha2 h

/-- The joined stack of kept segments: non-empty, no slash at either end, no
doubled slash. -/
theorem join_good (stack : List QString) (hne : stack ≠ [])
    (h : ∀ seg ∈ stack, seg ≠ [] ∧ '/' ∉ seg) :
    join '/' stack ≠ [] ∧ (join '/' stack).head? ≠ some '/' ∧
      (join '/' stack).getLast? ≠ some '/' ∧ ¬ ['/', '/'] <:+: join '/' stack := by
  induction stack with
  | nil => exact absurd rfl hne
  | cons a rest ih =>
    have ha := h a (List.mem_cons_self _ _)
    have hhead : ∀ t : QString, (a ++ t).head? ≠ some '/' := by
      intro t e
      cases a with
      | nil => exact ha.1 rfl
      | cons x a => exact ha.2 (by simp at e; simp [e])
    cases rest with
    | nil =>
      rw [join_singleton]
      refine ⟨ha.1, by simpa using hhead [], ?_, ?_⟩
      · intro e
        exact ha.2 (List.mem_of_getLast?_eq_some e)
      · intro e
        have : '/' ∈ ['/', '/'] := by simp
        exact ha.2 (e.subset this)
    | cons b rest =>
      have ih' := ih (by simp) (fun seg hs => h seg (List.mem_cons_of_mem _ hs))
      rw [join_cons_cons]
      refine ⟨by simp, hhead _, ?_, ?_⟩
      · rw [List.getLast?_append_of_ne_nil _ (by simp)]
        cases hj : join '/' (b :: rest) with
        | nil => exact absurd hj ih'.1
        | cons y ys =>
          rw [List.getLast?_cons_cons, ← hj]
          exact ih'.2.2.1
      · intro e
        have := doubled_slash_append a _ ha.2 e
        rw [List.infix_cons_iff] at this
        rcases this with e2 | e2
        · have := (List.cons_prefix_cons.1 e2).2
          have : (join '/' (b :: rest)).head? = some '/' := by
            rcases this with ⟨t, ht⟩
            rw [← ht]; rfl
          exact ih'.2.1 this
        · exact ih'.2.2.2 e2

/-- `resolvePath` returns `/` followed by the joined stack of kept segments. -/
theorem resolvePath_eq (cwd path : QString) :
    resolvePath cwd path
      = '/' :: join '/' (resolveSegments (splitSkipEmptyParts '/' (resolveStart cwd path))) := by
  simp [resolvePath]

/-- The stack `resolvePath` joins consists of kept segments only. -/
theorem resolvePath_stack_good (cwd path : QString) :
    ∀ seg ∈ resolveSegments (splitSkipEmptyParts '/' (resolveStart cwd path)),
      GoodSegment seg :=
  resolveSegments_good _ (splitSkipEmptyParts_spec '/' _)

/-- Splitting the joined stack gives the stack back. -/
theorem split_join_good (stack : List QString) (hne : stack ≠ [])
    (h : ∀ seg ∈ stack, GoodSegment seg) : split '/' (join '/' stack) = stack := by
  unfold split join
  exact List.splitOn_intercalate stack '/' (fun l hl => (h l hl).2.2.2) hne

/-- C2: for every current directory and every client path, `resolvePath`
returns a normalized absolute path: it begins with `/`; it is exactly `/`, or
the `/`-separated segments after the leading slash contain no empty segment,
no `.` and no `..`, there is no doubled slash and no trailing slash; and when
no segment is kept the result is exactly `/`. -/
theorem resolvePath_normalized (cwd path : QString) :
    (resolvePath cwd path).head? = some '/' ∧
    (resolvePath cwd path = "/".toList ∨
      ((∀ seg ∈ split '/' (resolvePath cwd path).tail,
          seg ≠ [] ∧ seg ≠ ".".toList ∧ seg ≠ "..".toList) ∧
        ¬ ['/', '/'] <:+: resolvePath cwd path ∧
        (resolvePath cwd path).getLast? ≠ some '/')) ∧
    (resolveSegments (splitSkipEmptyParts '/' (resolveStart cwd path)) = [] →
      resolvePath cwd path = "/".toList) := by
  have hgood := resolvePath_stack_good cwd path
  rw [resolvePath_eq]
  generalize resolveSegments (splitSkipEmptyParts '/' (resolveStart cwd path)) = stack at hgood
  refine ⟨rfl, ?_, ?_⟩
  · by_cases hne : stack = []
    · left; subst hne; rfl
    · right
      have hj := join_good stack hne (fun seg hs => ⟨(hgood seg hs).1, (hgood seg hs).2.2.2⟩)
      refine ⟨?_, ?_, ?_⟩
      · intro seg hs
        rw [List.tail_cons, split_join_good stack hne hgood] at hs
        exact ⟨(hgood seg hs).1, (hgood seg hs).2.1, (hgood seg hs).2.2.1⟩
      · intro e
        rw [List.infix_cons_iff] at e
        rcases e with e | e
        · rcases (List.cons_prefix_cons.1 e).2 with ⟨t, ht⟩
          exact hj.2.1 (by rw [← ht]; rfl)
        · exact hj.2.2.2 e
      · cases hjs : join '/' stack with
        | nil => exact absurd hjs hj.1
        | cons y ys =>
          rw [List.getLast?_cons_cons, ← hjs]
          exact hj.2.2.1
  · intro hs
    subst hs
    rfl
/-! ## Dispatch -/

theorem dispatch_USER (env : Env W) (server : FtpServer) (s : Sys W) (p : QString) :
    dispatch env server s "USER".toList p = some (handleUSER s p) := rfl

theorem dispatch_PASS (env : Env W) (server : FtpServer) (s : Sys W) (p : QString) :
    dispatch env server s "PASS".toList p = some (handlePASS s p) := rfl

theorem dispatch_SYST (env : Env W) (server : FtpServer) (s : Sys W) (p : QString) :
    dispatch env server s "SYST".toList p = some (handleSYST s p) := rfl

theorem dispatch_QUIT (env : Env W) (server : FtpServer) (s : Sys W) (p : QString) :
    dispatch env server s "QUIT".toList p = some (handleQUIT s p) := rfl

theorem dispatch_TYPE (env : Env W) (server : FtpServer) (s : Sys W) (p : QString) :
    dispatch env server s "TYPE".toList p = some (handleTYPE s p) := rfl

theorem dispatch_PORT (env : Env W) (server : FtpServer) (s : Sys W) (p : QString) :
    dispatch env server s "PORT".toList p = some (handlePORT env s p) := rfl

theorem dispatch_PASV (env : Env W) (server : FtpServer) (s : Sys W) (p : QString) :
    dispatch env server s "PASV".toList p = some (handlePASV env s p) := rfl

theorem dispatch_LIST (env : Env W) (server : FtpServer) (s : Sys W) (p : QString) :
    dispatch env server s "LIST".toList p = handleLIST env server s p := rfl

theorem dispatch_CWD (env : Env W) (server : FtpServer) (s : Sys W) (p : QString) :
    dispatch env server s "CWD".toList p = some (handleCWD env server s p) := rfl

theorem dispatch_PWD (env : Env W) (server : FtpServer) (s : Sys W) (p : QString) :
    dispatch env server s "PWD".toList p = some (handlePWD s p) := rfl

theorem dispatch_MKD (env : Env W) (server : FtpServer) (s : Sys W) (p : QString) :
    dispatch env server s "MKD".toList p = some (handleMKD env server s p) := rfl

theorem dispatch_RMD (env : Env W) (server : FtpServer) (s : Sys W) (p : QString) :
    dispatch env server s "RMD".toList p = some (handleRMD env server s p) := rfl

theorem dispatch_DELE (env : Env W) (server : FtpServer) (s : Sys W) (p : QString) :
    dispatch env server s "DELE".toList p = some (handleDELE env server s p) := rfl

theorem dispatch_RNFR (env : Env W) (server : FtpServer) (s : Sys W) (p : QString) :
    dispatch env server s "RNFR".toList p = some (handleRNFR env server s p) := rfl

theorem dispatch_RNTO (env : Env W) (server : FtpServer) (s : Sys W) (p : QString) :
    dispatch env server s "RNTO".toList p = some (handleRNTO env server s p) := rfl

theorem dispatch_STOR (env : Env W) (server : FtpServer) (s : Sys W) (p : QString) :
    dispatch env server s "STOR".toList p = some (handleSTOR env server s p) := rfl

theorem dispatch_RETR (env : Env W) (server : FtpServer) (s : Sys W) (p : QString) :
    dispatch env server s "RETR".toList p = handleRETR env server s p := rfl

theorem dispatch_NOOP (env : Env W) (server : FtpServer) (s : Sys W) (p : QString) :
    dispatch env server s "NOOP".toList p = some (handleNOOP s p) := rfl

/-- The commands of the table of `processCommand`. -/
theorem dispatch_other (env : Env W) (server : FtpServer) (s : Sys W) (c p : QString)
    (h : c ∉ ["USER".toList, "PASS".toList, "SYST".toList, "QUIT".toList, "TYPE".toList,
      "PORT".toList, "PASV".toList, "LIST".toList, "CWD".toList, "PWD".toList, "MKD".toList,
      "RMD".toList, "DELE".toList, "RNFR".toList, "RNTO".toList, "STOR".toList, "RETR".toList,
      "NOOP".toList]) :
    dispatch env server s c p = some (sendResponse s 502 "Command not implemented".toList) := by
  simp only [List.mem_cons, List.mem_singleton, not_or, List.not_mem_nil, or_false] at h
  obtain ⟨h1, h2, h3, h4, h5, h6, h7, h8, h9, h10, h11, h12, h13, h14, h15, h16, h17, h18⟩ := h
  unfold dispatch
  rw [if_neg h1, if_neg h2, if_neg h3, if_neg h4, if_neg h5, if_neg h6, if_neg h7, if_neg h8,
    if_neg h9, if_neg h10, if_neg h11, if_neg h12, if_neg h13, if_neg h14, if_neg h15,
    if_neg h16, if_neg h17, if_neg h18]
/-! ## Login gate -/

theorem checkLogin_false (s : Sys W) (h : s.conn.m_isLoggedIn = false) :
    checkLogin s = (false, sendResponse s 530 "Not logged in".toList) := by
  simp [checkLogin, h]

theorem checkLogin_true (s : Sys W) (h : s.conn.m_isLoggedIn = true) :
    checkLogin s = (true, s) := by
  simp [checkLogin, h]

/-- Not logged in, a command that needs login is answered 530 and nothing else
happens. -/
theorem dispatch_login_unauth (env : Env W) (server : FtpServer) (s : Sys W)
    (command parameter : QString) (h : s.conn.m_isLoggedIn = false)
    (hc : command ∈ loginCommands) :
    dispatch env server s command parameter
      = some (sendResponse s 530 "Not logged in".toList) := by
  simp only [loginCommands, List.mem_cons, List.mem_singleton, List.not_mem_nil, or_false] at hc
  rcases hc with hc | hc | hc | hc | hc | hc | hc | hc | hc | hc | hc | hc <;> subst hc
  · rw [dispatch_PORT]; simp [handlePORT, checkLogin_false s h]
  · rw [dispatch_PASV]; simp [handlePASV, checkLogin_false s h]
  · rw [dispatch_LIST]; simp [handleLIST, checkLogin_false s h]
  · rw [dispatch_CWD]; simp [handleCWD, checkLogin_false s h]
  · rw [dispatch_PWD]; simp [handlePWD, checkLogin_false s h]
  · rw [dispatch_MKD]; simp [handleMKD, checkLogin_false s h]
  · rw [dispatch_RMD]; simp [handleRMD, checkLogin_false s h]
  · rw [dispatch_DELE]; simp [handleDELE, checkLogin_false s h]
  · rw [dispatch_RNFR]; simp [handleRNFR, checkLogin_false s h]
  · rw [dispatch_RNTO]; simp [handleRNTO, checkLogin_false s h]
  · rw [dispatch_STOR]; simp [handleSTOR, checkLogin_false s h]
  · rw [dispatch_RETR]; simp [handleRETR, checkLogin_false s h]

/-- Not logged in, every command returns, and the session stays not logged in
unless the command is a `PASS` that the auth predicate accepts. -/
theorem dispatch_unauth (env : Env W) (server : FtpServer) (s : Sys W)
    (command parameter : QString) (h : s.conn.m_isLoggedIn = false)
    (hp : ¬ (command = "PASS".toList ∧ s.conn.m_waitingForPassword = true ∧
      authenticateUser s.conn.m_username parameter = true)) :
    ∃ s1, dispatch env server s command parameter = some s1 ∧
      s1.conn.m_isLoggedIn = false := by
  by_cases hl : command ∈ loginCommands
  · exact ⟨_, dispatch_login_unauth env server s command parameter h hl, h⟩
  by_cases h1 : command = "USER".toList
  · subst h1; exact ⟨_, dispatch_USER .., by simp [handleUSER, sendResponse, h]⟩
  by_cases h2 : command = "PASS".toList
  · subst h2
    refine ⟨_, dispatch_PASS .., ?_⟩
    simp only [true_and, not_and, Bool.not_eq_true] at hp
    unfold handlePASS
    by_cases hw : s.conn.m_waitingForPassword = true
    · simp [hw, hp hw, sendResponse]
    · simp [hw, sendResponse, h]
  by_cases h3 : command = "SYST".toList
  · subst h3; exact ⟨_, dispatch_SYST .., by simp [handleSYST, sendResponse, h]⟩
  by_cases h4 : command = "QUIT".toList
  · subst h4; exact ⟨_, dispatch_QUIT .., by simp [handleQUIT, sendResponse, Sys.log, h]⟩
  by_cases h5 : command = "TYPE".toList
  · subst h5
    refine ⟨_, dispatch_TYPE .., ?_⟩
    unfold handleTYPE
    split_ifs <;> simp [sendResponse, h]
  by_cases h6 : command = "NOOP".toList
  · subst h6; exact ⟨_, dispatch_NOOP .., by simp [handleNOOP, sendResponse, h]⟩
  refine ⟨_, dispatch_other env server s command parameter ?_, by simp [sendResponse, h]⟩
  simp only [loginCommands, List.mem_cons, List.mem_singleton, List.not_mem_nil, or_false,
    not_or] at hl ⊢
  tauto
theorem processLine_eq (env : Env W) (server : FtpServer) (s : Sys W) (rawLine : QString) :
    processLine env server s rawLine
      = if (env.trimmed rawLine).isEmpty then some s
        else dispatch env server s (commandOf env rawLine) (parameterOf env rawLine) := rfl

theorem processLine_unauth (env : Env W) (server : FtpServer) (s : Sys W) (rawLine : QString)
    (h : s.conn.m_isLoggedIn = false) (hp : passAccepted env s rawLine = false) :
    ∃ s1, processLine env server s rawLine = some s1 ∧ s1.conn.m_isLoggedIn = false := by
  rw [processLine_eq]
  by_cases he : (env.trimmed rawLine).isEmpty = true
  · rw [if_pos he]; exact ⟨s, rfl, h⟩
  · rw [if_neg he]
    apply dispatch_unauth env server s _ _ h
    rintro ⟨hc, hw, ha⟩
    simp [passAccepted, he, hc, hw, ha] at hp

/-- From a session that is not logged in, a sequence in which no `PASS` is
accepted runs to its end and leaves the session not logged in; the rest of a
longer sequence still has no accepted `PASS`. -/
theorem processLines_unauth (env : Env W) (server : FtpServer) (pre rest : List QString) :
    ∀ s0 : Sys W, s0.conn.m_isLoggedIn = false →
      noPassAccepted env server s0 (pre ++ rest) = true →
      ∃ s, processLines env server s0 pre = some s ∧ s.conn.m_isLoggedIn = false ∧
        noPassAccepted env server s rest = true := by
  induction pre with
  | nil => intro s0 h0 hno; exact ⟨s0, rfl, h0, hno⟩
  | cons l pre ih =>
    intro s0 h0 hno
    simp only [List.cons_append, noPassAccepted, Bool.and_eq_true, Bool.not_eq_true'] at hno
    obtain ⟨s1, hs1, hu1⟩ := processLine_unauth env server s0 l h0 hno.1
    have hno2 := hno.2
    rw [hs1] at hno2
    obtain ⟨s, hs, hu, hr⟩ := ih s1 hu1 hno2
    exact ⟨s, by simp [processLines, hs1, hs], hu, hr⟩

/-- The loop of `processCommand`: starting from a session that is not logged
in, for every sequence of control lines
in which no `PASS` is accepted by the auth predicate, each line
of the sequence whose command is one of PORT, PASV, LIST, CWD, PWD, MKD, RMD,
DELE, RNFR, RNTO, STOR, RETR is answered with exactly one reply, 530, and
leaves the members of the session and the world (the filesystem) as they were:
the only thing the line does is that reply. The whole sequence is processed. -/
theorem loop_login_required (env : Env W) (server : FtpServer) (s0 : Sys W)
    (pre post : List QString) (line : QString)
    (h0 : s0.conn.m_isLoggedIn = false)
    (hno : noPassAccepted env server s0 (pre ++ line :: post) = true)
    (hne : env.trimmed line ≠ [])
    (hcmd : commandOf env line ∈ loginCommands) :
    ∃ s, processLines env server s0 pre = some s ∧
      processLine env server s line
        = some { world := s.world, conn := s.conn,
                 trace := s.trace ++ [Action.reply 530 "Not logged in".toList] } ∧
      ∃ sEnd, processLines env server s0 (pre ++ line :: post) = some sEnd ∧
        sEnd.conn.m_isLoggedIn = false := by
  obtain ⟨s, hs, hu, _⟩ := processLines_unauth env server pre (line :: post) s0 h0 hno
  refine ⟨s, hs, ?_, ?_⟩
  · rw [processLine_eq, if_neg (by simpa using hne),
      dispatch_login_unauth env server s _ _ hu hcmd]
    rfl
  · obtain ⟨sEnd, hEnd, huEnd, _⟩ :=
      processLines_unauth env server (pre ++ line :: post) [] s0 h0 (by simpa using hno)
    exact ⟨sEnd, hEnd, huEnd⟩

/-! ## Frame of the data-connection helpers -/

theorem tracePaths_append (P : QString → Prop) (t : List Action) (a : Action)
    (ht : TracePaths P t) (ha : ∀ q ∈ a.paths, P q) : TracePaths P (t ++ [a]) := by
  intro b hb q hq
  rcases List.mem_append.1 hb with hb | hb
  · exact ht b hb q hq
  · have : b = a := by simpa using hb
    subst this; exact ha q hq

theorem Frame.refl (P : QString → Prop) (s : Sys W) : Frame P s s :=
  ⟨rfl, rfl, rfl, id⟩

theorem Frame.trans {P : QString → Prop} {s s1 s2 : Sys W} (h1 : Frame P s s1)
    (h2 : Frame P s1 s2) : Frame P s s2 :=
  ⟨h2.1.trans h1.1, h2.2.1.trans h1.2.1, h2.2.2.1.trans h1.2.2.1, fun h => h2.2.2.2 (h1.2.2.2 h)⟩

theorem frame_log (P : QString → Prop) (s : Sys W) (a : Action) (ha : ∀ q ∈ a.paths, P q) :
    Frame P s (s.log a) :=
  ⟨rfl, rfl, rfl, fun h => tracePaths_append P _ _ h ha⟩

theorem frame_sendResponse (P : QString → Prop) (s : Sys W) (code : Int) (m : QString) :
    Frame P s (sendResponse s code m) :=
  ⟨rfl, rfl, rfl, fun h => tracePaths_append P _ _ h (by simp [Action.paths])⟩

/-- A change of the world or of the members of the data connection. -/
theorem frame_update (P : QString → Prop) (s : Sys W) (w : W) (c : FtpConnection)
    (h1 : c.m_currentPath = s.conn.m_currentPath) (h2 : c.m_renameFrom = s.conn.m_renameFrom)
    (h3 : c.m_isLoggedIn = s.conn.m_isLoggedIn) :
    Frame P s { world := w, conn := c, trace := s.trace } :=
  ⟨h1, h2, h3, id⟩

theorem frame_closeDataSocket (P : QString → Prop) (s : Sys W) :
    Frame P s (closeDataSocket s) := by
  unfold closeDataSocket
  cases s.conn.m_dataSocket with
  | none => exact Frame.refl P s
  | some x => exact ⟨rfl, rfl, rfl, fun h => tracePaths_append P _ _ h (by simp [Action.paths])⟩

theorem frame_closePassiveServer (P : QString → Prop) (s : Sys W) :
    Frame P s (closePassiveServer s) := by
  unfold closePassiveServer
  cases s.conn.m_passiveServer with
  | none => exact Frame.refl P s
  | some x => exact ⟨rfl, rfl, rfl, fun h => tracePaths_append P _ _ h (by simp [Action.paths])⟩

theorem frame_closeOpenFile (P : QString → Prop) (s : Sys W) :
    Frame P s (closeOpenFile s) := by
  unfold closeOpenFile
  cases s.conn.m_file with
  | none => exact Frame.refl P s
  | some x => exact ⟨rfl, rfl, rfl, fun h => tracePaths_append P _ _ h (by simp [Action.paths])⟩

theorem frame_closeDataConnection (P : QString → Prop) (s : Sys W) :
    Frame P s (closeDataConnection s) :=
  ((frame_closeDataSocket P s).trans (frame_closePassiveServer P _)).trans
    (frame_closeOpenFile P _)

theorem frame_setupDataConnection (P : QString → Prop) (env : Env W) (s : Sys W) :
    Frame P s (setupDataConnection env s) := by
  unfold setupDataConnection
  refine (frame_closeDataConnection P s).trans ?_
  generalize closeDataConnection s = s1
  simp only
  split_ifs with hm
  · rcases hl : env.listen s1.world with ⟨_ | port, w⟩
    · simp only
      exact ⟨rfl, rfl, rfl, fun h =>
        tracePaths_append P _ _ (tracePaths_append P _ _ h (by simp [Action.paths]))
          (by simp [Action.paths])⟩
    · simp only
      exact ⟨rfl, rfl, rfl, fun h => tracePaths_append P _ _ h (by simp [Action.paths])⟩
  · exact ⟨rfl, rfl, rfl, fun h => tracePaths_append P _ _ h (by simp [Action.paths])⟩

theorem frame_onDataConnected (P : QString → Prop) (env : Env W) (s : Sys W) :
    Frame P s (onDataConnected env s) := by
  unfold onDataConnected
  refine Frame.trans ?_ (frame_sendResponse P _ _ _)
  split_ifs with hm
  · split
    · split
      · exact ⟨rfl, rfl, rfl, fun h => tracePaths_append P _ _ h (by simp [Action.paths])⟩
      · exact ⟨rfl, rfl, rfl, id⟩
    · exact Frame.refl P s
  · exact Frame.refl P s

theorem frame_waitActive (P : QString → Prop) (env : Env W) (s : Sys W) (socket : QTcpSocket) :
    Frame P s (waitActive env s socket).2 := by
  unfold waitActive
  generalize (match socket with
    | .outgoing host port => env.waitForConnected s.world host port
    | .accepted _ => (true, s.world)) = r
  rcases r with ⟨_ | _, w⟩
  · exact ((frame_update P s w s.conn rfl rfl rfl).trans (frame_sendResponse P _ _ _)).trans
      (frame_closeDataConnection P _)
  · exact ((frame_update P s w s.conn rfl rfl rfl).trans (frame_onDataConnected P env _)).trans
      (frame_onDataConnected P env _)
/-! ## Frame of the handlers -/

theorem frame_checkLogin (P : QString → Prop) (s : Sys W) : Frame P s (checkLogin s).2 := by
  unfold checkLogin
  split_ifs
  · exact frame_sendResponse P s _ _
  · exact Frame.refl P s

theorem frame_startTransfer (P : QString → Prop) (env : Env W) (s : Sys W) (m : QString) :
    Frame P s (startTransfer env s m).2 := by
  unfold startTransfer
  split
  · exact frame_waitActive P env s _
  · exact frame_sendResponse P _ _ _

theorem frame_waitPassive (P : QString → Prop) (env : Env W) (s : Sys W) (r : Bool × Sys W)
    (h : waitPassive env s = some r) : Frame P s r.2 := by
  unfold waitPassive at h
  split_ifs at h
  · split at h
    · exact absurd h (by simp)
    · split at h <;> simp only [Option.some.injEq] at h <;> subst h
      · exact ((frame_update P s _ s.conn rfl rfl rfl).trans (frame_sendResponse P _ _ _)).trans
          (frame_closeDataConnection P _)
      · exact (frame_update P s _ s.conn rfl rfl rfl).trans (frame_onDataConnected P env _)
  · simp only [Option.some.injEq] at h
    subst h; exact Frame.refl P s

theorem frame_handleLIST (P : QString → Prop) (env : Env W) (server : FtpServer) (s : Sys W)
    (param : QString) (hP : P (server.rootPath ++ resolvePath s.conn.m_currentPath param))
    (s' : Sys W) (h : handleLIST env server s param = some s') : Frame P s s' := by
  unfold handleLIST at h
  have hc := frame_checkLogin P s
  rcases hcl : checkLogin s with ⟨_ | _, s1⟩
  · rw [hcl] at h hc
    simp only [Option.some.injEq] at h
    subst h; exact hc
  rw [hcl] at h hc
  simp only at h hc
  have h2 := hc.trans (frame_setupDataConnection P env s1)
  generalize setupDataConnection env s1 = s2 at h h2
  split_ifs at h with hnone
  · simp only [Option.some.injEq] at h
    subst h; exact h2.trans (frame_sendResponse P _ _ _)
  have hready := h2.trans (frame_startTransfer P env s2
    "Opening data connection for directory listing".toList)
  generalize startTransfer env s2 "Opening data connection for directory listing".toList
    = ready at h hready
  rcases ready with ⟨_ | _, s3⟩
  · simp only [Option.some.injEq] at h
    subst h; exact hready
  simp only at h hready
  rw [hready.1] at h
  have h4 : Frame P s (s3.log (Action.dirExists
      (server.rootPath ++ resolvePath s.conn.m_currentPath param))) :=
    hready.trans (frame_log P s3 _ (by simpa [Action.paths] using hP))
  generalize s3.log (Action.dirExists
      (server.rootPath ++ resolvePath s.conn.m_currentPath param)) = s4 at h h4
  split_ifs at h with hex
  · simp only [Option.some.injEq] at h
    subst h
    exact (h4.trans (frame_sendResponse P _ _ _)).trans (frame_closeDataConnection P _)
  have h5 : Frame P s (s4.log (Action.entryInfoList
      (server.rootPath ++ resolvePath s.conn.m_currentPath param))) :=
    h4.trans (frame_log P s4 _ (by simpa [Action.paths] using hP))
  generalize s4.log (Action.entryInfoList
      (server.rootPath ++ resolvePath s.conn.m_currentPath param)) = s5 at h h5
  rcases hw : waitPassive env s5 with _ | ⟨_ | _, s6⟩
  · rw [hw] at h; exact absurd h (by simp)
  · rw [hw] at h
    simp only [Option.some.injEq] at h
    subst h; exact h5.trans (frame_waitPassive P env s5 _ hw)
  · rw [hw] at h
    have h6 := h5.trans (frame_waitPassive P env s5 _ hw)
    simp only at h h6
    split at h <;> simp only [Option.some.injEq] at h <;> subst h
    · exact (h6.trans (frame_log P _ _ (by simp [Action.paths]))).trans
        (frame_log P _ _ (by simp [Action.paths]))
    · exact h6
theorem frame_openNewFile (P : QString → Prop) (env : Env W) (s : Sys W) (fullPath : QString)
    (mode : OpenMode) (hP : P fullPath) : Frame P s (openNewFile env s fullPath mode).2 := by
  unfold openNewFile
  exact ⟨rfl, rfl, rfl, fun h => tracePaths_append P _ _ h (by simpa [Action.paths] using hP)⟩

theorem frame_handleSTOR (P : QString → Prop) (env : Env W) (server : FtpServer) (s : Sys W)
    (param : QString) (hP : P (server.rootPath ++ resolvePath s.conn.m_currentPath param)) :
    Frame P s (handleSTOR env server s param) := by
  unfold handleSTOR
  have hc := frame_checkLogin P s
  rcases hcl : checkLogin s with ⟨_ | _, s1⟩
  · rw [hcl] at hc; exact hc
  rw [hcl] at hc
  simp only at hc ⊢
  by_cases hp : param.isEmpty = true
  · rw [if_pos hp]; exact hc.trans (frame_sendResponse P _ _ _)
  rw [if_neg hp]
  have h2 := hc.trans (frame_setupDataConnection P env s1)
  generalize setupDataConnection env s1 = s2 at h2 ⊢
  by_cases hnone : s2.conn.m_dataSocket.isNone = true ∧ s2.conn.m_passiveServer.isNone = true
  · rw [if_pos hnone]; exact h2.trans (frame_sendResponse P _ _ _)
  rw [if_neg hnone, h2.1]
  have h3 := h2.trans (frame_openNewFile P env s2 _ OpenMode.WriteOnly hP)
  rcases hop : openNewFile env s2 (server.rootPath ++ resolvePath s.conn.m_currentPath param)
    OpenMode.WriteOnly with ⟨_ | _, s3⟩
  · rw [hop] at h3
    exact (h3.trans (frame_sendResponse P _ _ _)).trans (frame_closeDataConnection P _)
  · rw [hop] at h3
    exact h3.trans (frame_startTransfer P env _ _)

theorem frame_sendFirstChunk (P : QString → Prop) (env : Env W) (s s' : Sys W)
    (h : sendFirstChunk env s = some s') : Frame P s s' := by
  unfold sendFirstChunk at h
  split at h
  · simp only at h
    split_ifs at h <;> simp only [Option.some.injEq] at h <;> subst h
    · refine ⟨rfl, rfl, rfl, fun ht => ?_⟩
      simp only [Sys.log]
      exact tracePaths_append P _ _ (tracePaths_append P _ _ ht (by simp [Action.paths]))
        (by simp [Action.paths])
    · refine ⟨rfl, rfl, rfl, fun ht => ?_⟩
      simp only [Sys.log]
      exact tracePaths_append P _ _ (tracePaths_append P _ _ ht (by simp [Action.paths]))
        (by simp [Action.paths])
  · exact absurd h (by simp)

theorem frame_startDownload (P : QString → Prop) (env : Env W) (s s' : Sys W)
    (h : startDownload env s = some s') : Frame P s s' := by
  unfold startDownload at h
  split at h
  · exact absurd h (by simp)
  rename_i f hf
  have h1 : Frame P s ({ s with conn := { s.conn with
      m_bytesTotal := env.fileSize s.world f.fileName, m_bytesSent := 0 } } : Sys W) :=
    ⟨rfl, rfl, rfl, id⟩
  simp only at h
  generalize ({ s with conn := { s.conn with
      m_bytesTotal := env.fileSize s.world f.fileName, m_bytesSent := 0 } } : Sys W) = s1
    at h h1
  split at h
  · rename_i socket hmode hsock
    have h2 := h1.trans (frame_waitActive P env s1 socket)
    rcases hwa : waitActive env s1 socket with ⟨_ | _, s2⟩
    · rw [hwa] at h h2
      simp only [Option.some.injEq] at h
      subst h; exact h2
    · rw [hwa] at h h2
      exact h2.trans (frame_sendFirstChunk P env _ _ h)
  · simp only [Option.some.injEq] at h
    subst h; exact h1.trans (frame_sendResponse P _ _ _)

theorem frame_handleRETR (P : QString → Prop) (env : Env W) (server : FtpServer) (s : Sys W)
    (param : QString) (hP : P (server.rootPath ++ resolvePath s.conn.m_currentPath param))
    (s' : Sys W) (h : handleRETR env server s param = some s') : Frame P s s' := by
  unfold handleRETR at h
  have hc := frame_checkLogin P s
  rcases hcl : checkLogin s with ⟨_ | _, s1⟩
  · rw [hcl] at h hc
    simp only [Option.some.injEq] at h
    subst h; exact hc
  rw [hcl] at h hc
  simp only at h hc
  by_cases hp : param.isEmpty = true
  · rw [if_pos hp] at h
    simp only [Option.some.injEq] at h
    subst h; exact hc.trans (frame_sendResponse P _ _ _)
  rw [if_neg hp, hc.1] at h
  have h2 := hc.trans (frame_openNewFile P env s1 _ OpenMode.ReadOnly hP)
  rcases hop : openNewFile env s1 (server.rootPath ++ resolvePath s.conn.m_currentPath param)
    OpenMode.ReadOnly with ⟨_ | _, s2⟩
  · rw [hop] at h h2
    simp only [Option.some.injEq] at h
    subst h
    exact Frame.trans (h2.trans (frame_sendResponse P _ _ _)) ⟨rfl, rfl, rfl, id⟩
  rw [hop] at h h2
  simp only at h h2
  have h3 := h2.trans (frame_setupDataConnection P env s2)
  generalize setupDataConnection env s2 = s3 at h h3
  by_cases hnone : s3.conn.m_dataSocket.isNone = true ∧ s3.conn.m_passiveServer.isNone = true
  · rw [if_pos hnone] at h
    simp only [Option.some.injEq] at h
    subst h
    exact (h3.trans (frame_sendResponse P _ _ _)).trans (frame_closeDataConnection P _)
  rw [if_neg hnone] at h
  exact h3.trans (frame_startDownload P env _ _ h)
theorem frame_handleUSER (P : QString → Prop) (s : Sys W) (p : QString) :
    Frame P s (handleUSER s p) :=
  Frame.trans ⟨rfl, rfl, rfl, id⟩ (frame_sendResponse P _ _ _)

theorem frame_handleSYST (P : QString → Prop) (s : Sys W) (p : QString) :
    Frame P s (handleSYST s p) :=
  frame_sendResponse P _ _ _

theorem frame_handleQUIT (P : QString → Prop) (s : Sys W) (p : QString) :
    Frame P s (handleQUIT s p) :=
  (frame_sendResponse P _ _ _).trans (frame_log P _ _ (by simp [Action.paths]))

theorem frame_handleNOOP (P : QString → Prop) (s : Sys W) (p : QString) :
    Frame P s (handleNOOP s p) :=
  frame_sendResponse P _ _ _

theorem frame_handleTYPE (P : QString → Prop) (s : Sys W) (p : QString) :
    Frame P s (handleTYPE s p) := by
  unfold handleTYPE
  split_ifs
  · exact Frame.trans ⟨rfl, rfl, rfl, id⟩ (frame_sendResponse P _ _ _)
  · exact Frame.trans ⟨rfl, rfl, rfl, id⟩ (frame_sendResponse P _ _ _)
  · exact frame_sendResponse P _ _ _

theorem frame_handlePWD (P : QString → Prop) (s : Sys W) (p : QString) :
    Frame P s (handlePWD s p) := by
  unfold handlePWD
  have hc := frame_checkLogin P s
  rcases hcl : checkLogin s with ⟨_ | _, s1⟩ <;> rw [hcl] at hc
  · exact hc
  · exact hc.trans (frame_sendResponse P _ _ _)

theorem frame_handlePORT (P : QString → Prop) (env : Env W) (s : Sys W) (p : QString) :
    Frame P s (handlePORT env s p) := by
  unfold handlePORT
  have hc := frame_checkLogin P s
  rcases hcl : checkLogin s with ⟨_ | _, s1⟩ <;> rw [hcl] at hc
  · exact hc
  · simp only
    split_ifs
    · exact hc.trans (frame_sendResponse P _ _ _)
    · exact hc.trans (Frame.trans ⟨rfl, rfl, rfl, id⟩ (frame_sendResponse P _ _ _))

theorem frame_handlePASV (P : QString → Prop) (env : Env W) (s : Sys W) (p : QString) :
    Frame P s (handlePASV env s p) := by
  unfold handlePASV
  have hc := frame_checkLogin P s
  rcases hcl : checkLogin s with ⟨_ | _, s1⟩ <;> rw [hcl] at hc
  · exact hc
  · simp only
    have h2 : Frame P s (setupDataConnection env
        { s1 with conn := { s1.conn with m_transferMode := TransferMode.Passive } }) :=
      (hc.trans ⟨rfl, rfl, rfl, id⟩).trans (frame_setupDataConnection P env _)
    generalize setupDataConnection env
        { s1 with conn := { s1.conn with m_transferMode := TransferMode.Passive } } = s2 at h2 ⊢
    split
    · exact h2
    · exact h2.trans (frame_sendResponse P _ _ _)

/-- The shape shared by `handleMKD`, `handleRMD` and `handleDELE`: one call on
the resolved path, then one reply. -/
theorem frame_call_reply (P : QString → Prop) (s : Sys W) (w : W) (a : Action)
    (code : Int) (m : QString) (ha : ∀ q ∈ a.paths, P q) :
    Frame P s (sendResponse { (s.log a) with world := w } code m) := by
  have h1 : Frame P s ({ (s.log a) with world := w } : Sys W) :=
    ⟨rfl, rfl, rfl, fun h => tracePaths_append P _ _ h ha⟩
  exact h1.trans (frame_sendResponse P _ _ _)

theorem frame_handleMKD (P : QString → Prop) (env : Env W) (server : FtpServer) (s : Sys W)
    (param : QString) (hP : P (server.rootPath ++ resolvePath s.conn.m_currentPath param)) :
    Frame P s (handleMKD env server s param) := by
  unfold handleMKD
  have hc := frame_checkLogin P s
  rcases hcl : checkLogin s with ⟨_ | _, s1⟩ <;> rw [hcl] at hc
  · exact hc
  · simp only
    split_ifs
    · exact hc.trans (frame_sendResponse P _ _ _)
    · rw [hc.1]
      split
      · exact hc.trans (frame_call_reply P _ _ _ _ _ (by simpa [Action.paths] using hP))
      · exact hc.trans (frame_call_reply P _ _ _ _ _ (by simpa [Action.paths] using hP))

theorem frame_handleRMD (P : QString → Prop) (env : Env W) (server : FtpServer) (s : Sys W)
    (param : QString) (hP : P (server.rootPath ++ resolvePath s.conn.m_currentPath param)) :
    Frame P s (handleRMD env server s param) := by
  unfold handleRMD
  have hc := frame_checkLogin P s
  rcases hcl : checkLogin s with ⟨_ | _, s1⟩ <;> rw [hcl] at hc
  · exact hc
  · simp only
    split_ifs
    · exact hc.trans (frame_sendResponse P _ _ _)
    · rw [hc.1]
      split
      · exact hc.trans (frame_call_reply P _ _ _ _ _ (by simpa [Action.paths] using hP))
      · exact hc.trans (frame_call_reply P _ _ _ _ _ (by simpa [Action.paths] using hP))

theorem frame_handleDELE (P : QString → Prop) (env : Env W) (server : FtpServer) (s : Sys W)
    (param : QString) (hP : P (server.rootPath ++ resolvePath s.conn.m_currentPath param)) :
    Frame P s (handleDELE env server s param) := by
  unfold handleDELE
  have hc := frame_checkLogin P s
  rcases hcl : checkLogin s with ⟨_ | _, s1⟩ <;> rw [hcl] at hc
  · exact hc
  · simp only
    split_ifs
    · exact hc.trans (frame_sendResponse P _ _ _)
    · rw [hc.1]
      split
      · exact hc.trans (frame_call_reply P _ _ _ _ _ (by simpa [Action.paths] using hP))
      · exact hc.trans (frame_call_reply P _ _ _ _ _ (by simpa [Action.paths] using hP))
/-! ## The rename handlers, logged in -/

theorem handleRNFR_empty (env : Env W) (server : FtpServer) (s : Sys W)
    (hl : s.conn.m_isLoggedIn = true) :
    handleRNFR env server s [] = sendResponse s 501 "Missing file name".toList := by
  simp [handleRNFR, checkLogin_true s hl]

theorem handleRNFR_found (env : Env W) (server : FtpServer) (s : Sys W) (param : QString)
    (hl : s.conn.m_isLoggedIn = true) (hp : param ≠ [])
    (hex : env.fileExists s.world
      (server.rootPath ++ resolvePath s.conn.m_currentPath param) = true) :
    handleRNFR env server s param
      = { world := s.world,
          conn := { s.conn with m_renameFrom := resolvePath s.conn.m_currentPath param },
          trace := s.trace ++
            [Action.fileExists (server.rootPath ++ resolvePath s.conn.m_currentPath param),
             Action.reply 350 "Ready for RNTO".toList] } := by
  simp [handleRNFR, checkLogin_true s hl, hp, Sys.log, sendResponse, hex]

theorem handleRNFR_missing (env : Env W) (server : FtpServer) (s : Sys W) (param : QString)
    (hl : s.conn.m_isLoggedIn = true) (hp : param ≠ [])
    (hex : env.fileExists s.world
      (server.rootPath ++ resolvePath s.conn.m_currentPath param) = false) :
    handleRNFR env server s param
      = { world := s.world,
          conn := { s.conn with m_renameFrom := [] },
          trace := s.trace ++
            [Action.fileExists (server.rootPath ++ resolvePath s.conn.m_currentPath param),
             Action.reply 550 "File not found".toList] } := by
  simp [handleRNFR, checkLogin_true s hl, hp, Sys.log, sendResponse, hex]

theorem handleRNTO_none_pending (env : Env W) (server : FtpServer) (s : Sys W)
    (param : QString) (hl : s.conn.m_isLoggedIn = true) (hr : s.conn.m_renameFrom = []) :
    handleRNTO env server s param = sendResponse s 503 "RNFR required first".toList := by
  simp [handleRNTO, checkLogin_true s hl, hr]

theorem handleRNTO_empty (env : Env W) (server : FtpServer) (s : Sys W)
    (hl : s.conn.m_isLoggedIn = true) (hr : s.conn.m_renameFrom ≠ []) :
    handleRNTO env server s []
      = { world := s.world,
          conn := { s.conn with m_renameFrom := [] },
          trace := s.trace ++ [Action.reply 501 "Missing file name".toList] } := by
  simp [handleRNTO, checkLogin_true s hl, hr, sendResponse]

theorem handleRNTO_pending (env : Env W) (server : FtpServer) (s : Sys W) (param : QString)
    (hl : s.conn.m_isLoggedIn = true) (hr : s.conn.m_renameFrom ≠ []) (hp : param ≠ []) :
    handleRNTO env server s param
      = { world := (env.rename s.world (server.rootPath ++ s.conn.m_renameFrom)
            (server.rootPath ++ resolvePath s.conn.m_currentPath param)).2,
          conn := { s.conn with m_renameFrom := [] },
          trace := s.trace ++
            [Action.rename (server.rootPath ++ s.conn.m_renameFrom)
               (server.rootPath ++ resolvePath s.conn.m_currentPath param),
             if (env.rename s.world (server.rootPath ++ s.conn.m_renameFrom)
                  (server.rootPath ++ resolvePath s.conn.m_currentPath param)).1
             then Action.reply 250 "File renamed".toList
             else Action.reply 550 "Failed to rename file".toList] } := by
  rcases hren : env.rename s.world (server.rootPath ++ s.conn.m_renameFrom)
    (server.rootPath ++ resolvePath s.conn.m_currentPath param) with ⟨_ | _, w⟩ <;>
  simp [handleRNTO, checkLogin_true s hl, hr, hp, sendResponse, Sys.log, hren]

theorem handleCWD_found (env : Env W) (server : FtpServer) (s : Sys W) (param : QString)
    (hl : s.conn.m_isLoggedIn = true)
    (hex : env.dirExists s.world
      (server.rootPath ++ resolvePath s.conn.m_currentPath param) = true) :
    handleCWD env server s param
      = { world := s.world,
          conn := { s.conn with m_currentPath := resolvePath s.conn.m_currentPath param },
          trace := s.trace ++
            [Action.dirExists (server.rootPath ++ resolvePath s.conn.m_currentPath param),
             Action.reply 250 ("Directory changed to ".toList
               ++ resolvePath s.conn.m_currentPath param)] } := by
  simp [handleCWD, checkLogin_true s hl, Sys.log, sendResponse, hex]

theorem handleCWD_missing (env : Env W) (server : FtpServer) (s : Sys W) (param : QString)
    (hl : s.conn.m_isLoggedIn = true)
    (hex : env.dirExists s.world
      (server.rootPath ++ resolvePath s.conn.m_currentPath param) = false) :
    handleCWD env server s param
      = { world := s.world,
          conn := s.conn,
          trace := s.trace ++
            [Action.dirExists (server.rootPath ++ resolvePath s.conn.m_currentPath param),
             Action.reply 550 "Directory not found".toList] } := by
  simp [handleCWD, checkLogin_true s hl, Sys.log, sendResponse, hex]
/-! ## Filesystem paths -/

theorem split_cons_sep (sep : Char) (l : QString) :
    split sep (sep :: l) = [] :: split sep l := by
  simp [split, List.splitOn, List.splitOnP_cons]

/-- No segment of a resolved path is `..`. -/
theorem no_dotdot_resolvePath (cwd path : QString) :
    "..".toList ∉ split '/' (resolvePath cwd path) := by
  have hgood := resolvePath_stack_good cwd path
  rw [resolvePath_eq, split_cons_sep]
  generalize resolveSegments (splitSkipEmptyParts '/' (resolveStart cwd path)) = stack at hgood
  by_cases hne : stack = []
  · subst hne
    decide
  · rw [split_join_good stack hne hgood]
    intro h
    rcases List.mem_cons.1 h with h | h
    · exact absurd h (by decide)
    · exact (hgood _ h).2.2.1 rfl

/-- The pending rename path survives every command other than `RNFR` and
`RNTO`. -/
theorem dispatch_keeps_renameFrom (env : Env W) (server : FtpServer) (s s1 : Sys W)
    (command parameter : QString) (h1 : command ≠ "RNFR".toList)
    (h2 : command ≠ "RNTO".toList) (h : dispatch env server s command parameter = some s1) :
    s1.conn.m_renameFrom = s.conn.m_renameFrom := by
  by_cases hmem : command ∈ ["USER".toList, "PASS".toList, "SYST".toList, "QUIT".toList,
      "TYPE".toList, "PORT".toList, "PASV".toList, "LIST".toList, "CWD".toList, "PWD".toList,
      "MKD".toList, "RMD".toList, "DELE".toList, "RNFR".toList, "RNTO".toList, "STOR".toList,
      "RETR".toList, "NOOP".toList]
  · simp only [List.mem_cons, List.mem_singleton, List.not_mem_nil, or_false] at hmem
    rcases hmem with e | e | e | e | e | e | e | e | e | e | e | e | e | e | e | e | e | e <;>
      subst e
    · rw [dispatch_USER] at h; cases h; rfl
    · rw [dispatch_PASS] at h; cases h
      unfold handlePASS
      split_ifs <;> rfl
    · rw [dispatch_SYST] at h; cases h; rfl
    · rw [dispatch_QUIT] at h; cases h; rfl
    · rw [dispatch_TYPE] at h; cases h
      exact (frame_handleTYPE (fun _ => True) s parameter).2.1
    · rw [dispatch_PORT] at h; cases h
      exact (frame_handlePORT (fun _ => True) env s parameter).2.1
    · rw [dispatch_PASV] at h; cases h
      exact (frame_handlePASV (fun _ => True) env s parameter).2.1
    · rw [dispatch_LIST] at h
      exact (frame_handleLIST (fun _ => True) env server s parameter trivial s1 h).2.1
    · rw [dispatch_CWD] at h; cases h
      unfold handleCWD
      rcases hcl : checkLogin s with ⟨_ | _, s2⟩
      · have := (frame_checkLogin (fun _ => True) s).2.1
        rw [hcl] at this; exact this
      · have := (frame_checkLogin (fun _ => True) s).2.1
        rw [hcl] at this
        simp only
        split_ifs <;> exact this
    · rw [dispatch_PWD] at h; cases h
      exact (frame_handlePWD (fun _ => True) s parameter).2.1
    · rw [dispatch_MKD] at h; cases h
      exact (frame_handleMKD (fun _ => True) env server s parameter trivial).2.1
    · rw [dispatch_RMD] at h; cases h
      exact (frame_handleRMD (fun _ => True) env server s parameter trivial).2.1
    · rw [dispatch_DELE] at h; cases h
      exact (frame_handleDELE (fun _ => True) env server s parameter trivial).2.1
    · exact absurd rfl h1
    · exact absurd rfl h2
    · rw [dispatch_STOR] at h; cases h
      exact (frame_handleSTOR (fun _ => True) env server s parameter trivial).2.1
    · rw [dispatch_RETR] at h
      exact (frame_handleRETR (fun _ => True) env server s parameter trivial s1 h).2.1
    · rw [dispatch_NOOP] at h; cases h; rfl
  · rw [dispatch_other env server s command parameter hmem] at h
    cases h; rfl

theorem renameFromResolved_handleRNFR (env : Env W) (server : FtpServer) (s : Sys W)
    (param : QString) (h : RenameFromResolved s.conn) :
    RenameFromResolved (handleRNFR env server s param).conn := by
  unfold handleRNFR
  rcases hcl : checkLogin s with ⟨_ | _, s1⟩
  · have := (frame_checkLogin (fun _ => True) s).2.1
    rw [hcl] at this
    unfold RenameFromResolved at h ⊢
    simp only
    rw [this]; exact h
  · have := (frame_checkLogin (fun _ => True) s).2.1
    rw [hcl] at this
    simp only
    split_ifs
    · unfold RenameFromResolved at h ⊢
      simp only [sendResponse]
      rw [this]; exact h
    · exact Or.inr ⟨_, _, rfl⟩
    · exact Or.inl rfl

theorem renameFromResolved_handleRNTO (env : Env W) (server : FtpServer) (s : Sys W)
    (param : QString) (h : RenameFromResolved s.conn) :
    RenameFromResolved (handleRNTO env server s param).conn := by
  unfold handleRNTO
  rcases hcl : checkLogin s with ⟨_ | _, s1⟩
  · have := (frame_checkLogin (fun _ => True) s).2.1
    rw [hcl] at this
    unfold RenameFromResolved at h ⊢
    simp only
    rw [this]; exact h
  · have := (frame_checkLogin (fun _ => True) s).2.1
    rw [hcl] at this
    simp only
    split_ifs
    · unfold RenameFromResolved at h ⊢
      simp only [sendResponse]
      rw [this]; exact h
    · exact Or.inl rfl
    · exact Or.inl rfl

/-- Every command keeps the pending rename path empty or resolved. -/
theorem renameFromResolved_dispatch (env : Env W) (server : FtpServer) (s s1 : Sys W)
    (command parameter : QString) (hr : RenameFromResolved s.conn)
    (h : dispatch env server s command parameter = some s1) :
    RenameFromResolved s1.conn := by
  by_cases h1 : command = "RNFR".toList
  · subst h1
    rw [dispatch_RNFR] at h; cases h
    exact renameFromResolved_handleRNFR env server s parameter hr
  by_cases h2 : command = "RNTO".toList
  · subst h2
    rw [dispatch_RNTO] at h; cases h
    exact renameFromResolved_handleRNTO env server s parameter hr
  have := dispatch_keeps_renameFrom env server s s1 command parameter h1 h2 h
  unfold RenameFromResolved at hr ⊢
  rw [this]; exact hr
/-- The pending rename path is empty or resolved in every session reached from
one where it is, the constructed session among them. -/
theorem renameFromResolved_processLines (env : Env W) (server : FtpServer)
    (lines : List QString) :
    ∀ s s1 : Sys W, RenameFromResolved s.conn → processLines env server s lines = some s1 →
      RenameFromResolved s1.conn := by
  induction lines with
  | nil => intro s s1 hr h; cases h; exact hr
  | cons l rest ih =>
    intro s s1 hr h
    simp only [processLines] at h
    cases hstep : processLine env server s l with
    | none => rw [hstep] at h; cases h
    | some s2 =>
      rw [hstep] at h
      refine ih s2 s1 ?_ h
      rw [processLine_eq] at hstep
      split_ifs at hstep
      · cases hstep; exact hr
      · exact renameFromResolved_dispatch env server s s2 _ _ hr hstep

theorem renameFromResolved_fresh : RenameFromResolved freshConnection :=
  Or.inl rfl

theorem tracePaths_nil (P : QString → Prop) : TracePaths P [] := by
  intro a ha; cases ha

/-- A path under the root: the root is a prefix and no segment after it is
`..`. -/
theorem under_root (server : FtpServer) (cwd path : QString) :
    server.rootPath <+: server.rootPath ++ resolvePath cwd path ∧
    "..".toList ∉ split '/'
      ((server.rootPath ++ resolvePath cwd path).drop server.rootPath.length) := by
  refine ⟨List.prefix_append _ _, ?_⟩
  rw [List.drop_left]
  exact no_dotdot_resolvePath cwd path

/-- A command that has a result: for every logged-in session and every
parameter, each filesystem path that LIST, CWD, MKD, RMD, DELE, RNFR, RNTO,
STOR and RETR hand to the
filesystem is `rootPath` followed by `resolvePath` of the client path: of the
parameter of the command, or, for the old name of RNTO, of the parameter that
RNFR recorded; it has `rootPath` as a prefix and no `..` segment after it. The
pending rename path stays empty or resolved, and what RNFR records is the
resolved parameter. -/
theorem dispatch_paths_under_root (env : Env W) (server : FtpServer) (w : W)
    (conn : FtpConnection) (command param : QString) (s1 : Sys W)
    (hl : conn.m_isLoggedIn = true) (hr : RenameFromResolved conn)
    (hcmd : command ∈ pathCommands)
    (h : dispatch env server { world := w, conn := conn, trace := [] } command param = some s1) :
    (∀ a ∈ s1.trace, ∀ q ∈ a.paths,
      (q = server.rootPath ++ resolvePath conn.m_currentPath param ∨
        (command = "RNTO".toList ∧ q = server.rootPath ++ conn.m_renameFrom ∧
          ∃ cwd path, conn.m_renameFrom = resolvePath cwd path)) ∧
      server.rootPath <+: q ∧
      "..".toList ∉ split '/' (q.drop server.rootPath.length)) ∧
    (command = "RNTO".toList → ∀ o n, Action.rename o n ∈ s1.trace →
      o = server.rootPath ++ conn.m_renameFrom ∧
      n = server.rootPath ++ resolvePath conn.m_currentPath param) ∧
    RenameFromResolved s1.conn ∧
    (command = "RNFR".toList → param ≠ [] →
      s1.conn.m_renameFrom = [] ∨
      s1.conn.m_renameFrom = resolvePath conn.m_currentPath param) := by
  have hinv := renameFromResolved_dispatch env server _ s1 command param hr h
  have key : TracePaths (fun q =>
      q = server.rootPath ++ resolvePath conn.m_currentPath param ∨
        (command = "RNTO".toList ∧ q = server.rootPath ++ conn.m_renameFrom ∧
          ∃ cwd path, conn.m_renameFrom = resolvePath cwd path)) s1.trace ∧
      (command = "RNTO".toList → ∀ o n, Action.rename o n ∈ s1.trace →
        o = server.rootPath ++ conn.m_renameFrom ∧
        n = server.rootPath ++ resolvePath conn.m_currentPath param) ∧
      (command = "RNFR".toList → param ≠ [] →
        s1.conn.m_renameFrom = [] ∨
        s1.conn.m_renameFrom = resolvePath conn.m_currentPath param) := by
    simp only [pathCommands, List.mem_cons, List.mem_singleton, List.not_mem_nil, or_false]
      at hcmd
    rcases hcmd with e | e | e | e | e | e | e | e | e <;> subst e
    · rw [dispatch_LIST] at h
      exact ⟨(frame_handleLIST _ env server _ param (Or.inl rfl) s1 h).2.2.2 (tracePaths_nil _),
        fun e => absurd e (by decide), fun e => absurd e (by decide)⟩
    · rw [dispatch_CWD] at h; cases h
      refine ⟨?_, fun e => absurd e (by decide), fun e => absurd e (by decide)⟩
      cases hex : env.dirExists w (server.rootPath ++ resolvePath conn.m_currentPath param)
      · rw [handleCWD_missing env server _ param hl hex]
        intro a ha q hq
        simp only [List.nil_append, List.mem_cons, List.mem_singleton, List.not_mem_nil,
          or_false] at ha
        rcases ha with rfl | rfl <;> simp [Action.paths] at hq
        exact Or.inl hq
      · rw [handleCWD_found env server _ param hl hex]
        intro a ha q hq
        simp only [List.nil_append, List.mem_cons, List.mem_singleton, List.not_mem_nil,
          or_false] at ha
        rcases ha with rfl | rfl <;> simp [Action.paths] at hq
        exact Or.inl hq
    · rw [dispatch_MKD] at h; cases h
      exact ⟨(frame_handleMKD _ env server _ param (Or.inl rfl)).2.2.2 (tracePaths_nil _),
        fun e => absurd e (by decide), fun e => absurd e (by decide)⟩
    · rw [dispatch_RMD] at h; cases h
      exact ⟨(frame_handleRMD _ env server _ param (Or.inl rfl)).2.2.2 (tracePaths_nil _),
        fun e => absurd e (by decide), fun e => absurd e (by decide)⟩
    · rw [dispatch_DELE] at h; cases h
      exact ⟨(frame_handleDELE _ env server _ param (Or.inl rfl)).2.2.2 (tracePaths_nil _),
        fun e => absurd e (by decide), fun e => absurd e (by decide)⟩
    · rw [dispatch_RNFR] at h; cases h
      refine ⟨?_, fun e => absurd e (by decide), fun _ hp => ?_⟩
      · by_cases hp : param = []
        · subst hp
          rw [handleRNFR_empty env server _ hl]
          intro a ha q hq
          simp only [sendResponse, List.nil_append, List.mem_singleton] at ha
          subst ha; simp [Action.paths] at hq
        · cases hex : env.fileExists w (server.rootPath ++ resolvePath conn.m_currentPath param)
          · rw [handleRNFR_missing env server _ param hl hp hex]
            intro a ha q hq
            simp only [List.nil_append, List.mem_cons, List.mem_singleton, List.not_mem_nil,
              or_false] at ha
            rcases ha with rfl | rfl <;> simp [Action.paths] at hq
            exact Or.inl hq
          · rw [handleRNFR_found env server _ param hl hp hex]
            intro a ha q hq
            simp only [List.nil_append, List.mem_cons, List.mem_singleton, List.not_mem_nil,
              or_false] at ha
            rcases ha with rfl | rfl <;> simp [Action.paths] at hq
            exact Or.inl hq
      · cases hex : env.fileExists w (server.rootPath ++ resolvePath conn.m_currentPath param)
        · rw [handleRNFR_missing env server _ param hl hp hex]; exact Or.inl rfl
        · rw [handleRNFR_found env server _ param hl hp hex]; exact Or.inr rfl
    · rw [dispatch_RNTO] at h; cases h
      refine ⟨?_, fun _ => ?_, fun e => absurd e (by decide)⟩
      · by_cases hpend : conn.m_renameFrom = []
        · rw [handleRNTO_none_pending env server _ param hl hpend]
          intro a ha q hq
          simp only [sendResponse, List.nil_append, List.mem_singleton] at ha
          subst ha; simp [Action.paths] at hq
        · have hres : ∃ cwd path, conn.m_renameFrom = resolvePath cwd path :=
            hr.resolve_left hpend
          by_cases hp : param = []
          · subst hp
            rw [handleRNTO_empty env server _ hl hpend]
            intro a ha q hq
            simp only [List.nil_append, List.mem_singleton] at ha
            subst ha; simp [Action.paths] at hq
          · rw [handleRNTO_pending env server _ param hl hpend hp]
            intro a ha q hq
            simp only [List.nil_append, List.mem_cons, List.mem_singleton, List.not_mem_nil,
              or_false] at ha
            rcases ha with rfl | rfl
            · simp only [Action.paths, List.mem_cons, List.mem_singleton, List.not_mem_nil,
                or_false] at hq
              rcases hq with rfl | rfl
              · exact Or.inr ⟨rfl, rfl, hres⟩
              · exact Or.inl rfl
            · split_ifs at hq <;> simp [Action.paths] at hq
      · intro o n hmem
        by_cases hpend : conn.m_renameFrom = []
        · rw [handleRNTO_none_pending env server _ param hl hpend] at hmem
          simp [sendResponse] at hmem
        · by_cases hp : param = []
          · subst hp
            rw [handleRNTO_empty env server _ hl hpend] at hmem
            simp at hmem
          · rw [handleRNTO_pending env server _ param hl hpend hp] at hmem
            simp only [List.nil_append, List.mem_cons, List.mem_singleton, List.not_mem_nil,
              or_false, Action.rename.injEq] at hmem
            rcases hmem with hmem | hmem
            · exact hmem
            · split_ifs at hmem
    · rw [dispatch_STOR] at h; cases h
      exact ⟨(frame_handleSTOR _ env server _ param (Or.inl rfl)).2.2.2 (tracePaths_nil _),
        fun e => absurd e (by decide), fun e => absurd e (by decide)⟩
    · rw [dispatch_RETR] at h
      exact ⟨(frame_handleRETR _ env server _ param (Or.inl rfl) s1 h).2.2.2 (tracePaths_nil _),
        fun e => absurd e (by decide), fun e => absurd e (by decide)⟩
  refine ⟨fun a ha q hq => ⟨key.1 a ha q hq, ?_⟩, key.2.1, hinv, key.2.2⟩
  rcases key.1 a ha q hq with e | ⟨_, e, c, p, e2⟩
  · rw [e]; exact under_root server _ _
  · rw [e, e2]; exact under_root server _ _

/-! ## Login handshake -/

/-- C4, as the code has it: for every session state and every name, `USER name`
replies 331, sets the pending user name to the name and sets the
pending-password flag; it leaves everything else, the authenticated flag
included, as it was: a session that was logged in before `USER` is logged in
after it. -/
theorem user_sets_pending (env : Env W) (server : FtpServer) (s : Sys W) (name : QString) :
    dispatch env server s "USER".toList name
      = some { world := s.world,
               conn := { s.conn with m_username := name, m_waitingForPassword := true },
               trace := s.trace ++ [Action.reply 331 "User name okay, need password".toList] } ∧
    (handleUSER s name).conn.m_username = name ∧
    (handleUSER s name).conn.m_waitingForPassword = true ∧
    (handleUSER s name).conn.m_isLoggedIn = s.conn.m_isLoggedIn :=
  ⟨rfl, rfl, rfl, rfl⟩

/-- C4 fails as stated: in a logged-in session, `USER bob` leaves the session
logged in, and the `PWD` that follows is answered 257, not 530. -/
theorem user_clears_auth_counterexample :
    (processLines simEnv simServer simLoggedIn ["USER bob".toList, "PWD".toList]).map
        (fun s => (s.conn.m_isLoggedIn, s.conn.m_username, (replies s.trace).map Prod.fst))
      = some (true, "bob".toList, [331, 257]) := by
  decide

/-- C5: `PASS pw` with the pending-password flag not set replies 503 and changes
nothing; with the flag set it replies 230 and sets the authenticated flag when
the auth predicate accepts the pending user name with `pw`, replies 530 and
clears the authenticated flag when it does not; in both of these cases the
pending-password flag is cleared. So after a `PASS` that found the flag set,
the session is logged in exactly when the predicate accepted, and a `PASS`
that follows any `PASS` finds the flag consumed and is answered 503. -/
theorem pass_outcomes (env : Env W) (server : FtpServer) (s : Sys W) (pw pw2 : QString) :
    dispatch env server s "PASS".toList pw = some (handlePASS s pw) ∧
    (s.conn.m_waitingForPassword = false →
      handlePASS s pw
        = { world := s.world, conn := s.conn,
            trace := s.trace ++ [Action.reply 503 "Bad sequence of commands".toList] }) ∧
    (s.conn.m_waitingForPassword = true →
      authenticateUser s.conn.m_username pw = true →
      handlePASS s pw
        = { world := s.world,
            conn := { s.conn with m_isLoggedIn := true, m_waitingForPassword := false },
            trace := s.trace ++ [Action.reply 230 "User logged in, proceed".toList] }) ∧
    (s.conn.m_waitingForPassword = true →
      authenticateUser s.conn.m_username pw = false →
      handlePASS s pw
        = { world := s.world,
            conn := { s.conn with m_isLoggedIn := false, m_waitingForPassword := false },
            trace := s.trace ++ [Action.reply 530 "Login incorrect".toList] }) ∧
    (s.conn.m_waitingForPassword = true →
      (handlePASS s pw).conn.m_isLoggedIn = authenticateUser s.conn.m_username pw) ∧
    (handlePASS (handlePASS s pw) pw2
      = { world := s.world, conn := (handlePASS s pw).conn,
          trace := (handlePASS s pw).trace
            ++ [Action.reply 503 "Bad sequence of commands".toList] }) := by
  refine ⟨rfl, ?_, ?_, ?_, ?_, ?_⟩
  · intro hw; simp [handlePASS, hw, sendResponse]
  · intro hw ha; simp [handlePASS, hw, ha, sendResponse]
  · intro hw ha; simp [handlePASS, hw, ha, sendResponse]
  · intro hw
    cases ha : authenticateUser s.conn.m_username pw <;> simp [handlePASS, hw, ha, sendResponse]
  · cases hw : s.conn.m_waitingForPassword <;>
      cases ha : authenticateUser s.conn.m_username pw <;>
      simp [handlePASS, hw, ha, sendResponse]
/-! ## Rename sequence -/

theorem lastReplyCode_append_reply (s : Sys W) (w : W) (c : FtpConnection)
    (pre : List Action) (code : Int) (m : QString) :
    lastReplyCode ({ world := w, conn := c, trace := s.trace ++ (pre ++ [Action.reply code m]) }
      : Sys W) = some code := by
  simp [lastReplyCode, replies, List.filterMap_append, Action.reply?]

/-- Logged in, `RNFR` replies 350 exactly when the parameter is not empty and
the resolved path exists; it then records the resolved path. -/
theorem handleRNFR_350 (env : Env W) (server : FtpServer) (s : Sys W) (a : QString)
    (hl : s.conn.m_isLoggedIn = true)
    (h : lastReplyCode (handleRNFR env server s a) = some 350) :
    a ≠ [] ∧
    env.fileExists s.world (server.rootPath ++ resolvePath s.conn.m_currentPath a) = true := by
  by_cases hp : a = []
  · subst hp
    rw [handleRNFR_empty env server s hl] at h
    have := lastReplyCode_append_reply s s.world s.conn [] 501 "Missing file name".toList
    simp only [List.nil_append] at this
    simp only [sendResponse] at h
    rw [this] at h
    exact absurd h (by decide)
  · refine ⟨hp, ?_⟩
    cases hex : env.fileExists s.world (server.rootPath ++ resolvePath s.conn.m_currentPath a)
    · rw [handleRNFR_missing env server s a hl hp hex] at h
      have := lastReplyCode_append_reply s s.world { s.conn with m_renameFrom := [] }
        [Action.fileExists (server.rootPath ++ resolvePath s.conn.m_currentPath a)]
        550 "File not found".toList
      simp only [List.singleton_append] at this
      rw [this] at h
      exact absurd h (by decide)
    · rfl

/-- Logged in, an `RNFR` that replies 550 leaves no rename pending. -/
theorem handleRNFR_550 (env : Env W) (server : FtpServer) (s : Sys W) (a : QString)
    (hl : s.conn.m_isLoggedIn = true)
    (h : lastReplyCode (handleRNFR env server s a) = some 550) :
    (handleRNFR env server s a).conn.m_renameFrom = [] := by
  by_cases hp : a = []
  · subst hp
    rw [handleRNFR_empty env server s hl] at h
    have := lastReplyCode_append_reply s s.world s.conn [] 501 "Missing file name".toList
    simp only [List.nil_append] at this
    simp only [sendResponse] at h
    rw [this] at h
    exact absurd h (by decide)
  · cases hex : env.fileExists s.world (server.rootPath ++ resolvePath s.conn.m_currentPath a)
    · rw [handleRNFR_missing env server s a hl hp hex]
    · rw [handleRNFR_found env server s a hl hp hex] at h
      have := lastReplyCode_append_reply s s.world
        { s.conn with m_renameFrom := resolvePath s.conn.m_currentPath a }
        [Action.fileExists (server.rootPath ++ resolvePath s.conn.m_currentPath a)]
        350 "Ready for RNTO".toList
      simp only [List.singleton_append] at this
      rw [this] at h
      exact absurd h (by decide)

theorem resolvePath_ne_nil (cwd path : QString) : resolvePath cwd path ≠ [] := by
  rw [resolvePath_eq]; exact List.cons_ne_nil _ _

/-- Every handler that starts with `checkLogin` keeps the login flag. -/
theorem handleRNFR_keeps_login (env : Env W) (server : FtpServer) (s : Sys W) (p : QString) :
    (handleRNFR env server s p).conn.m_isLoggedIn = s.conn.m_isLoggedIn := by
  unfold handleRNFR
  have hc := (frame_checkLogin (fun _ => True) s).2.2.1
  rcases hcl : checkLogin s with ⟨_ | _, s1⟩ <;> rw [hcl] at hc
  · exact hc
  · simp only
    split_ifs <;> exact hc

theorem handleRNTO_keeps_login (env : Env W) (server : FtpServer) (s : Sys W) (p : QString) :
    (handleRNTO env server s p).conn.m_isLoggedIn = s.conn.m_isLoggedIn := by
  unfold handleRNTO
  have hc := (frame_checkLogin (fun _ => True) s).2.2.1
  rcases hcl : checkLogin s with ⟨_ | _, s1⟩ <;> rw [hcl] at hc
  · exact hc
  · simp only
    split_ifs
    · exact hc
    · exact hc
    · split <;> exact hc

theorem handleCWD_keeps_login (env : Env W) (server : FtpServer) (s : Sys W) (p : QString) :
    (handleCWD env server s p).conn.m_isLoggedIn = s.conn.m_isLoggedIn := by
  unfold handleCWD
  have hc := (frame_checkLogin (fun _ => True) s).2.2.1
  rcases hcl : checkLogin s with ⟨_ | _, s1⟩ <;> rw [hcl] at hc
  · exact hc
  · simp only
    split_ifs <;> exact hc

/-- The login flag survives every command other than `PASS`. -/
theorem dispatch_keeps_login (env : Env W) (server : FtpServer) (s s1 : Sys W)
    (command parameter : QString) (h1 : command ≠ "PASS".toList)
    (h : dispatch env server s command parameter = some s1) :
    s1.conn.m_isLoggedIn = s.conn.m_isLoggedIn := by
  by_cases hmem : command ∈ ["USER".toList, "PASS".toList, "SYST".toList, "QUIT".toList,
      "TYPE".toList, "PORT".toList, "PASV".toList, "LIST".toList, "CWD".toList, "PWD".toList,
      "MKD".toList, "RMD".toList, "DELE".toList, "RNFR".toList, "RNTO".toList, "STOR".toList,
      "RETR".toList, "NOOP".toList]
  · simp only [List.mem_cons, List.mem_singleton, List.not_mem_nil, or_false] at hmem
    rcases hmem with e | e | e | e | e | e | e | e | e | e | e | e | e | e | e | e | e | e <;>
      subst e
    · rw [dispatch_USER] at h; cases h; rfl
    · exact absurd rfl h1
    · rw [dispatch_SYST] at h; cases h; rfl
    · rw [dispatch_QUIT] at h; cases h; rfl
    · rw [dispatch_TYPE] at h; cases h
      exact (frame_handleTYPE (fun _ => True) s parameter).2.2.1
    · rw [dispatch_PORT] at h; cases h
      exact (frame_handlePORT (fun _ => True) env s parameter).2.2.1
    · rw [dispatch_PASV] at h; cases h
      exact (frame_handlePASV (fun _ => True) env s parameter).2.2.1
    · rw [dispatch_LIST] at h
      exact (frame_handleLIST (fun _ => True) env server s parameter trivial s1 h).2.2.1
    · rw [dispatch_CWD] at h; cases h
      exact handleCWD_keeps_login env server s parameter
    · rw [dispatch_PWD] at h; cases h
      exact (frame_handlePWD (fun _ => True) s parameter).2.2.1
    · rw [dispatch_MKD] at h; cases h
      exact (frame_handleMKD (fun _ => True) env server s parameter trivial).2.2.1
    · rw [dispatch_RMD] at h; cases h
      exact (frame_handleRMD (fun _ => True) env server s parameter trivial).2.2.1
    · rw [dispatch_DELE] at h; cases h
      exact (frame_handleDELE (fun _ => True) env server s parameter trivial).2.2.1
    · rw [dispatch_RNFR] at h; cases h
      exact handleRNFR_keeps_login env server s parameter
    · rw [dispatch_RNTO] at h; cases h
      exact handleRNTO_keeps_login env server s parameter
    · rw [dispatch_STOR] at h; cases h
      exact (frame_handleSTOR (fun _ => True) env server s parameter trivial).2.2.1
    · rw [dispatch_RETR] at h
      exact (frame_handleRETR (fun _ => True) env server s parameter trivial s1 h).2.2.1
    · rw [dispatch_NOOP] at h; cases h; rfl
  · rw [dispatch_other env server s command parameter hmem] at h
    cases h; rfl
/-- C6 fails as stated: after `RNFR old.txt` replied 350, a `NOOP` leaves the
rename of `/old.txt` pending, and the `RNTO new.txt` that follows is answered
250 and renames the file; it is not answered 503. -/
theorem rename_pending_cleared_counterexample :
    (processLines simEnv simServer simLoggedIn ["RNFR old.txt".toList, "NOOP".toList]).map
        (fun s => (s.conn.m_renameFrom, (replies s.trace).map Prod.fst))
      = some ("/old.txt".toList, [350, 200]) ∧
    (processLines simEnv simServer simLoggedIn
        ["RNFR old.txt".toList, "NOOP".toList, "RNTO new.txt".toList]).map
        (fun s => ((replies s.trace).map Prod.fst, s.world.files, s.trace.getLast?,
          s.trace.dropLast.getLast?))
      = some ([350, 200, 250], ["/srv/ftp/new.txt".toList],
          some (Action.reply 250 "File renamed".toList),
          some (Action.rename "/srv/ftp/old.txt".toList "/srv/ftp/new.txt".toList)) := by
  decide

/-- C6, as the code has it: for every logged-in session, after an `RNFR a` that
replied 350, followed by any single command other than `RNFR` and `RNTO`, the
pending rename path is still the path that `RNFR` recorded; the session is still
logged in unless that command was a `PASS`; and in the still logged-in session
a following `RNTO b` with a non-empty `b` is not answered 503: it renames the
recorded path to `rootPath` followed by the resolved `b`, replies 250 or 550 as
the rename succeeds or fails, and then clears the pending path. -/
theorem rename_pending_survives (env : Env W) (server : FtpServer) (s s2 : Sys W)
    (a command p b : QString)
    (hl : s.conn.m_isLoggedIn = true)
    (h350 : lastReplyCode (handleRNFR env server s a) = some 350)
    (h1 : command ≠ "RNFR".toList) (h2 : command ≠ "RNTO".toList)
    (hstep : dispatch env server (handleRNFR env server s a) command p = some s2) :
    s2.conn.m_renameFrom = resolvePath s.conn.m_currentPath a ∧
    s2.conn.m_renameFrom ≠ [] ∧
    (command ≠ "PASS".toList → s2.conn.m_isLoggedIn = true) ∧
    (s2.conn.m_isLoggedIn = true → b ≠ [] →
      handleRNTO env server s2 b
        = { world := (env.rename s2.world
                (server.rootPath ++ resolvePath s.conn.m_currentPath a)
                (server.rootPath ++ resolvePath s2.conn.m_currentPath b)).2,
            conn := { s2.conn with m_renameFrom := [] },
            trace := s2.trace ++
              [Action.rename (server.rootPath ++ resolvePath s.conn.m_currentPath a)
                 (server.rootPath ++ resolvePath s2.conn.m_currentPath b),
               if (env.rename s2.world
                    (server.rootPath ++ resolvePath s.conn.m_currentPath a)
                    (server.rootPath ++ resolvePath s2.conn.m_currentPath b)).1
               then Action.reply 250 "File renamed".toList
               else Action.reply 550 "Failed to rename file".toList] } ∧
      lastReplyCode (handleRNTO env server s2 b) ≠ some 503) := by
  obtain ⟨hp, hex⟩ := handleRNFR_350 env server s a hl h350
  have hrec : (handleRNFR env server s a).conn.m_renameFrom
      = resolvePath s.conn.m_currentPath a := by
    rw [handleRNFR_found env server s a hl hp hex]
  have hkeep := dispatch_keeps_renameFrom env server _ s2 command p h1 h2 hstep
  have hren : s2.conn.m_renameFrom = resolvePath s.conn.m_currentPath a := hkeep.trans hrec
  refine ⟨hren, ?_, ?_, ?_⟩
  · rw [hren]; exact resolvePath_ne_nil _ _
  · intro hc
    rw [dispatch_keeps_login env server _ s2 command p hc hstep,
      handleRNFR_keeps_login env server s a]
    exact hl
  · intro hl2 hb
    have hne : s2.conn.m_renameFrom ≠ [] := by rw [hren]; exact resolvePath_ne_nil _ _
    have heq := handleRNTO_pending env server s2 b hl2 hne hb
    rw [hren] at heq
    refine ⟨heq, ?_⟩
    rw [heq]
    intro h503
    by_cases hr : (env.rename s2.world
        (server.rootPath ++ resolvePath s.conn.m_currentPath a)
        (server.rootPath ++ resolvePath s2.conn.m_currentPath b)).1 = true
    · rw [if_pos hr] at h503
      have := lastReplyCode_append_reply s2 (env.rename s2.world
          (server.rootPath ++ resolvePath s.conn.m_currentPath a)
          (server.rootPath ++ resolvePath s2.conn.m_currentPath b)).2
        { s2.conn with m_renameFrom := [] }
        [Action.rename (server.rootPath ++ resolvePath s.conn.m_currentPath a)
          (server.rootPath ++ resolvePath s2.conn.m_currentPath b)] 250 "File renamed".toList
      simp only [List.singleton_append] at this
      rw [this] at h503
      exact absurd h503 (by decide)
    · rw [if_neg hr] at h503
      have := lastReplyCode_append_reply s2 (env.rename s2.world
          (server.rootPath ++ resolvePath s.conn.m_currentPath a)
          (server.rootPath ++ resolvePath s2.conn.m_currentPath b)).2
        { s2.conn with m_renameFrom := [] }
        [Action.rename (server.rootPath ++ resolvePath s.conn.m_currentPath a)
          (server.rootPath ++ resolvePath s2.conn.m_currentPath b)]
        550 "Failed to rename file".toList
      simp only [List.singleton_append] at this
      rw [this] at h503
      exact absurd h503 (by decide)

theorem rename_pending_survives_witness :
    lastReplyCode (handleRNFR simEnv simServer simLoggedIn "old.txt".toList) = some 350 ∧
    (simAfterCWD.conn.m_renameFrom = resolvePath simLoggedIn.conn.m_currentPath "old.txt".toList ∧
    simAfterCWD.conn.m_renameFrom ≠ [] ∧
    ("CWD".toList ≠ "PASS".toList → simAfterCWD.conn.m_isLoggedIn = true) ∧
    (simAfterCWD.conn.m_isLoggedIn = true → "new.txt".toList ≠ [] →
      handleRNTO simEnv simServer simAfterCWD "new.txt".toList
        = { world := (simEnv.rename simAfterCWD.world
                (simServer.rootPath ++ resolvePath simLoggedIn.conn.m_currentPath "old.txt".toList)
                (simServer.rootPath ++ resolvePath simAfterCWD.conn.m_currentPath "new.txt".toList)).2,
            conn := { simAfterCWD.conn with m_renameFrom := [] },
            trace := simAfterCWD.trace ++
              [Action.rename (simServer.rootPath ++ resolvePath simLoggedIn.conn.m_currentPath "old.txt".toList)
                 (simServer.rootPath ++ resolvePath simAfterCWD.conn.m_currentPath "new.txt".toList),
               if (simEnv.rename simAfterCWD.world
                    (simServer.rootPath ++ resolvePath simLoggedIn.conn.m_currentPath "old.txt".toList)
                    (simServer.rootPath ++ resolvePath simAfterCWD.conn.m_currentPath "new.txt".toList)).1
               then Action.reply 250 "File renamed".toList
               else Action.reply 550 "Failed to rename file".toList] } ∧
      lastReplyCode (handleRNTO simEnv simServer simAfterCWD "new.txt".toList) ≠ some 503)) :=
  ⟨by decide,
    rename_pending_survives simEnv simServer simLoggedIn simAfterCWD "old.txt".toList
      "CWD".toList "/".toList "new.txt".toList rfl (by decide) (by decide) (by decide)
      (dispatch_CWD _ _ _ _)⟩
/-- C7 fails as stated: directly after `RNFR old.txt` replied 350, an `RNTO`
without a parameter is answered 501, attempts no rename (the trace has no
rename call and the file is still there) and clears the pending path. -/
theorem rnto_attempts_rename_counterexample :
    (processLines simEnv simServer simLoggedIn ["RNFR old.txt".toList, "RNTO".toList]).map
        (fun s => (s.trace, s.world.files, s.conn.m_renameFrom))
      = some ([Action.fileExists "/srv/ftp/old.txt".toList,
               Action.reply 350 "Ready for RNTO".toList,
               Action.reply 501 "Missing file name".toList],
              ["/srv/ftp/old.txt".toList], []) := by
  decide

/-- C7, as the code has it: in a logged-in session, `RNTO` with no rename
pending is answered 503 and does nothing else: before any `RNFR`, directly
after an `RNFR` that replied 550, and directly after any `RNTO`. Directly after
an `RNFR a` that replied 350, `RNTO b` with a non-empty `b` renames the
recorded path to `rootPath` followed by the resolved `b`, replies 250 or 550,
and leaves no rename pending; `RNTO` with an empty parameter replies 501,
attempts no rename, and leaves no rename pending either. -/
theorem rnto_sequencing (env : Env W) (server : FtpServer) (s : Sys W) (a b b1 : QString)
    (hl : s.conn.m_isLoggedIn = true) :
    (s.conn.m_renameFrom = [] →
      handleRNTO env server s b
        = { world := s.world, conn := s.conn,
            trace := s.trace ++ [Action.reply 503 "RNFR required first".toList] }) ∧
    (lastReplyCode (handleRNFR env server s a) = some 550 →
      handleRNTO env server (handleRNFR env server s a) b
        = { world := (handleRNFR env server s a).world,
            conn := (handleRNFR env server s a).conn,
            trace := (handleRNFR env server s a).trace
              ++ [Action.reply 503 "RNFR required first".toList] }) ∧
    (handleRNTO env server (handleRNTO env server s b) b1
        = { world := (handleRNTO env server s b).world,
            conn := (handleRNTO env server s b).conn,
            trace := (handleRNTO env server s b).trace
              ++ [Action.reply 503 "RNFR required first".toList] }) ∧
    (lastReplyCode (handleRNFR env server s a) = some 350 → b ≠ [] →
      handleRNTO env server (handleRNFR env server s a) b
        = { world := (env.rename s.world
                (server.rootPath ++ resolvePath s.conn.m_currentPath a)
                (server.rootPath ++ resolvePath s.conn.m_currentPath b)).2,
            conn := { s.conn with m_renameFrom := [] },
            trace := s.trace ++
              [Action.fileExists (server.rootPath ++ resolvePath s.conn.m_currentPath a),
               Action.reply 350 "Ready for RNTO".toList,
               Action.rename (server.rootPath ++ resolvePath s.conn.m_currentPath a)
                 (server.rootPath ++ resolvePath s.conn.m_currentPath b),
               if (env.rename s.world
                    (server.rootPath ++ resolvePath s.conn.m_currentPath a)
                    (server.rootPath ++ resolvePath s.conn.m_currentPath b)).1
               then Action.reply 250 "File renamed".toList
               else Action.reply 550 "Failed to rename file".toList] }) ∧
    (lastReplyCode (handleRNFR env server s a) = some 350 →
      handleRNTO env server (handleRNFR env server s a) []
        = { world := s.world,
            conn := { s.conn with m_renameFrom := [] },
            trace := s.trace ++
              [Action.fileExists (server.rootPath ++ resolvePath s.conn.m_currentPath a),
               Action.reply 350 "Ready for RNTO".toList,
               Action.reply 501 "Missing file name".toList] }) ∧
    dispatch env server s "RNFR".toList a = some (handleRNFR env server s a) ∧
    dispatch env server s "RNTO".toList b = some (handleRNTO env server s b) := by
  have hl1 : (handleRNFR env server s a).conn.m_isLoggedIn = true :=
    (handleRNFR_keeps_login env server s a).trans hl
  have hl2 : (handleRNTO env server s b).conn.m_isLoggedIn = true :=
    (handleRNTO_keeps_login env server s b).trans hl
  refine ⟨?_, ?_, ?_, ?_, ?_, rfl, rfl⟩
  · intro hr
    rw [handleRNTO_none_pending env server s b hl hr]; rfl
  · intro h550
    rw [handleRNTO_none_pending env server _ b hl1 (handleRNFR_550 env server s a hl h550)]
    rfl
  · have hcleared : (handleRNTO env server s b).conn.m_renameFrom = [] := by
      by_cases hr : s.conn.m_renameFrom = []
      · rw [handleRNTO_none_pending env server s b hl hr]; exact hr
      · by_cases hb : b = []
        · subst hb; rw [handleRNTO_empty env server s hl hr]
        · rw [handleRNTO_pending env server s b hl hr hb]
    rw [handleRNTO_none_pending env server _ b1 hl2 hcleared]; rfl
  · intro h350 hb
    obtain ⟨hp, hex⟩ := handleRNFR_350 env server s a hl h350
    rw [handleRNTO_pending env server _ b hl1
      (by rw [handleRNFR_found env server s a hl hp hex]; exact resolvePath_ne_nil _ _) hb]
    rw [handleRNFR_found env server s a hl hp hex]
    simp
  · intro h350
    obtain ⟨hp, hex⟩ := handleRNFR_350 env server s a hl h350
    rw [handleRNTO_empty env server _ hl1
      (by rw [handleRNFR_found env server s a hl hp hex]; exact resolvePath_ne_nil _ _)]
    rw [handleRNFR_found env server s a hl hp hex]
    simp

theorem rnto_sequencing_witness :
    simLoggedIn.conn.m_isLoggedIn = true ∧
    lastReplyCode (handleRNFR simEnv simServer simLoggedIn "old.txt".toList) = some 350 ∧
    ((simLoggedIn.conn.m_renameFrom = [] →
      handleRNTO simEnv simServer simLoggedIn "new.txt".toList
        = { world := simLoggedIn.world, conn := simLoggedIn.conn,
            trace := simLoggedIn.trace ++ [Action.reply 503 "RNFR required first".toList] }) ∧
    (lastReplyCode (handleRNFR simEnv simServer simLoggedIn "old.txt".toList) = some 550 →
      handleRNTO simEnv simServer (handleRNFR simEnv simServer simLoggedIn "old.txt".toList) "new.txt".toList
        = { world := (handleRNFR simEnv simServer simLoggedIn "old.txt".toList).world,
            conn := (handleRNFR simEnv simServer simLoggedIn "old.txt".toList).conn,
            trace := (handleRNFR simEnv simServer simLoggedIn "old.txt".toList).trace
              ++ [Action.reply 503 "RNFR required first".toList] }) ∧
    (handleRNTO simEnv simServer (handleRNTO simEnv simServer simLoggedIn "new.txt".toList) "x".toList
        = { world := (handleRNTO simEnv simServer simLoggedIn "new.txt".toList).world,
            conn := (handleRNTO simEnv simServer simLoggedIn "new.txt".toList).conn,
            trace := (handleRNTO simEnv simServer simLoggedIn "new.txt".toList).trace
              ++ [Action.reply 503 "RNFR required first".toList] }) ∧
    (lastReplyCode (handleRNFR simEnv simServer simLoggedIn "old.txt".toList) = some 350 → "new.txt".toList ≠ [] →
      handleRNTO simEnv simServer (handleRNFR simEnv simServer simLoggedIn "old.txt".toList) "new.txt".toList
        = { world := (simEnv.rename simLoggedIn.world
                (simServer.rootPath ++ resolvePath simLoggedIn.conn.m_currentPath "old.txt".toList)
                (simServer.rootPath ++ resolvePath simLoggedIn.conn.m_currentPath "new.txt".toList)).2,
            conn := { simLoggedIn.conn with m_renameFrom := [] },
            trace := simLoggedIn.trace ++
              [Action.fileExists (simServer.rootPath ++ resolvePath simLoggedIn.conn.m_currentPath "old.txt".toList),
               Action.reply 350 "Ready for RNTO".toList,
               Action.rename (simServer.rootPath ++ resolvePath simLoggedIn.conn.m_currentPath "old.txt".toList)
                 (simServer.rootPath ++ resolvePath simLoggedIn.conn.m_currentPath "new.txt".toList),
               if (simEnv.rename simLoggedIn.world
                    (simServer.rootPath ++ resolvePath simLoggedIn.conn.m_currentPath "old.txt".toList)
                    (simServer.rootPath ++ resolvePath simLoggedIn.conn.m_currentPath "new.txt".toList)).1
               then Action.reply 250 "File renamed".toList
               else Action.reply 550 "Failed to rename file".toList] }) ∧
    (lastReplyCode (handleRNFR simEnv simServer simLoggedIn "old.txt".toList) = some 350 →
      handleRNTO simEnv simServer (handleRNFR simEnv simServer simLoggedIn "old.txt".toList) []
        = { world := simLoggedIn.world,
            conn := { simLoggedIn.conn with m_renameFrom := [] },
            trace := simLoggedIn.trace ++
              [Action.fileExists (simServer.rootPath ++ resolvePath simLoggedIn.conn.m_currentPath "old.txt".toList),
               Action.reply 350 "Ready for RNTO".toList,
               Action.reply 501 "Missing file name".toList] }) ∧
    dispatch simEnv simServer simLoggedIn "RNFR".toList "old.txt".toList
      = some (handleRNFR simEnv simServer simLoggedIn "old.txt".toList) ∧
    dispatch simEnv simServer simLoggedIn "RNTO".toList "new.txt".toList
      = some (handleRNTO simEnv simServer simLoggedIn "new.txt".toList)) :=
  ⟨rfl, by decide,
    rnto_sequencing simEnv simServer simLoggedIn "old.txt".toList "new.txt".toList "x".toList
      rfl⟩
/-! ## PORT and PASV -/

/-- A decimal digit character is neither a dot nor a colon. -/
theorem digitChar_ne (n : Nat) :
    Nat.digitChar (n % 10) ≠ '.' ∧ Nat.digitChar (n % 10) ≠ ':' := by
  have h : n % 10 < 10 := Nat.mod_lt _ (by decide)
  generalize n % 10 = k at h
  interval_cases k <;> decide

theorem toDigitsCore_chars (fuel : Nat) :
    ∀ (n : Nat) (ds : List Char), (∀ c ∈ ds, c ≠ '.' ∧ c ≠ ':') →
      ∀ c ∈ Nat.toDigitsCore 10 fuel n ds, c ≠ '.' ∧ c ≠ ':' := by
  induction fuel with
  | zero => intro n ds hds; simpa [Nat.toDigitsCore] using hds
  | succ fuel ih =>
    intro n ds hds
    have hcons : ∀ c ∈ Nat.digitChar (n % 10) :: ds, c ≠ '.' ∧ c ≠ ':' := by
      intro c hc
      rcases List.mem_cons.1 hc with rfl | hc
      · exact digitChar_ne n
      · exact hds c hc
    simp only [Nat.toDigitsCore]
    split_ifs
    · exact hcons
    · exact ih _ _ hcons

/-- The decimal digits of a number contain no dot and no colon. -/
theorem toDigits_chars (n : Nat) : ∀ c ∈ Nat.toDigits 10 n, c ≠ '.' ∧ c ≠ ':' :=
  toDigitsCore_chars _ _ _ (by simp)

theorem replaceChar_append (x y : Char) (a b : QString) :
    replaceChar x y (a ++ b) = replaceChar x y a ++ replaceChar x y b := by
  simp [replaceChar]

theorem replaceChar_cons (x y c : Char) (a : QString) :
    replaceChar x y (c :: a) = (if c = x then y else c) :: replaceChar x y a := by
  simp [replaceChar]

theorem replaceChar_of_not_mem (x y : Char) (a : QString) (h : x ∉ a) :
    replaceChar x y a = a := by
  unfold replaceChar
  conv_rhs => rw [← List.map_id a]
  apply List.map_congr_left
  intro c hc
  have : c ≠ x := fun e => h (e ▸ hc)
  simp [this]

/-- The host part of the PASV reply for an IPv4 address: its four octets in
decimal, separated by commas. -/
theorem pasv_host_ipv4 (ip4 : Nat) :
    replaceChar '.' ',' (replaceChar ':' '.' (QHostAddress.ipv4 ip4).toString)
      = join ',' ((octets ip4).map (fun o => Nat.toDigits 10 o)) := by
  have hd : ∀ n, replaceChar ':' '.' (Nat.toDigits 10 n) = Nat.toDigits 10 n :=
    fun n => replaceChar_of_not_mem _ _ _ (fun h => (toDigits_chars n _ h).2 rfl)
  have hc : ∀ n, replaceChar '.' ',' (Nat.toDigits 10 n) = Nat.toDigits 10 n :=
    fun n => replaceChar_of_not_mem _ _ _ (fun h => (toDigits_chars n _ h).1 rfl)
  simp only [QHostAddress.toString, octets, List.map_cons, List.map_nil, join_cons_cons,
    join_singleton, replaceChar_append, replaceChar_cons, hd, hc]
  rfl

theorem number_ofNat (n : Nat) : number (n : Int) = Nat.toDigits 10 n := by
  simp [number]

/-- The two port bytes of the PASV reply: each at most 255, and together the
port. -/
theorem pasv_port_bytes (P : Nat) (hP : P < 65536) :
    P >>> 8 ≤ 255 ∧ P &&& 0xFF ≤ 255 ∧ (P >>> 8) * 256 + (P &&& 0xFF) = P := by
  have h1 : P >>> 8 = P / 256 := by rw [Nat.shiftRight_eq_div_pow]
  have h2 : P &&& 0xFF = P % 256 := Nat.and_pow_two_sub_one_eq_mod P 8
  rw [h1, h2]
  omega

theorem replies_append (t u : List Action) : replies (t ++ u) = replies t ++ replies u := by
  simp [replies, List.filterMap_append]

theorem replies_closeDataConnection (s : Sys W) :
    replies (closeDataConnection s).trace = replies s.trace ∧
    (closeDataConnection s).world = s.world := by
  unfold closeDataConnection closeOpenFile closePassiveServer closeDataSocket
  cases s.conn.m_dataSocket <;> cases s.conn.m_passiveServer <;> cases s.conn.m_file <;>
    simp [Sys.log, replies_append, replies, Action.reply?]
theorem closeDataConnection_mode (s : Sys W) :
    (closeDataConnection s).conn.m_transferMode = s.conn.m_transferMode := by
  unfold closeDataConnection closeOpenFile closePassiveServer closeDataSocket
  cases s.conn.m_dataSocket <;> cases s.conn.m_passiveServer <;> cases s.conn.m_file <;>
    simp [Sys.log]

/-- In passive mode, when the system grants a port, `setupDataConnection` leaves
a server listening on that port and writes no reply. -/
theorem setupDataConnection_passive (env : Env W) (s : Sys W) (P : Nat) (w1 : W)
    (hm : s.conn.m_transferMode = TransferMode.Passive)
    (hlisten : env.listen s.world = (some P, w1)) :
    (setupDataConnection env s).conn.m_passiveServer = some ⟨P⟩ ∧
    (setupDataConnection env s).conn.m_transferMode = TransferMode.Passive ∧
    (setupDataConnection env s).world = w1 ∧
    replies (setupDataConnection env s).trace = replies s.trace := by
  have hw := (replies_closeDataConnection s).2
  have hr := (replies_closeDataConnection s).1
  have hmode := (closeDataConnection_mode s).trans hm
  unfold setupDataConnection
  simp only [hmode, if_true, hw, hlisten, Sys.log, replies_append, hr, true_and]
  simp [replies, Action.reply?]

/-- C10: for every passive listener port `P` in 0..65535 and every local
address of the control socket, the one reply of PASV in a logged-in session is
227 with the text `Entering Passive Mode (h1,h2,h3,h4,p1,p2)`, where `p1` is
`P >> 8` and `p2` is `P & 0xFF` (both at most 255, and `p1 * 256 + p2 = P`),
and `h1..h4` are the four octets of the local address when it is IPv4 and
127,0,0,1 when it is IPv6; the session is then in passive mode with the
listener on port `P`. -/
theorem pasv_reply (env : Env W) (s : Sys W) (param : QString) (P : Nat) (w1 : W)
    (hl : s.conn.m_isLoggedIn = true) (hlisten : env.listen s.world = (some P, w1))
    (hP : P < 65536) :
    (∀ ip4, env.localAddress w1 = QHostAddress.ipv4 ip4 →
      replies (handlePASV env s param).trace
        = replies s.trace ++ [((227 : Int), pasvText (octets ip4 ++ [P >>> 8, P &&& 0xFF]))]) ∧
    (∀ text, env.localAddress w1 = QHostAddress.ipv6 text →
      replies (handlePASV env s param).trace
        = replies s.trace ++ [((227 : Int), pasvText [127, 0, 0, 1, P >>> 8, P &&& 0xFF])]) ∧
    (P >>> 8 ≤ 255 ∧ P &&& 0xFF ≤ 255 ∧ (P >>> 8) * 256 + (P &&& 0xFF) = P) ∧
    (∀ ip4, ∀ o ∈ octets ip4, o ≤ 255) ∧
    (handlePASV env s param).conn.m_transferMode = TransferMode.Passive ∧
    (handlePASV env s param).conn.m_passiveServer = some ⟨P⟩ ∧
    (∀ server, dispatch env server s "PASV".toList param = some (handlePASV env s param)) := by
  have hsetup := setupDataConnection_passive env
    { s with conn := { s.conn with m_transferMode := TransferMode.Passive } } P w1 rfl hlisten
  obtain ⟨hsrv, hmode, hworld, hrep⟩ := hsetup
  have hmod : P % 65536 = P := Nat.mod_eq_of_lt hP
  have hpasv : handlePASV env s param
      = sendResponse (setupDataConnection env
          { s with conn := { s.conn with m_transferMode := TransferMode.Passive } }) 227
          ("Entering Passive Mode (".toList ++ replaceChar '.' ','
              (if (env.localAddress w1).protocol = NetworkLayerProtocol.IPv6Protocol
                then "127.0.0.1".toList
                else replaceChar ':' '.' (env.localAddress w1).toString)
            ++ ",".toList ++ Nat.toDigits 10 (P >>> 8)
            ++ ",".toList ++ Nat.toDigits 10 (P &&& 0xFF) ++ ")".toList) := by
    unfold handlePASV
    rw [checkLogin_true s hl]
    simp only [hsrv, hworld, hmod, number_ofNat]
  refine ⟨?_, ?_, pasv_port_bytes P hP, ?_, ?_, ?_, fun _ => rfl⟩
  · intro ip4 h4
    rw [hpasv, h4]
    simp only [sendResponse, replies_append, hrep]
    simp only [QHostAddress.protocol, if_neg (by decide : ¬ NetworkLayerProtocol.IPv4Protocol
      = NetworkLayerProtocol.IPv6Protocol), pasv_host_ipv4]
    simp [replies, Action.reply?, pasvText, octets, join, List.intercalate, List.intersperse]
  · intro text h6
    rw [hpasv, h6]
    simp only [sendResponse, replies_append, hrep]
    simp only [QHostAddress.protocol, if_true]
    have : replaceChar '.' ',' "127.0.0.1".toList = "127,0,0,1".toList := by decide
    rw [this]
    have h127 : Nat.toDigits 10 127 = "127".toList := by decide
    have h0 : Nat.toDigits 10 0 = "0".toList := by decide
    have h1 : Nat.toDigits 10 1 = "1".toList := by decide
    simp [replies, Action.reply?, pasvText, join, List.intercalate, List.intersperse,
      h127, h0, h1]
  · intro ip4 o ho
    simp only [octets, List.mem_cons, List.mem_singleton, List.not_mem_nil, or_false] at ho
    rcases ho with rfl | rfl | rfl | rfl <;> omega
  · rw [hpasv]; exact hmode
  · rw [hpasv]; exact hsrv

theorem pasv_reply_witness :
    replies (handlePASV simEnv simLoggedIn []).trace
      = [((227 : Int), "Entering Passive Mode (192,168,1,10,195,80)".toList)] ∧
    ((∀ ip4, simEnv.localAddress simWorld = QHostAddress.ipv4 ip4 →
      replies (handlePASV simEnv simLoggedIn []).trace
        = replies simLoggedIn.trace ++ [((227 : Int), pasvText (octets ip4 ++ [50000 >>> 8, 50000 &&& 0xFF]))]) ∧
    (∀ text, simEnv.localAddress simWorld = QHostAddress.ipv6 text →
      replies (handlePASV simEnv simLoggedIn []).trace
        = replies simLoggedIn.trace ++ [((227 : Int), pasvText [127, 0, 0, 1, 50000 >>> 8, 50000 &&& 0xFF])]) ∧
    (50000 >>> 8 ≤ 255 ∧ 50000 &&& 0xFF ≤ 255 ∧ (50000 >>> 8) * 256 + (50000 &&& 0xFF) = 50000) ∧
    (∀ ip4, ∀ o ∈ octets ip4, o ≤ 255) ∧
    (handlePASV simEnv simLoggedIn []).conn.m_transferMode = TransferMode.Passive ∧
    (handlePASV simEnv simLoggedIn []).conn.m_passiveServer = some ⟨50000⟩ ∧
    (∀ server, dispatch simEnv server simLoggedIn "PASV".toList []
      = some (handlePASV simEnv simLoggedIn []))) :=
  ⟨by decide, pasv_reply simEnv simLoggedIn [] 50000 simWorld rfl rfl (by decide)⟩
/-- C8 fails as stated: in a logged-in session `PORT a,b,c,d,e,f`, whose fields
are not numbers, and `PORT 300,1,1,1,256,65536`, whose fields are out of range,
are both answered 200 and set active mode; neither is answered 501. -/
theorem port_validation_counterexample :
    (processLines simEnv simServer simLoggedIn ["PORT a,b,c,d,e,f".toList]).map
        (fun s => (replies s.trace, s.conn.m_transferMode, s.conn.m_dataHostAddress,
          s.conn.m_dataPort))
      = some ([(200, "PORT command successful".toList)], TransferMode.Active,
          QHostAddress.null, 0) ∧
    (processLines simEnv simServer simLoggedIn ["PORT 300,1,1,1,256,65536".toList]).map
        (fun s => (replies s.trace, s.conn.m_transferMode, s.conn.m_dataHostAddress,
          s.conn.m_dataPort))
      = some ([(200, "PORT command successful".toList)], TransferMode.Active,
          QHostAddress.null, 0) :=
  ⟨rfl, rfl⟩

/-- C8, as the code has it: in a logged-in session, `PORT` with six
comma-separated fields is always answered 200 and sets active mode, whatever
the fields hold: the host is the address made from the first four fields
joined by dots, the port is the low 16 bits of `256 * toInt(p1) + toInt(p2)`;
the reply and the mode do not depend on the fields. For two port fields that
are numbers with `256 * p1 + p2` in 0..65535 the port is that number. -/
theorem port_six_fields (env : Env W) (s : Sys W) (param : QString)
    (hl : s.conn.m_isLoggedIn = true) (h6 : (split ',' param).length = 6) :
    handlePORT env s param
      = { world := s.world,
          conn := { s.conn with
            m_dataHostAddress := env.hostAddress (join '.' ((split ',' param).take 4)),
            m_dataPort := portOf (env.toInt ((split ',' param).getD 4 []))
              (env.toInt ((split ',' param).getD 5 [])),
            m_transferMode := TransferMode.Active },
          trace := s.trace ++ [Action.reply 200 "PORT command successful".toList] } ∧
    (handlePORT env s param).conn.m_dataPort < 65536 ∧
    (∀ hi lo : Int, 0 ≤ hi → 0 ≤ lo → hi * 256 + lo < 65536 →
      (portOf hi lo : Int) = hi * 256 + lo) ∧
    (∀ server, dispatch env server s "PORT".toList param = some (handlePORT env s param)) := by
  have heq : handlePORT env s param
      = { world := s.world,
          conn := { s.conn with
            m_dataHostAddress := env.hostAddress (join '.' ((split ',' param).take 4)),
            m_dataPort := portOf (env.toInt ((split ',' param).getD 4 []))
              (env.toInt ((split ',' param).getD 5 [])),
            m_transferMode := TransferMode.Active },
          trace := s.trace ++ [Action.reply 200 "PORT command successful".toList] } := by
    simp [handlePORT, checkLogin_true s hl, h6, sendResponse]
  refine ⟨heq, ?_, ?_, fun _ => rfl⟩
  · rw [heq]
    simp only [portOf]
    omega
  · intro hi lo h1 h2 h3
    simp only [portOf]
    omega

theorem port_six_fields_witness :
    (split ',' "127,0,0,1,195,80".toList).length = 6 ∧
    (handlePORT simEnv simLoggedIn "127,0,0,1,195,80".toList).conn.m_dataPort = 50000 ∧
    (handlePORT simEnv simLoggedIn "127,0,0,1,195,80".toList).conn.m_dataPort < 65536 :=
  ⟨by decide, by decide,
    (port_six_fields simEnv simLoggedIn "127,0,0,1,195,80".toList rfl (by decide)).2.1⟩

/-- C9: in a logged-in session, `PORT` whose parameter does not split on `,`
into exactly six fields is answered 501 and changes nothing else: the transfer
mode and the stored data host and port are as before. The empty parameter is
such a parameter: it splits into one field. -/
theorem port_wrong_field_count (env : Env W) (s : Sys W) (param : QString)
    (hl : s.conn.m_isLoggedIn = true) (h6 : (split ',' param).length ≠ 6) :
    handlePORT env s param
      = { world := s.world, conn := s.conn,
          trace := s.trace ++ [Action.reply 501 "Invalid PORT command".toList] } ∧
    (split ',' ([] : QString)).length = 1 ∧
    handlePORT env s []
      = { world := s.world, conn := s.conn,
          trace := s.trace ++ [Action.reply 501 "Invalid PORT command".toList] } ∧
    (∀ server, dispatch env server s "PORT".toList param = some (handlePORT env s param)) := by
  refine ⟨?_, by decide, ?_, fun _ => rfl⟩
  · simp [handlePORT, checkLogin_true s hl, h6, sendResponse]
  · have : (split ',' ([] : QString)).length ≠ 6 := by decide
    simp [handlePORT, checkLogin_true s hl, this, sendResponse]

theorem port_wrong_field_count_witness :
    (split ',' "127,0,0,1,80".toList).length ≠ 6 ∧
    handlePORT simEnv simLoggedIn "127,0,0,1,80".toList
      = { world := simLoggedIn.world, conn := simLoggedIn.conn,
          trace := simLoggedIn.trace ++ [Action.reply 501 "Invalid PORT command".toList] } :=
  ⟨by decide,
    (port_wrong_field_count simEnv simLoggedIn "127,0,0,1,80".toList rfl (by decide)).1⟩

/-! ## Working directory -/

/-- `resolvePath` of an absolute path does not look at the current directory. -/
theorem resolvePath_etc (cwd : QString) :
    resolvePath cwd "/../../etc".toList = "/etc".toList := rfl

theorem lastReplyCode_two (s : Sys W) (w : W) (c : FtpConnection) (a : Action)
    (code : Int) (m : QString) :
    lastReplyCode ({ world := w, conn := c, trace := s.trace ++ [a, Action.reply code m] }
      : Sys W) = some code := by
  simp [lastReplyCode, replies, List.filterMap_append, Action.reply?]

/-- C16: in a logged-in session, `CWD path` replies 250 and sets the current
directory to `resolvePath(path)` exactly when a directory exists at `rootPath`
followed by `resolvePath(path)`; otherwise it replies 550 and leaves the
current directory, and every other member, unchanged. `CWD /../../etc`
resolves to `/etc` and, when no directory exists at `rootPath` followed by
`/etc`, is answered `550 Directory not found` with the session as before. -/
theorem cwd_outcomes (env : Env W) (server : FtpServer) (s : Sys W) (param : QString)
    (hl : s.conn.m_isLoggedIn = true) :
    dispatch env server s "CWD".toList param = some (handleCWD env server s param) ∧
    (env.dirExists s.world (server.rootPath ++ resolvePath s.conn.m_currentPath param) = true →
      handleCWD env server s param
        = { world := s.world,
            conn := { s.conn with m_currentPath := resolvePath s.conn.m_currentPath param },
            trace := s.trace ++
              [Action.dirExists (server.rootPath ++ resolvePath s.conn.m_currentPath param),
               Action.reply 250 ("Directory changed to ".toList
                 ++ resolvePath s.conn.m_currentPath param)] }) ∧
    (env.dirExists s.world (server.rootPath ++ resolvePath s.conn.m_currentPath param) = false →
      handleCWD env server s param
        = { world := s.world, conn := s.conn,
            trace := s.trace ++
              [Action.dirExists (server.rootPath ++ resolvePath s.conn.m_currentPath param),
               Action.reply 550 "Directory not found".toList] }) ∧
    (lastReplyCode (handleCWD env server s param) = some 250 ↔
      env.dirExists s.world (server.rootPath ++ resolvePath s.conn.m_currentPath param) = true) ∧
    (lastReplyCode (handleCWD env server s param) = some 550 ↔
      env.dirExists s.world (server.rootPath ++ resolvePath s.conn.m_currentPath param) = false) ∧
    resolvePath s.conn.m_currentPath "/../../etc".toList = "/etc".toList ∧
    (env.dirExists s.world (server.rootPath ++ "/etc".toList) = false →
      handleCWD env server s "/../../etc".toList
        = { world := s.world, conn := s.conn,
            trace := s.trace ++
              [Action.dirExists (server.rootPath ++ "/etc".toList),
               Action.reply 550 "Directory not found".toList] }) := by
  refine ⟨rfl, handleCWD_found env server s param hl, handleCWD_missing env server s param hl,
    ?_, ?_, rfl, ?_⟩
  · cases hex : env.dirExists s.world (server.rootPath ++ resolvePath s.conn.m_currentPath param)
    · rw [handleCWD_missing env server s param hl hex, lastReplyCode_two]
      simp
    · rw [handleCWD_found env server s param hl hex, lastReplyCode_two]
      simp
  · cases hex : env.dirExists s.world (server.rootPath ++ resolvePath s.conn.m_currentPath param)
    · rw [handleCWD_missing env server s param hl hex, lastReplyCode_two]
      simp
    · rw [handleCWD_found env server s param hl hex, lastReplyCode_two]
      simp
  · intro hex
    have := handleCWD_missing env server s "/../../etc".toList hl
      (by rw [resolvePath_etc]; exact hex)
    rw [resolvePath_etc] at this
    exact this

theorem cwd_outcomes_witness :
    simLoggedIn.conn.m_isLoggedIn = true ∧
    simEnv.dirExists simLoggedIn.world (simServer.rootPath ++ "/etc".toList) = false ∧
    handleCWD simEnv simServer simLoggedIn "/../../etc".toList
      = { world := simLoggedIn.world, conn := simLoggedIn.conn,
          trace := simLoggedIn.trace ++
            [Action.dirExists (simServer.rootPath ++ "/etc".toList),
             Action.reply 550 "Directory not found".toList] } :=
  ⟨rfl, by decide,
    (cwd_outcomes simEnv simServer simLoggedIn "/../../etc".toList rfl).2.2.2.2.2.2 (by decide)⟩

/-! ## Login and PWD -/

/-- The handlers of the login: from a state with the current directory `/`,
`USER admin`, `PASS password`, `PWD` are answered in order 331, 230 and exactly
`257 "/" is current directory` followed by CRLF; the auth predicate accepts
exactly user `admin` with password `password`; and in every logged-in session
`PWD` replies 257 with the text `"<cwd>" is current directory` and changes
nothing else. -/
theorem login_handlers (env : Env W) (server : FtpServer) (s0 : Sys W) (p : QString)
    (hcwd : s0.conn.m_currentPath = "/".toList) :
    (handlePWD (handlePASS (handleUSER s0 "admin".toList) "password".toList) p).trace
      = s0.trace ++
        [Action.reply 331 "User name okay, need password".toList,
         Action.reply 230 "User logged in, proceed".toList,
         Action.reply 257 "\"/\" is current directory".toList] ∧
    responseText 257 "\"/\" is current directory".toList
      = "257 \"/\" is current directory\r\n".toList ∧
    dispatch env server s0 "USER".toList "admin".toList
      = some (handleUSER s0 "admin".toList) ∧
    dispatch env server (handleUSER s0 "admin".toList) "PASS".toList "password".toList
      = some (handlePASS (handleUSER s0 "admin".toList) "password".toList) ∧
    dispatch env server (handlePASS (handleUSER s0 "admin".toList) "password".toList)
        "PWD".toList p
      = some (handlePWD (handlePASS (handleUSER s0 "admin".toList) "password".toList) p) ∧
    (∀ user password : QString,
      authenticateUser user password = true ↔
        user = "admin".toList ∧ password = "password".toList) ∧
    (∀ (s : Sys W) (q : QString), s.conn.m_isLoggedIn = true →
      handlePWD s q
        = { world := s.world, conn := s.conn,
            trace := s.trace ++ [Action.reply 257
              ("\"".toList ++ s.conn.m_currentPath ++ "\" is current directory".toList)] }) ∧
    (processLines simEnv simServer simFresh
        ["USER admin".toList, "PASS password".toList, "PWD".toList]).map
        (fun s => (replies s.trace).map (fun r => responseText r.1 r.2))
      = some ["331 User name okay, need password\r\n".toList,
              "230 User logged in, proceed\r\n".toList,
              "257 \"/\" is current directory\r\n".toList] := by
  refine ⟨?_, by decide, rfl, rfl, rfl, ?_, ?_, by decide⟩
  · have hauth : authenticateUser ['a', 'd', 'm', 'i', 'n']
        ['p', 'a', 's', 's', 'w', 'o', 'r', 'd'] = true := by decide
    simp [handlePWD, handlePASS, handleUSER, checkLogin, sendResponse, hauth, hcwd]
  · intro user password
    simp [authenticateUser]
  · intro s q hl
    simp [handlePWD, checkLogin_true s hl, sendResponse]

/-! ## Parsing of a control line -/

theorem specVerb_no_space (line : QString) : ' ' ∉ specVerb line := by
  intro h
  have := List.mem_takeWhile_imp h
  simp at this

theorem spec_split (line : QString) :
    (' ' ∉ line → specVerb line = line ∧ specParameter line = []) ∧
    (' ' ∈ line → line = specVerb line ++ ' ' :: specParameter line) := by
  induction line with
  | nil => simp [specVerb, specParameter]
  | cons c cs ih =>
    by_cases hc : c = ' '
    · subst hc
      simp [specVerb, specParameter]
    · have hne : (c != ' ') = true := by simpa using hc
      constructor
      · intro hmem
        have hcs : ' ' ∉ cs := fun h => hmem (List.mem_cons_of_mem _ h)
        have := ih.1 hcs
        simp only [specVerb, specParameter] at this ⊢
        simp [List.takeWhile_cons, List.dropWhile_cons, hne, this.1, this.2]
      · intro hmem
        have hcs : ' ' ∈ cs := by
          rcases List.mem_cons.1 hmem with h | h
          · exact absurd h.symm hc
          · exact h
        have := ih.2 hcs
        simp only [specVerb, specParameter] at this ⊢
        simp only [List.takeWhile_cons, List.dropWhile_cons, hne, if_true, List.cons_append]
        rw [← this]

theorem specParameter_suffix (line : QString) : specParameter line <:+ line := by
  unfold specParameter
  exact (List.drop_suffix _ _).trans (List.dropWhile_suffix _)

/-- `indexOf`, `left` and `mid` in `processCommand` split the line as the
specification says. -/
theorem parseLine_eq_spec (env : Env W) (line : QString) :
    parseLine env line = (env.toUpper (specVerb line), specParameter line) := by
  unfold parseLine indexOf
  by_cases hmem : ' ' ∈ line
  · have hidx : ∀ l : QString, ' ' ∈ l →
        l.take (List.indexOf ' ' l) = specVerb l ∧
        l.drop (List.indexOf ' ' l + 1) = specParameter l := by
      intro l
      induction l with
      | nil => intro h; cases h
      | cons c cs ih =>
        intro h
        by_cases hc : c = ' '
        · subst hc
          simp [specVerb, specParameter, List.indexOf_cons]
        · have hne : (c != ' ') = true := by simpa using hc
          have hcs : ' ' ∈ cs := by
            rcases List.mem_cons.1 h with h | h
            · exact absurd h.symm hc
            · exact h
          have := ih hcs
          simp only [specVerb, specParameter] at this ⊢
          have hbeq : (c == ' ') = false := by simpa using hc
          simp [List.indexOf_cons, hbeq, List.takeWhile_cons, List.dropWhile_cons, hne, this.1,
            this.2]
    have := hidx line hmem
    simp only [hmem, if_true]
    have hneg : ¬ ((List.indexOf ' ' line : Nat) : Int) = -1 := by omega
    simp only [hneg, if_false, Int.toNat_ofNat, this.1, this.2]
  · have := (spec_split line).1 hmem
    simp [hmem, this.1, this.2]

/-- The ASCII `trimmed` leaves no white space at the end. -/
theorem simTrimmed_no_trailing_space (l : QString) (c : Char)
    (h : (simTrimmed l).getLast? = some c) : isAsciiSpace c = false := by
  unfold simTrimmed at h
  rw [List.getLast?_reverse] at h
  have := List.head?_dropWhile_not isAsciiSpace (l.dropWhile isAsciiSpace).reverse
  rw [h] at this
  simpa using this

/-- One turn of the loop of `processCommand`: it takes the trimmed line; an
empty trimmed line produces no reply and no change; otherwise the line is split
at its first space into a verb and a parameter, the parameter being the rest of
the line verbatim (it ends where the trimmed line ends, so it has no trailing
white space when the trimmed line has none), and the handler is selected by
the upper-cased verb, so two lines whose verbs have the same upper-case form
and whose parameters are equal are handled identically; a verb outside the
command table is answered 502 and changes nothing. -/
theorem loop_line_dispatch (env : Env W) (server : FtpServer) (s : Sys W) (rawLine other : QString) :
    (env.trimmed rawLine = [] → processLine env server s rawLine = some s) ∧
    (env.trimmed rawLine ≠ [] →
      processLine env server s rawLine
        = dispatch env server s (env.toUpper (specVerb (env.trimmed rawLine)))
            (specParameter (env.trimmed rawLine))) ∧
    ' ' ∉ specVerb (env.trimmed rawLine) ∧
    (' ' ∉ env.trimmed rawLine →
      specVerb (env.trimmed rawLine) = env.trimmed rawLine ∧
      specParameter (env.trimmed rawLine) = []) ∧
    (' ' ∈ env.trimmed rawLine →
      env.trimmed rawLine
        = specVerb (env.trimmed rawLine) ++ ' ' :: specParameter (env.trimmed rawLine)) ∧
    specParameter (env.trimmed rawLine) <:+ env.trimmed rawLine ∧
    (specParameter (env.trimmed rawLine) ≠ [] →
      (specParameter (env.trimmed rawLine)).getLast? = (env.trimmed rawLine).getLast?) ∧
    (env.trimmed rawLine ≠ [] → env.trimmed other ≠ [] →
      env.toUpper (specVerb (env.trimmed rawLine)) = env.toUpper (specVerb (env.trimmed other)) →
      specParameter (env.trimmed rawLine) = specParameter (env.trimmed other) →
      processLine env server s rawLine = processLine env server s other) ∧
    (env.trimmed rawLine ≠ [] →
      env.toUpper (specVerb (env.trimmed rawLine)) ∉ tableCommands →
      processLine env server s rawLine
        = some { world := s.world, conn := s.conn,
                 trace := s.trace ++ [Action.reply 502 "Command not implemented".toList] }) ∧
    (processLine simEnv simServer simLoggedIn "cwd /srv\r\n".toList
        = processLine simEnv simServer simLoggedIn "  CwD /srv".toList ∧
      processLine simEnv simServer simLoggedIn "CWD /srv".toList
        = processLine simEnv simServer simLoggedIn "  CwD /srv".toList) := by
  have hproc : ∀ raw : QString, env.trimmed raw ≠ [] →
      processLine env server s raw
        = dispatch env server s (env.toUpper (specVerb (env.trimmed raw)))
            (specParameter (env.trimmed raw)) := by
    intro raw hne
    rw [processLine_eq, if_neg (by simpa using hne)]
    simp only [commandOf, parameterOf, parseLine_eq_spec]
  refine ⟨?_, hproc rawLine, specVerb_no_space _, (spec_split _).1, (spec_split _).2,
    specParameter_suffix _, ?_, ?_, ?_, ⟨rfl, rfl⟩⟩
  · intro he
    rw [processLine_eq, if_pos (by simp [he])]
  · intro hne
    obtain ⟨t, ht⟩ := specParameter_suffix (env.trimmed rawLine)
    conv_rhs => rw [← ht]
    rw [List.getLast?_append_of_ne_nil _ hne]
  · intro h1 h2 hv hp
    rw [hproc rawLine h1, hproc other h2, hv, hp]
  · intro hne hnot
    rw [hproc rawLine hne, dispatch_other env server s _ _ hnot]
    rfl

/-! ## The current directory along a run -/

/-- Every result of `resolvePath` is a normalized absolute path. -/
theorem normalizedPath_resolvePath (cwd path : QString) :
    NormalizedPath (resolvePath cwd path) := by
  have hgood := resolvePath_stack_good cwd path
  rw [resolvePath_eq]
  generalize resolveSegments (splitSkipEmptyParts '/' (resolveStart cwd path)) = stack at hgood
  refine ⟨rfl, ?_⟩
  by_cases hne : stack = []
  · left; subst hne; rfl
  · right
    intro seg hs
    rw [List.tail_cons, split_join_good stack hne hgood] at hs
    exact ⟨(hgood seg hs).1, (hgood seg hs).2.1, (hgood seg hs).2.2.1⟩

theorem handleRNFR_cwd (env : Env W) (server : FtpServer) (s : Sys W) (p : QString) :
    (handleRNFR env server s p).conn.m_currentPath = s.conn.m_currentPath := by
  unfold handleRNFR
  have hc := (frame_checkLogin (fun _ => True) s).1
  rcases hcl : checkLogin s with ⟨_ | _, s1⟩ <;> rw [hcl] at hc
  · exact hc
  · simp only
    split_ifs <;> exact hc

theorem handleRNTO_cwd (env : Env W) (server : FtpServer) (s : Sys W) (p : QString) :
    (handleRNTO env server s p).conn.m_currentPath = s.conn.m_currentPath := by
  unfold handleRNTO
  have hc := (frame_checkLogin (fun _ => True) s).1
  rcases hcl : checkLogin s with ⟨_ | _, s1⟩ <;> rw [hcl] at hc
  · exact hc
  · simp only
    split_ifs
    · exact hc
    · exact hc
    · split <;> exact hc

theorem handlePASS_cwd (s : Sys W) (p : QString) :
    (handlePASS s p).conn.m_currentPath = s.conn.m_currentPath := by
  unfold handlePASS
  split_ifs <;> rfl

/-- `CWD` leaves the current directory or sets it to a result of
`resolvePath`. -/
theorem handleCWD_cwd (env : Env W) (server : FtpServer) (s : Sys W) (p : QString) :
    (handleCWD env server s p).conn.m_currentPath = s.conn.m_currentPath ∨
    (handleCWD env server s p).conn.m_currentPath = resolvePath s.conn.m_currentPath p := by
  unfold handleCWD
  have hc := (frame_checkLogin (fun _ => True) s).1
  rcases hcl : checkLogin s with ⟨_ | _, s1⟩ <;> rw [hcl] at hc
  · exact Or.inl hc
  · simp only
    split_ifs
    · exact Or.inl hc
    · right; simp only [sendResponse, Sys.log]; rw [hc]

/-- Every command leaves the current directory or, for `CWD`, sets it to a
result of `resolvePath`. -/
theorem dispatch_cwd (env : Env W) (server : FtpServer) (s s1 : Sys W)
    (command parameter : QString) (h : dispatch env server s command parameter = some s1) :
    s1.conn.m_currentPath = s.conn.m_currentPath ∨
    s1.conn.m_currentPath = resolvePath s.conn.m_currentPath parameter := by
  by_cases hmem : command ∈ tableCommands
  · simp only [tableCommands, List.mem_cons, List.mem_singleton, List.not_mem_nil, or_false]
      at hmem
    rcases hmem with e | e | e | e | e | e | e | e | e | e | e | e | e | e | e | e | e | e <;>
      subst e
    · rw [dispatch_USER] at h; cases h; exact Or.inl rfl
    · rw [dispatch_PASS] at h; cases h; exact Or.inl (handlePASS_cwd s parameter)
    · rw [dispatch_SYST] at h; cases h; exact Or.inl rfl
    · rw [dispatch_QUIT] at h; cases h; exact Or.inl rfl
    · rw [dispatch_TYPE] at h; cases h
      exact Or.inl (frame_handleTYPE (fun _ => True) s parameter).1
    · rw [dispatch_PORT] at h; cases h
      exact Or.inl (frame_handlePORT (fun _ => True) env s parameter).1
    · rw [dispatch_PASV] at h; cases h
      exact Or.inl (frame_handlePASV (fun _ => True) env s parameter).1
    · rw [dispatch_LIST] at h
      exact Or.inl (frame_handleLIST (fun _ => True) env server s parameter trivial s1 h).1
    · rw [dispatch_CWD] at h; cases h
      exact handleCWD_cwd env server s parameter
    · rw [dispatch_PWD] at h; cases h
      exact Or.inl (frame_handlePWD (fun _ => True) s parameter).1
    · rw [dispatch_MKD] at h; cases h
      exact Or.inl (frame_handleMKD (fun _ => True) env server s parameter trivial).1
    · rw [dispatch_RMD] at h; cases h
      exact Or.inl (frame_handleRMD (fun _ => True) env server s parameter trivial).1
    · rw [dispatch_DELE] at h; cases h
      exact Or.inl (frame_handleDELE (fun _ => True) env server s parameter trivial).1
    · rw [dispatch_RNFR] at h; cases h
      exact Or.inl (handleRNFR_cwd env server s parameter)
    · rw [dispatch_RNTO] at h; cases h
      exact Or.inl (handleRNTO_cwd env server s parameter)
    · rw [dispatch_STOR] at h; cases h
      exact Or.inl (frame_handleSTOR (fun _ => True) env server s parameter trivial).1
    · rw [dispatch_RETR] at h
      exact Or.inl (frame_handleRETR (fun _ => True) env server s parameter trivial s1 h).1
    · rw [dispatch_NOOP] at h; cases h; exact Or.inl rfl
  · rw [dispatch_other env server s command parameter hmem] at h
    cases h; exact Or.inl rfl

theorem onDataReadyRead_conn (env : Env W) (s : Sys W) (data : QByteArray) :
    (onDataReadyRead env s data).conn = s.conn := by
  unfold onDataReadyRead
  split <;> rfl

theorem onDataDisconnected_cwd (s : Sys W) :
    (onDataDisconnected s).conn.m_currentPath = s.conn.m_currentPath := by
  unfold onDataDisconnected
  cases hf : s.conn.m_file <;> cases hs : s.conn.m_dataSocket <;>
    simp [sendResponse, Sys.log, hs]

theorem onBytesWritten_cwd (env : Env W) (s : Sys W) (bytes : Int) :
    (onBytesWritten env s bytes).conn.m_currentPath = s.conn.m_currentPath := by
  unfold onBytesWritten
  simp only
  split
  · split_ifs <;> rfl
  · rfl

/-- `processCommand` has a result only with a timer; on one line the result is
that of the turn of the loop. -/
theorem processCommand_single (env : Env W) (server : FtpServer) (s s1 : Sys W)
    (rawLine : QString) (h : processCommand env server s [rawLine] = some s1) :
    processLine env server s rawLine = some s1 ∧ ∃ t, s.conn.m_timer = Pointer.object t := by
  unfold processCommand at h
  split at h
  · rename_i t ht
    refine ⟨?_, t, ht⟩
    simp only [processLines] at h
    cases hp : processLine env server s rawLine with
    | none => rw [hp] at h; exact absurd h (by simp)
    | some s2 => rw [hp] at h; exact h
  · exact absurd h (by simp)

theorem sendWelcome_cwd (env : Env W) (s : Sys W) :
    (sendWelcome env s).conn.m_currentPath = s.conn.m_currentPath := by
  unfold sendWelcome
  split_ifs <;> rfl

/-- Every event leaves the current directory or sets it to a result of
`resolvePath`. -/
theorem handleEvent_cwd (env : Env W) (server : FtpServer) (s s1 : Sys W) (e : Event)
    (h : handleEvent env server s e = some s1) :
    s1.conn.m_currentPath = s.conn.m_currentPath ∨
    ∃ p, s1.conn.m_currentPath = resolvePath s.conn.m_currentPath p := by
  cases e with
  | line rawLine =>
    simp only [handleEvent] at h
    replace h := (processCommand_single env server s s1 rawLine h).1
    rw [processLine_eq] at h
    split_ifs at h
    · cases h; exact Or.inl rfl
    · rcases dispatch_cwd env server s s1 _ _ h with h1 | h1
      · exact Or.inl h1
      · exact Or.inr ⟨_, h1⟩
  | dataConnected =>
    simp only [handleEvent] at h; cases h
    exact Or.inl (frame_onDataConnected (fun _ => True) env s).1
  | dataReadyRead data =>
    simp only [handleEvent] at h; cases h
    exact Or.inl (by rw [onDataReadyRead_conn])
  | dataDisconnected =>
    simp only [handleEvent] at h; cases h
    exact Or.inl (onDataDisconnected_cwd s)
  | bytesWritten bytes =>
    simp only [handleEvent] at h; cases h
    exact Or.inl (onBytesWritten_cwd env s bytes)
  | timeout =>
    simp only [handleEvent] at h; cases h; exact Or.inl rfl
  | welcome =>
    simp only [handleEvent] at h; cases h; exact Or.inl (sendWelcome_cwd env s)

theorem run_normalized (env : Env W) (server : FtpServer) (events : List Event) :
    ∀ s s1 : Sys W, NormalizedPath s.conn.m_currentPath → run env server s events = some s1 →
      NormalizedPath s1.conn.m_currentPath := by
  induction events with
  | nil => intro s s1 hn h; cases h; exact hn
  | cons e rest ih =>
    intro s s1 hn h
    simp only [run] at h
    cases hstep : handleEvent env server s e with
    | none => rw [hstep] at h; cases h
    | some s2 =>
      rw [hstep] at h
      refine ih s2 s1 ?_ h
      rcases handleEvent_cwd env server s s2 e hstep with h1 | ⟨p, h1⟩
      · rw [h1]; exact hn
      · rw [h1]; exact normalizedPath_resolvePath _ _

/-- C15: in every session state reached from the constructed state (current
directory `/`, the other members whatever they are) by any sequence of command
lines and events, the current directory is a normalized absolute path: it
begins with `/` and, unless it is `/` itself, none of its segments is empty,
`.` or `..`. -/
theorem cwd_normalized (env : Env W) (server : FtpServer) (s0 s : Sys W)
    (events : List Event) (h0 : s0.conn.m_currentPath = "/".toList)
    (hrun : run env server s0 events = some s) :
    s.conn.m_currentPath.head? = some '/' ∧
    (s.conn.m_currentPath = "/".toList ∨
      ∀ seg ∈ split '/' s.conn.m_currentPath.tail,
        seg ≠ [] ∧ seg ≠ ".".toList ∧ seg ≠ "..".toList) :=
  run_normalized env server events s0 s (by rw [h0]; exact ⟨rfl, Or.inl rfl⟩) hrun

theorem cwd_normalized_witness :
    ∃ s, run simEnv simServer simFresh
        [Event.welcome, Event.line "USER admin".toList, Event.line "PASS password".toList,
         Event.line "MKD a".toList, Event.line "CWD a/./b/../".toList,
         Event.dataDisconnected] = some s ∧
      s.conn.m_currentPath = "/a".toList ∧
      s.conn.m_currentPath.head? = some '/' ∧
      (s.conn.m_currentPath = "/".toList ∨
        ∀ seg ∈ split '/' s.conn.m_currentPath.tail,
          seg ≠ [] ∧ seg ≠ ".".toList ∧ seg ≠ "..".toList) :=
  ⟨_, rfl, rfl,
    cwd_normalized simEnv simServer simFresh _
      [Event.welcome, Event.line "USER admin".toList, Event.line "PASS password".toList,
       Event.line "MKD a".toList, Event.line "CWD a/./b/../".toList,
       Event.dataDisconnected] rfl rfl⟩

/-! ## What the helpers and handlers add to the trace -/

theorem Ext.nothing (R : Int → QString → Prop) (s : Sys W) : Ext R s s :=
  ⟨[], by simp, by simp⟩

theorem Ext.followedBy {R : Int → QString → Prop} {s s1 s2 : Sys W} (h1 : Ext R s s1)
    (h2 : Ext R s1 s2) : Ext R s s2 := by
  obtain ⟨n1, e1, r1⟩ := h1
  obtain ⟨n2, e2, r2⟩ := h2
  refine ⟨n1 ++ n2, by rw [e2, e1, List.append_assoc], ?_⟩
  intro c m hm
  rcases List.mem_append.1 hm with h | h
  · exact r1 c m h
  · exact r2 c m h

/-- A change of the world or of the members adds nothing to the trace. -/
theorem ext_update (R : Int → QString → Prop) (s : Sys W) (w : W) (c : FtpConnection) :
    Ext R s { world := w, conn := c, trace := s.trace } :=
  ⟨[], by simp, by simp⟩

theorem ext_same (R : Int → QString → Prop) (s s1 : Sys W) (h : s1.trace = s.trace) :
    Ext R s s1 :=
  ⟨[], by simp [h], by simp⟩

/-- An action that is not a reply. -/
theorem ext_action (R : Int → QString → Prop) (s s1 : Sys W) (a : Action)
    (h : s1.trace = s.trace ++ [a]) (ha : a.reply? = none) : Ext R s s1 := by
  refine ⟨[a], h, ?_⟩
  intro c m hm
  have : Action.reply c m = a := by simpa using hm
  subst this
  simp [Action.reply?] at ha

theorem ext_log (R : Int → QString → Prop) (s : Sys W) (a : Action)
    (ha : a.reply? = none) : Ext R s (s.log a) :=
  ext_action R s _ a rfl ha

theorem ext_reply (R : Int → QString → Prop) (s s1 : Sys W) (code : Int) (m : QString)
    (h : s1.trace = s.trace ++ [Action.reply code m]) (hR : R code m) : Ext R s s1 := by
  refine ⟨[Action.reply code m], h, ?_⟩
  intro c m1 hm
  simp only [List.mem_singleton, Action.reply.injEq] at hm
  rw [hm.1, hm.2]; exact hR

theorem ext_sendResponse (R : Int → QString → Prop) (s : Sys W) (code : Int) (m : QString)
    (hR : R code m) : Ext R s (sendResponse s code m) :=
  ext_reply R s _ code m rfl hR

theorem ext_closeDataSocket (R : Int → QString → Prop) (s : Sys W) :
    Ext R s (closeDataSocket s) := by
  unfold closeDataSocket
  cases s.conn.m_dataSocket with
  | none => exact Ext.nothing R s
  | some x => exact ext_action R s _ Action.closeSocket rfl rfl

theorem ext_closePassiveServer (R : Int → QString → Prop) (s : Sys W) :
    Ext R s (closePassiveServer s) := by
  unfold closePassiveServer
  cases s.conn.m_passiveServer with
  | none => exact Ext.nothing R s
  | some x => exact ext_action R s _ (Action.closeServer x.serverPort) rfl rfl

theorem ext_closeOpenFile (R : Int → QString → Prop) (s : Sys W) :
    Ext R s (closeOpenFile s) := by
  unfold closeOpenFile
  cases s.conn.m_file with
  | none => exact Ext.nothing R s
  | some x => exact ext_action R s _ (Action.closeFile x.fileName) rfl rfl

theorem ext_closeDataConnection (R : Int → QString → Prop) (s : Sys W) :
    Ext R s (closeDataConnection s) :=
  ((ext_closeDataSocket R s).followedBy (ext_closePassiveServer R _)).followedBy
    (ext_closeOpenFile R _)

theorem ext_setupDataConnection (R : Int → QString → Prop) (env : Env W) (s : Sys W)
    (h425 : R 425 "Cannot open data connection".toList) :
    Ext R s (setupDataConnection env s) := by
  unfold setupDataConnection
  refine (ext_closeDataConnection R s).followedBy ?_
  generalize closeDataConnection s = s1
  simp only
  split_ifs with hm
  · rcases hl : env.listen s1.world with ⟨_ | port, w⟩
    · simp only
      exact (ext_action R s1 ({ (s1.log Action.listen) with world := w } : Sys W)
        Action.listen rfl rfl).followedBy (ext_sendResponse R _ _ _ h425)
    · simp only
      exact ext_action R s1 _ Action.listen rfl rfl
  · exact ext_action R s1 _ (Action.connectToHost _ _) rfl rfl

theorem ext_onDataConnected (R : Int → QString → Prop) (env : Env W) (s : Sys W)
    (h150 : R 150 "Data connection established".toList) :
    Ext R s (onDataConnected env s) := by
  unfold onDataConnected
  refine Ext.followedBy ?_ (ext_sendResponse R _ _ _ h150)
  split_ifs with hm
  · split
    · split
      · exact ext_action R s _ (Action.closeServer _) rfl rfl
      · exact ext_same R s _ rfl
    · exact Ext.nothing R s
  · exact Ext.nothing R s

theorem ext_waitActive (R : Int → QString → Prop) (env : Env W) (s : Sys W)
    (socket : QTcpSocket) (h425 : R 425 "Can't open data connection".toList)
    (h150 : R 150 "Data connection established".toList) :
    Ext R s (waitActive env s socket).2 := by
  unfold waitActive
  generalize (match socket with
    | .outgoing host port => env.waitForConnected s.world host port
    | .accepted _ => (true, s.world)) = r
  rcases r with ⟨_ | _, w⟩
  · exact ((ext_update R s w s.conn).followedBy (ext_sendResponse R _ _ _ h425)).followedBy
      (ext_closeDataConnection R _)
  · exact ((ext_update R s w s.conn).followedBy (ext_onDataConnected R env _ h150)).followedBy
      (ext_onDataConnected R env _ h150)

theorem ext_startTransfer (R : Int → QString → Prop) (env : Env W) (s : Sys W) (m : QString)
    (h425 : R 425 "Can't open data connection".toList)
    (h150 : R 150 "Data connection established".toList) (hm : R 150 m) :
    Ext R s (startTransfer env s m).2 := by
  unfold startTransfer
  split
  · exact ext_waitActive R env s _ h425 h150
  · exact ext_sendResponse R _ _ _ hm

theorem ext_waitPassive (R : Int → QString → Prop) (env : Env W) (s : Sys W)
    (r : Bool × Sys W) (h425 : R 425 "Can't open data connection".toList)
    (h150 : R 150 "Data connection established".toList)
    (h : waitPassive env s = some r) : Ext R s r.2 := by
  unfold waitPassive at h
  split_ifs at h
  · split at h
    · exact absurd h (by simp)
    · split at h <;> simp only [Option.some.injEq] at h <;> subst h
      · exact ((ext_update R s _ s.conn).followedBy (ext_sendResponse R _ _ _ h425)).followedBy
          (ext_closeDataConnection R _)
      · exact (ext_update R s _ s.conn).followedBy (ext_onDataConnected R env _ h150)
  · simp only [Option.some.injEq] at h
    subst h; exact Ext.nothing R s

theorem ext_checkLogin (R : Int → QString → Prop) (s : Sys W)
    (h530 : R 530 "Not logged in".toList) : Ext R s (checkLogin s).2 := by
  unfold checkLogin
  split_ifs
  · exact ext_sendResponse R s _ _ h530
  · exact Ext.nothing R s

theorem ext_handleLIST_tail (R : Int → QString → Prop) (env : Env W) (server : FtpServer)
    (s : Sys W) (param : QString) (hR : ∀ c m, (c, m) ∈ listReplies → R c m)
    (hlog : s.conn.m_isLoggedIn = true) (s' : Sys W)
    (h : handleLIST env server s param = some s') : Ext R (setupDataConnection env s) s' := by
  have h425 : R 425 "Can't open data connection".toList := hR _ _ (by decide)
  have h150 : R 150 "Data connection established".toList := hR _ _ (by decide)
  unfold handleLIST at h
  rw [checkLogin_true s hlog] at h
  simp only at h
  generalize setupDataConnection env s = s2 at h ⊢
  have h2 := Ext.nothing R s2
  split_ifs at h with hnone
  · simp only [Option.some.injEq] at h
    subst h; exact h2.followedBy (ext_sendResponse R _ _ _ h425)
  have hready := h2.followedBy (ext_startTransfer R env s2
    "Opening data connection for directory listing".toList h425 h150 (hR _ _ (by decide)))
  generalize startTransfer env s2 "Opening data connection for directory listing".toList
    = ready at h hready
  rcases ready with ⟨_ | _, s3⟩
  · simp only [Option.some.injEq] at h
    subst h; exact hready
  simp only at h hready
  have h4 : Ext R s2 (s3.log (Action.dirExists
      (server.rootPath ++ resolvePath s3.conn.m_currentPath param))) :=
    hready.followedBy (ext_log R s3 _ rfl)
  generalize hp : server.rootPath ++ resolvePath s3.conn.m_currentPath param = full at h h4
  generalize s3.log (Action.dirExists full) = s4 at h h4
  split_ifs at h with hex
  · simp only [Option.some.injEq] at h
    subst h
    exact (h4.followedBy (ext_sendResponse R _ _ _ (hR _ _ (by decide)))).followedBy
      (ext_closeDataConnection R _)
  have h5 : Ext R s2 (s4.log (Action.entryInfoList full)) := h4.followedBy (ext_log R s4 _ rfl)
  generalize s4.log (Action.entryInfoList full) = s5 at h h5
  rcases hw : waitPassive env s5 with _ | ⟨_ | _, s6⟩
  · rw [hw] at h; exact absurd h (by simp)
  · rw [hw] at h
    simp only [Option.some.injEq] at h
    subst h; exact h5.followedBy (ext_waitPassive R env s5 _ h425 h150 hw)
  · rw [hw] at h
    have h6 := h5.followedBy (ext_waitPassive R env s5 _ h425 h150 hw)
    simp only at h h6
    split at h <;> simp only [Option.some.injEq] at h <;> subst h
    · exact (h6.followedBy (ext_log R s6 (Action.socketWriteUtf8 _) rfl)).followedBy
        (ext_log R _ Action.disconnectFromHost rfl)
    · exact h6

theorem ext_handleLIST (R : Int → QString → Prop) (env : Env W) (server : FtpServer)
    (s : Sys W) (param : QString) (hR : ∀ c m, (c, m) ∈ listReplies → R c m) (s' : Sys W)
    (h : handleLIST env server s param = some s') : Ext R s s' := by
  cases hlog : s.conn.m_isLoggedIn with
  | false =>
    unfold handleLIST at h
    rw [checkLogin_false s hlog] at h
    simp only [Option.some.injEq] at h
    subst h; exact ext_sendResponse R _ _ _ (hR _ _ (by decide))
  | true =>
    exact (ext_setupDataConnection R env s (hR _ _ (by decide))).followedBy
      (ext_handleLIST_tail R env server s param hR hlog s' h)

theorem ext_openNewFile (R : Int → QString → Prop) (env : Env W) (s : Sys W)
    (fullPath : QString) (mode : OpenMode) : Ext R s (openNewFile env s fullPath mode).2 := by
  unfold openNewFile
  exact ext_action R s _ (Action.openFile fullPath mode) rfl rfl

theorem ext_handleSTOR_tail (R : Int → QString → Prop) (env : Env W) (server : FtpServer)
    (s : Sys W) (param : QString) (hR : ∀ c m, (c, m) ∈ fixedReplies → R c m)
    (hlog : s.conn.m_isLoggedIn = true) (hparam : param.isEmpty = false) :
    Ext R (setupDataConnection env s) (handleSTOR env server s param) := by
  have h425 : R 425 "Can't open data connection".toList := hR _ _ (by decide)
  have h150 : R 150 "Data connection established".toList := hR _ _ (by decide)
  unfold handleSTOR
  rw [checkLogin_true s hlog]
  simp only [hparam, Bool.false_eq_true, if_false]
  generalize setupDataConnection env s = s2
  by_cases hnone : s2.conn.m_dataSocket.isNone = true ∧ s2.conn.m_passiveServer.isNone = true
  · rw [if_pos hnone]; exact ext_sendResponse R _ _ _ h425
  rw [if_neg hnone]
  have h3 := ext_openNewFile R env s2 (server.rootPath ++ resolvePath s2.conn.m_currentPath param)
    OpenMode.WriteOnly
  rcases hop : openNewFile env s2 (server.rootPath ++ resolvePath s2.conn.m_currentPath param)
    OpenMode.WriteOnly with ⟨_ | _, s3⟩
  · rw [hop] at h3
    exact (h3.followedBy (ext_sendResponse R _ _ _ (hR _ _ (by decide)))).followedBy
      (ext_closeDataConnection R _)
  · rw [hop] at h3
    exact h3.followedBy (ext_startTransfer R env _ _ h425 h150 (hR _ _ (by decide)))

theorem ext_handleSTOR (R : Int → QString → Prop) (env : Env W) (server : FtpServer)
    (s : Sys W) (param : QString) (hR : ∀ c m, (c, m) ∈ fixedReplies → R c m) :
    Ext R s (handleSTOR env server s param) := by
  cases hlog : s.conn.m_isLoggedIn with
  | false =>
    unfold handleSTOR
    rw [checkLogin_false s hlog]
    exact ext_sendResponse R _ _ _ (hR _ _ (by decide))
  | true =>
    cases hparam : param.isEmpty with
    | true =>
      unfold handleSTOR
      rw [checkLogin_true s hlog]
      simp only [hparam, if_true]
      exact ext_sendResponse R _ _ _ (hR _ _ (by decide))
    | false =>
      exact (ext_setupDataConnection R env s (hR _ _ (by decide))).followedBy
        (ext_handleSTOR_tail R env server s param hR hlog hparam)

theorem ext_sendFirstChunk (R : Int → QString → Prop) (env : Env W) (s s' : Sys W)
    (h : sendFirstChunk env s = some s') : Ext R s s' := by
  unfold sendFirstChunk at h
  split at h
  · rename_i f sock hf hsock
    simp only at h
    split_ifs at h <;> simp only [Option.some.injEq] at h <;> subst h
    · exact (ext_action R s _ (Action.fileRead f.fileName (min s.conn.m_bytesTotal 4096))
        rfl rfl).followedBy (ext_log R _ (Action.socketWrite _) rfl)
    · exact (ext_action R s _ (Action.fileRead f.fileName (min s.conn.m_bytesTotal 4096))
        rfl rfl).followedBy (ext_log R _ Action.disconnectFromHost rfl)
  · exact absurd h (by simp)

theorem ext_startDownload (R : Int → QString → Prop) (env : Env W) (s s' : Sys W)
    (hR : ∀ c m, (c, m) ∈ fixedReplies → R c m)
    (h : startDownload env s = some s') : Ext R s s' := by
  unfold startDownload at h
  split at h
  · exact absurd h (by simp)
  rename_i f hf
  have h1 : Ext R s ({ s with conn := { s.conn with
      m_bytesTotal := env.fileSize s.world f.fileName, m_bytesSent := 0 } } : Sys W) :=
    ext_same R s _ rfl
  simp only at h
  generalize ({ s with conn := { s.conn with
      m_bytesTotal := env.fileSize s.world f.fileName, m_bytesSent := 0 } } : Sys W) = s1
    at h h1
  split at h
  · rename_i socket hmode hsock
    have h2 := h1.followedBy (ext_waitActive R env s1 socket (hR _ _ (by decide))
      (hR _ _ (by decide)))
    rcases hwa : waitActive env s1 socket with ⟨_ | _, s2⟩
    · rw [hwa] at h h2
      simp only [Option.some.injEq] at h
      subst h; exact h2
    · rw [hwa] at h h2
      exact h2.followedBy (ext_sendFirstChunk R env _ _ h)
  · simp only [Option.some.injEq] at h
    subst h; exact h1.followedBy (ext_sendResponse R _ _ _ (hR _ _ (by decide)))

theorem ext_handleRETR_tail (R : Int → QString → Prop) (env : Env W) (server : FtpServer)
    (s : Sys W) (param : QString) (hR : ∀ c m, (c, m) ∈ fixedReplies → R c m)
    (hlog : s.conn.m_isLoggedIn = true) (hparam : param.isEmpty = false)
    (hopen : (openNewFile env s (server.rootPath ++ resolvePath s.conn.m_currentPath param)
      OpenMode.ReadOnly).1 = true) (s' : Sys W)
    (h : handleRETR env server s param = some s') :
    Ext R (setupDataConnection env (openNewFile env s
      (server.rootPath ++ resolvePath s.conn.m_currentPath param) OpenMode.ReadOnly).2) s' := by
  unfold handleRETR at h
  rw [checkLogin_true s hlog] at h
  simp only [hparam, Bool.false_eq_true, if_false] at h
  rcases hop : openNewFile env s (server.rootPath ++ resolvePath s.conn.m_currentPath param)
    OpenMode.ReadOnly with ⟨_ | _, s2⟩
  · rw [hop] at hopen; exact absurd hopen (by simp)
  rw [hop] at h
  simp only at h ⊢
  generalize setupDataConnection env s2 = s3 at h ⊢
  by_cases hnone : s3.conn.m_dataSocket.isNone = true ∧ s3.conn.m_passiveServer.isNone = true
  · rw [if_pos hnone] at h
    simp only [Option.some.injEq] at h
    subst h
    exact (ext_sendResponse R _ _ _ (hR _ _ (by decide))).followedBy (ext_closeDataConnection R _)
  rw [if_neg hnone] at h
  exact ext_startDownload R env _ _ hR h

theorem ext_handleRETR (R : Int → QString → Prop) (env : Env W) (server : FtpServer)
    (s : Sys W) (param : QString) (hR : ∀ c m, (c, m) ∈ fixedReplies → R c m) (s' : Sys W)
    (h : handleRETR env server s param = some s') : Ext R s s' := by
  cases hlog : s.conn.m_isLoggedIn with
  | false =>
    unfold handleRETR at h
    rw [checkLogin_false s hlog] at h
    simp only [Option.some.injEq] at h
    subst h; exact ext_sendResponse R _ _ _ (hR _ _ (by decide))
  | true =>
    cases hparam : param.isEmpty with
    | true =>
      unfold handleRETR at h
      rw [checkLogin_true s hlog] at h
      simp only [hparam, if_true, Option.some.injEq] at h
      subst h; exact ext_sendResponse R _ _ _ (hR _ _ (by decide))
    | false =>
      have ho := ext_openNewFile R env s
        (server.rootPath ++ resolvePath s.conn.m_currentPath param) OpenMode.ReadOnly
      cases hopen : (openNewFile env s
        (server.rootPath ++ resolvePath s.conn.m_currentPath param) OpenMode.ReadOnly).1 with
      | false =>
        unfold handleRETR at h
        rw [checkLogin_true s hlog] at h
        simp only [hparam, Bool.false_eq_true, if_false] at h
        rcases hop : openNewFile env s
          (server.rootPath ++ resolvePath s.conn.m_currentPath param)
          OpenMode.ReadOnly with ⟨_ | _, s2⟩
        · rw [hop] at h ho
          simp only [Option.some.injEq] at h
          subst h
          exact (ho.followedBy (ext_sendResponse R _ _ _ (hR _ _ (by decide)))).followedBy
            (ext_same R _ _ rfl)
        · rw [hop] at hopen; exact absurd hopen (by simp)
      | true =>
        exact (ho.followedBy (ext_setupDataConnection R env _ (hR _ _ (by decide)))).followedBy
          (ext_handleRETR_tail R env server s param hR hlog hparam hopen s' h)

/-! ## The transfer commands and the data connection -/

theorem closeDataConnection_file (s : Sys W) : (closeDataConnection s).conn.m_file = none := by
  unfold closeDataConnection closeOpenFile
  split
  · rfl
  · assumption

theorem setupDataConnection_file (env : Env W) (s : Sys W) :
    (setupDataConnection env s).conn.m_file = none := by
  have h := closeDataConnection_file s
  unfold setupDataConnection
  generalize closeDataConnection s = s1 at h
  simp only
  split_ifs
  · rcases env.listen s1.world with ⟨_ | port, w⟩ <;> exact h
  · exact h

theorem setupDataConnection_active (env : Env W) (s : Sys W)
    (hmode : s.conn.m_transferMode = TransferMode.Active) :
    (setupDataConnection env s).conn.m_transferMode = TransferMode.Active ∧
    (setupDataConnection env s).conn.m_dataSocket.isNone = false := by
  have h := (closeDataConnection_mode s).trans hmode
  unfold setupDataConnection
  generalize closeDataConnection s = s1 at h
  simp [h]

theorem onDataConnected_file (env : Env W) (s : Sys W) :
    (onDataConnected env s).conn.m_file = s.conn.m_file := by
  unfold onDataConnected
  simp only [sendResponse]
  split_ifs
  · split
    · split <;> rfl
    · rfl
  · rfl

theorem waitActive_file (env : Env W) (s : Sys W) (socket : QTcpSocket)
    (h : s.conn.m_file = none) : (waitActive env s socket).2.conn.m_file = none := by
  unfold waitActive
  generalize (match socket with
    | .outgoing host port => env.waitForConnected s.world host port
    | .accepted _ => (true, s.world)) = r
  rcases r with ⟨_ | _, w⟩
  · exact closeDataConnection_file _
  · simp only
    rw [onDataConnected_file, onDataConnected_file]; exact h

theorem startTransfer_file (env : Env W) (s : Sys W) (m : QString)
    (h : s.conn.m_file = none) : (startTransfer env s m).2.conn.m_file = none := by
  unfold startTransfer
  split
  · exact waitActive_file env s _ h
  · exact h

theorem waitPassive_file (env : Env W) (s : Sys W) (r : Bool × Sys W)
    (h : s.conn.m_file = none) (hw : waitPassive env s = some r) : r.2.conn.m_file = none := by
  unfold waitPassive at hw
  split_ifs at hw
  · split at hw
    · exact absurd hw (by simp)
    · split at hw <;> simp only [Option.some.injEq] at hw <;> subst hw
      · exact closeDataConnection_file _
      · simp only
        rw [onDataConnected_file]; exact h
  · simp only [Option.some.injEq] at hw
    subst hw; exact h

/-- After LIST in a logged-in session no file is open. -/
theorem handleLIST_file (env : Env W) (server : FtpServer) (s : Sys W) (param : QString)
    (hlog : s.conn.m_isLoggedIn = true) (s' : Sys W)
    (h : handleLIST env server s param = some s') : s'.conn.m_file = none := by
  unfold handleLIST at h
  rw [checkLogin_true s hlog] at h
  simp only at h
  have h2 := setupDataConnection_file env s
  generalize setupDataConnection env s = s2 at h h2
  split_ifs at h with hnone
  · simp only [Option.some.injEq] at h
    subst h; exact h2
  have hready := startTransfer_file env s2
    "Opening data connection for directory listing".toList h2
  generalize startTransfer env s2 "Opening data connection for directory listing".toList
    = ready at h hready
  rcases ready with ⟨_ | _, s3⟩
  · simp only [Option.some.injEq] at h
    subst h; exact hready
  simp only at h hready
  generalize hp : server.rootPath ++ resolvePath s3.conn.m_currentPath param = full at h
  have h4 : (s3.log (Action.dirExists full)).conn.m_file = none := hready
  generalize s3.log (Action.dirExists full) = s4 at h h4
  split_ifs at h with hex
  · simp only [Option.some.injEq] at h
    subst h
    exact closeDataConnection_file _
  have h5 : (s4.log (Action.entryInfoList full)).conn.m_file = none := h4
  generalize s4.log (Action.entryInfoList full) = s5 at h h5
  rcases hw : waitPassive env s5 with _ | ⟨_ | _, s6⟩
  · rw [hw] at h; exact absurd h (by simp)
  · rw [hw] at h
    simp only [Option.some.injEq] at h
    subst h; exact waitPassive_file env s5 _ h5 hw
  · rw [hw] at h
    have h6 := waitPassive_file env s5 _ h5 hw
    simp only at h h6
    split at h <;> simp only [Option.some.injEq] at h <;> subst h
    · exact h6
    · exact h6

/-- With a passive listener on port `P` and no data socket, the first thing
`setupDataConnection` does is close that listener; then it listens anew. -/
theorem setupDataConnection_relisten (env : Env W) (s : Sys W) (P : Nat)
    (hmode : s.conn.m_transferMode = TransferMode.Passive)
    (hsrv : s.conn.m_passiveServer = some ⟨P⟩) (hsock : s.conn.m_dataSocket = none)
    (hfile : s.conn.m_file = none) :
    ∃ tail, (setupDataConnection env s).trace
      = s.trace ++ Action.closeServer P :: Action.listen :: tail := by
  have hc : closeDataConnection s
      = { s with conn := { s.conn with m_passiveServer := none },
                 trace := s.trace ++ [Action.closeServer P] } := by
    simp [closeDataConnection, closeDataSocket, hsock, closePassiveServer, hsrv,
      closeOpenFile, hfile, Sys.log]
  unfold setupDataConnection
  rw [hc]
  simp only [hmode, if_true]
  rcases env.listen s.world with ⟨_ | port, w⟩
  · exact ⟨[Action.reply 425 "Cannot open data connection".toList],
      by simp [sendResponse, Sys.log]⟩
  · exact ⟨[], by simp [Sys.log]⟩

/-- The same with the file that `handleRETR` has just opened: the listener is
closed, then the file, then `setupDataConnection` listens anew. -/
theorem setupDataConnection_relisten_file (env : Env W) (s : Sys W) (P : Nat) (f : QFile)
    (hmode : s.conn.m_transferMode = TransferMode.Passive)
    (hsrv : s.conn.m_passiveServer = some ⟨P⟩) (hsock : s.conn.m_dataSocket = none)
    (hfile : s.conn.m_file = some f) :
    ∃ tail, (setupDataConnection env s).trace
      = s.trace ++ Action.closeServer P :: Action.closeFile f.fileName :: Action.listen
          :: tail := by
  have hc : closeDataConnection s
      = { s with conn := { s.conn with m_passiveServer := none, m_file := none },
                 trace := s.trace ++ [Action.closeServer P, Action.closeFile f.fileName] } := by
    simp [closeDataConnection, closeDataSocket, hsock, closePassiveServer, hsrv,
      closeOpenFile, hfile, Sys.log]
  unfold setupDataConnection
  rw [hc]
  simp only [hmode, if_true]
  rcases env.listen s.world with ⟨_ | port, w⟩
  · exact ⟨[Action.reply 425 "Cannot open data connection".toList],
      by simp [sendResponse, Sys.log]⟩
  · exact ⟨[], by simp [Sys.log]⟩

/-- What extends a trace that starts with given actions starts with them. -/
theorem ext_prefix {R : Int → QString → Prop} {s1 s2 : Sys W} (h : Ext R s1 s2)
    (base front : List Action) (hs : ∃ tail, s1.trace = base ++ (front ++ tail)) :
    ∃ tail, s2.trace = base ++ (front ++ tail) := by
  obtain ⟨new, hn, _⟩ := h
  obtain ⟨tail, ht⟩ := hs
  exact ⟨tail ++ new, by rw [hn, ht]; simp⟩

theorem openNewFile_eq (env : Env W) (s : Sys W) (fullPath : QString) (mode : OpenMode) :
    openNewFile env s fullPath mode
      = ((env.openFile s.world fullPath mode).1,
         { world := (env.openFile s.world fullPath mode).2,
           conn := { s.conn with
             m_file := some { fileName := fullPath, mode := mode, pos := 0 } },
           trace := s.trace ++ [Action.openFile fullPath mode] }) := by
  unfold openNewFile
  rcases env.openFile s.world fullPath mode with ⟨ok, w⟩
  rfl

/-- C11: the code does the contrary of the specification. In a logged-in session in
passive mode whose listener, created by PASV, is on port `P` and has accepted no
connection, the first action of LIST and of STOR is to close the listener on
port `P`, and the second is to listen anew on a port the system chooses; RETR of
a file that opens closes the listener on port `P` right after opening the file,
closes the file, and listens anew. -/
theorem transfer_replaces_listener (env : Env W) (server : FtpServer) (s : Sys W) (P : Nat)
    (param : QString) (hlog : s.conn.m_isLoggedIn = true)
    (hmode : s.conn.m_transferMode = TransferMode.Passive)
    (hsrv : s.conn.m_passiveServer = some ⟨P⟩) (hsock : s.conn.m_dataSocket = none)
    (hfile : s.conn.m_file = none) (hparam : param.isEmpty = false) :
    (∀ listParam s1, handleLIST env server s listParam = some s1 →
      ∃ tail, s1.trace = s.trace ++ ([Action.closeServer P, Action.listen] ++ tail)) ∧
    (∃ tail, (handleSTOR env server s param).trace
      = s.trace ++ ([Action.closeServer P, Action.listen] ++ tail)) ∧
    (∀ s1, handleRETR env server s param = some s1 →
      (env.openFile s.world (server.rootPath ++ resolvePath s.conn.m_currentPath param)
        OpenMode.ReadOnly).1 = true →
      ∃ tail, s1.trace = s.trace ++
        ([Action.openFile (server.rootPath ++ resolvePath s.conn.m_currentPath param)
            OpenMode.ReadOnly,
          Action.closeServer P,
          Action.closeFile (server.rootPath ++ resolvePath s.conn.m_currentPath param),
          Action.listen] ++ tail)) := by
  have hsetup : ∃ tail, (setupDataConnection env s).trace
      = s.trace ++ ([Action.closeServer P, Action.listen] ++ tail) := by
    obtain ⟨tail, ht⟩ := setupDataConnection_relisten env s P hmode hsrv hsock hfile
    exact ⟨tail, by rw [ht]; rfl⟩
  refine ⟨fun listParam s1 h => ?_, ?_, fun s1 h hopen => ?_⟩
  · exact ext_prefix (ext_handleLIST_tail (fun _ _ => True) env server s listParam
      (fun _ _ _ => trivial) hlog s1 h) _ _ hsetup
  · exact ext_prefix (ext_handleSTOR_tail (fun _ _ => True) env server s param
      (fun _ _ _ => trivial) hlog hparam) _ _ hsetup
  · have hopen2 : (openNewFile env s
        (server.rootPath ++ resolvePath s.conn.m_currentPath param) OpenMode.ReadOnly).1
        = true := by rw [openNewFile_eq]; exact hopen
    have ht := ext_handleRETR_tail (fun _ _ => True) env server s param
      (fun _ _ _ => trivial) hlog hparam hopen2 s1 h
    refine ext_prefix ht _ _ ?_
    obtain ⟨tail, htail⟩ := setupDataConnection_relisten_file env
      (openNewFile env s (server.rootPath ++ resolvePath s.conn.m_currentPath param)
        OpenMode.ReadOnly).2 P
      { fileName := server.rootPath ++ resolvePath s.conn.m_currentPath param,
        mode := OpenMode.ReadOnly, pos := 0 }
      (by rw [openNewFile_eq]; exact hmode) (by rw [openNewFile_eq]; exact hsrv)
      (by rw [openNewFile_eq]; exact hsock) (by rw [openNewFile_eq])
    refine ⟨tail, ?_⟩
    rw [htail, openNewFile_eq]
    simp

/-- C11, on the concrete environment: PASV replies 227 with port 195,80 (that
is 50000) and leaves the listener on port 50000; the LIST that follows closes
the listener on port 50000, listens anew (the system gives port 50001), and
accepts its data connection on port 50001. -/
theorem transfer_replaces_listener_witness :
    replies simAfterPASV.trace
      = [((227 : Int), "Entering Passive Mode (192,168,1,10,195,80)".toList)] ∧
    simAfterPASV.conn.m_passiveServer = some ⟨50000⟩ ∧
    (∃ s1, handleLIST simEnvFreshPorts simServer simAfterPASV [] = some s1 ∧
      s1.conn.m_dataSocket = some (QTcpSocket.accepted 50001) ∧
      s1.trace = simAfterPASV.trace ++
        [Action.closeServer 50000, Action.listen,
          Action.reply 150 "Opening data connection for directory listing".toList,
          Action.dirExists "/srv/ftp/".toList, Action.entryInfoList "/srv/ftp/".toList,
          Action.closeServer 50001, Action.reply 150 "Data connection established".toList,
          Action.socketWriteUtf8 [], Action.disconnectFromHost]) ∧
    ((∀ listParam s1,
        handleLIST simEnvFreshPorts simServer simAfterPASV listParam = some s1 →
        ∃ tail, s1.trace
          = simAfterPASV.trace ++ ([Action.closeServer 50000, Action.listen] ++ tail)) ∧
      (∃ tail, (handleSTOR simEnvFreshPorts simServer simAfterPASV "new.txt".toList).trace
        = simAfterPASV.trace ++ ([Action.closeServer 50000, Action.listen] ++ tail)) ∧
      (∀ s1, handleRETR simEnvFreshPorts simServer simAfterPASV "new.txt".toList = some s1 →
        (simEnvFreshPorts.openFile simAfterPASV.world
          (simServer.rootPath ++ resolvePath simAfterPASV.conn.m_currentPath "new.txt".toList)
          OpenMode.ReadOnly).1 = true →
        ∃ tail, s1.trace = simAfterPASV.trace ++
          ([Action.openFile
              (simServer.rootPath ++
                resolvePath simAfterPASV.conn.m_currentPath "new.txt".toList)
              OpenMode.ReadOnly,
            Action.closeServer 50000,
            Action.closeFile
              (simServer.rootPath ++
                resolvePath simAfterPASV.conn.m_currentPath "new.txt".toList),
            Action.listen] ++ tail))) :=
  ⟨rfl, rfl, ⟨_, rfl, rfl, rfl⟩,
    transfer_replaces_listener simEnvFreshPorts simServer simAfterPASV 50000 "new.txt".toList
      rfl rfl rfl rfl rfl rfl⟩

/-- C12: the code does not reach the transfer. In a logged-in session in
active mode, RETR with a non-empty parameter whose file opens for reading
closes that file in `setupDataConnection` and then calls `size()` on the null
`m_file`: the handler has no result. -/
theorem retr_active_null_file (env : Env W) (server : FtpServer) (s : Sys W)
    (param : QString) (hlog : s.conn.m_isLoggedIn = true)
    (hmode : s.conn.m_transferMode = TransferMode.Active)
    (hparam : param.isEmpty = false)
    (hopen : (env.openFile s.world (server.rootPath ++ resolvePath s.conn.m_currentPath param)
      OpenMode.ReadOnly).1 = true) :
    handleRETR env server s param = none := by
  unfold handleRETR
  rw [checkLogin_true s hlog]
  simp only [hparam, Bool.false_eq_true, if_false]
  rw [openNewFile_eq, hopen]
  simp only
  have hf := setupDataConnection_file env
    ({ world := (env.openFile s.world
          (server.rootPath ++ resolvePath s.conn.m_currentPath param) OpenMode.ReadOnly).2,
       conn := { s.conn with
         m_file := some { fileName := server.rootPath ++ resolvePath s.conn.m_currentPath param,
                          mode := OpenMode.ReadOnly, pos := 0 } },
       trace := s.trace ++ [Action.openFile
         (server.rootPath ++ resolvePath s.conn.m_currentPath param) OpenMode.ReadOnly] } :
      Sys W)
  have ha := setupDataConnection_active env
    ({ world := (env.openFile s.world
          (server.rootPath ++ resolvePath s.conn.m_currentPath param) OpenMode.ReadOnly).2,
       conn := { s.conn with
         m_file := some { fileName := server.rootPath ++ resolvePath s.conn.m_currentPath param,
                          mode := OpenMode.ReadOnly, pos := 0 } },
       trace := s.trace ++ [Action.openFile
         (server.rootPath ++ resolvePath s.conn.m_currentPath param) OpenMode.ReadOnly] } :
      Sys W) hmode
  generalize setupDataConnection env _ = s3 at hf ha ⊢
  rw [if_neg (by rw [ha.2]; simp)]
  unfold startDownload
  rw [hf]

/-- C12, on the concrete environment: after `PORT 127,0,0,1,195,80` (reply
200), `RETR old.txt`, whose file exists and opens, has no result, while STOR
in the same state, which sets up the data connection before it opens the
file, goes through. -/
theorem retr_active_null_file_witness :
    replies simAfterPORT.trace = [((200 : Int), "PORT command successful".toList)] ∧
    (simEnv.openFile simAfterPORT.world "/srv/ftp/old.txt".toList OpenMode.ReadOnly).1 = true ∧
    replies (handleSTOR simEnv simServer simAfterPORT "old.txt".toList).trace
      = [((200 : Int), "PORT command successful".toList),
         ((150 : Int), "Data connection established".toList),
         ((150 : Int), "Data connection established".toList)] ∧
    handleRETR simEnv simServer simAfterPORT "old.txt".toList = none :=
  ⟨rfl, rfl, rfl,
    retr_active_null_file simEnv simServer simAfterPORT "old.txt".toList rfl rfl rfl rfl⟩

/-- C13: the code does not send 226 after a listing. For a logged-in session,
LIST leaves no file open, so when the data connection is closed afterwards the
slot `onDataDisconnected` writes nothing on the control channel: from the
state before LIST to the state after the disconnection, no reply has code
226, and the disconnection adds no action at all. -/
theorem list_no_226 (env : Env W) (server : FtpServer) (s : Sys W) (param : QString)
    (hlog : s.conn.m_isLoggedIn = true) (s1 : Sys W)
    (h : handleLIST env server s param = some s1) :
    (onDataDisconnected s1).trace = s1.trace ∧
    ∃ new, (onDataDisconnected s1).trace = s.trace ++ new ∧
      ∀ m, Action.reply 226 m ∉ new := by
  have hf := handleLIST_file env server s param hlog s1 h
  have ht : (onDataDisconnected s1).trace = s1.trace := by
    unfold onDataDisconnected
    rw [hf]
    simp only
    split <;> rfl
  refine ⟨ht, ?_⟩
  obtain ⟨new, hn, hr⟩ := ext_handleLIST (fun c _ => c ≠ 226) env server s param
    (fun c m hm => by
      simp only [listReplies, List.mem_cons, Prod.mk.injEq, List.mem_singleton,
        List.not_mem_nil, or_false] at hm
      rcases hm with h | h | h | h | h | h <;> rw [h.1] <;> decide) s1 h
  exact ⟨new, by rw [ht, hn], fun m hm => hr 226 m hm rfl⟩

/-- C13, on the concrete environment: after `PORT 127,0,0,1,195,80`, a LIST of
the existing directory `/` connects, writes the listing and disconnects; the
replies of the whole session, the disconnection of the data socket included,
are 200 for PORT and 150 twice: there is no 226. -/
theorem list_no_226_witness :
    (∃ s1, run simEnv simServer simLoggedIn
        [Event.line "PORT 127,0,0,1,195,80\r\n".toList, Event.line "LIST\r\n".toList,
          Event.dataDisconnected] = some s1 ∧
      replies s1.trace
        = [((200 : Int), "PORT command successful".toList),
           ((150 : Int), "Data connection established".toList),
           ((150 : Int), "Data connection established".toList)] ∧
      Action.socketWriteUtf8 [] ∈ s1.trace ∧ Action.disconnectFromHost ∈ s1.trace) ∧
    ∃ s1, handleLIST simEnv simServer simAfterPORT [] = some s1 ∧
      (onDataDisconnected s1).trace = s1.trace ∧
      ∃ new, (onDataDisconnected s1).trace = simAfterPORT.trace ++ new ∧
        ∀ m, Action.reply 226 m ∉ new :=
  ⟨⟨_, rfl, rfl, by decide, by decide⟩, _, rfl,
    list_no_226 simEnv simServer simAfterPORT [] rfl _ rfl⟩

/-! ## The listing -/

theorem toDigits_length_le (n e : Nat) (he : 0 < e) (h : n < 10 ^ e) :
    (Nat.toDigits 10 n).length ≤ e :=
  Nat.toDigitsCore_length 10 (by decide) (n + 1) n e h he

/-- `dd`, `hh` and `mm` have two characters. -/
theorem twoDigits_length (n : Nat) (h : n < 100) : (twoDigits n).length = 2 := by
  interval_cases n <;> rfl

/-- A year in 0..9999 is printed in four characters by `yyyy`. -/
theorem padZero_length (n : Nat) (h : n ≤ 9999) : (dateYearFormat.padZero 4 n).length = 4 := by
  have hl := toDigits_length_le n 4 (by decide) (by omega)
  simp only [dateYearFormat.padZero, List.length_append, List.length_replicate]
  omega

theorem dateTimeFormat_length (env : Env W) (t : QDateTime) (hd : t.day < 100)
    (hh : t.hour < 100) (hm : t.minute < 100) :
    (dateTimeFormat env t).length = (env.shortMonthName t.month).length + 9 := by
  have hs1 : (" ".toList).length = 1 := rfl
  have hc : (":".toList).length = 1 := rfl
  simp only [dateTimeFormat, List.length_append, twoDigits_length _ hd, twoDigits_length _ hh,
    twoDigits_length _ hm, hs1, hc]

theorem dateYearFormat_length (env : Env W) (t : QDateTime) (hd : t.day < 100)
    (hy0 : 0 ≤ t.year) (hy : t.year ≤ 9999) :
    (dateYearFormat env t).length = (env.shortMonthName t.month).length + 9 := by
  have hn : ¬ t.year < 0 := by omega
  have hs1 : (" ".toList).length = 1 := rfl
  have hs2 : ("  ".toList).length = 2 := rfl
  simp only [dateYearFormat, List.length_append, twoDigits_length _ hd, hs1, hs2,
    hn, if_false, padZero_length t.year.toNat (by omega)]

/-- A size of at most eight digits fills its field of width 8 exactly. -/
theorem padLeft_size_length (size : Int) (h0 : 0 ≤ size) (h : size < 100000000) :
    (padLeft 8 (number size)).length = 8 := by
  have hn : ¬ size < 0 := by omega
  have hl := toDigits_length_le size.toNat 8 (by decide) (by omega)
  simp only [padLeft, number, hn, if_false, List.length_append, List.length_replicate]
  omega

theorem listLine_eq_spec (env : Env W) (currentYear : Int) (info : QFileInfo) :
    listLine env currentYear info = specListLine env currentYear info := by
  have h1 : padLeft 3 (number 1) = "  1".toList := rfl
  have h2 : padLeft 8 "owner".toList = "   owner".toList := rfl
  have h3 : padLeft 8 "group".toList = "   group".toList := rfl
  unfold listLine specListLine
  simp only [h1, h2, h3]
  by_cases hy : info.lastModified.year = currentYear
  · cases hd : info.isDir <;> simp [hy, padLeft]
  · cases hd : info.isDir <;> simp [hy, padLeft]

theorem listLine_length (env : Env W) (currentYear : Int) (info : QFileInfo)
    (h : PlainEntry currentYear info) :
    (listLine env currentYear info).length
      = 52 + (env.shortMonthName info.lastModified.month).length
        + (info.fileName.length + 2) := by
  obtain ⟨h0, h8, hyear, hd, hh, hm⟩ := h
  have hdate : (if info.lastModified.year = currentYear
      then dateTimeFormat env info.lastModified
      else dateYearFormat env info.lastModified).length
      = (env.shortMonthName info.lastModified.month).length + 9 := by
    split_ifs with hy
    · exact dateTimeFormat_length env _ hd hh hm
    · rcases hyear with hyear | ⟨hy0, hy1⟩
      · exact absurd hyear hy
      · exact dateYearFormat_length env _ hd hy0 hy1
  have hperm : (if info.isDir then "drw-r--r--".toList else "-rw-r--r--".toList).length = 10 := by
    split_ifs <;> rfl
  have h1 : (padLeft 3 (number 1)).length = 3 := rfl
  have h2 : (padLeft 8 "owner".toList).length = 8 := rfl
  have h3 : (padLeft 8 "group".toList).length = 8 := rfl
  have h4 : (" ".toList).length = 1 := rfl
  have h5 : ("\r\n".toList).length = 2 := rfl
  unfold listLine
  simp only [List.length_append, hdate, hperm, h1, h2, h3, h4, h5,
    padLeft_size_length info.size h0 h8]
  omega

/-- C20, counterexample: with the current year 2024, a file of five bytes
modified in 2024 and a file of five bytes modified in the year 10000 are listed
with the name at different columns, 55 and 56: `yyyy` prints the five digits of
the year, so the date has thirteen characters in the second line. -/
theorem name_column_counterexample :
    (0 ≤ simEntryThisYear.size ∧ simEntryThisYear.size < 100000000) ∧
    (0 ≤ simEntryYear10000.size ∧ simEntryYear10000.size < 100000000) ∧
    listing simEnv 2024 [simEntryThisYear, simEntryYear10000]
      = "-rw-r--r--   1    owner    group        5 Jan 02 03:04 a.txt\r\n".toList
        ++ "-rw-r--r--   1    owner    group        5 Jan 02  10000 b.txt\r\n".toList ∧
    nameColumn simEnv 2024 simEntryThisYear = 55 ∧
    nameColumn simEnv 2024 simEntryYear10000 = 56 :=
  ⟨by decide, by decide, by decide, by decide, by decide⟩

/-- C20 (amended): for every list of entries and every current year, the
payload of LIST is the concatenation, one per entry, of the lines the
specification describes: perms, space, `1` right-aligned to width 3, space,
`owner` and `group` right-aligned to width 8, space, the size right-aligned to
width 8, space, the date, space, the name, CRLF, where the date is in the form
`MMM dd  yyyy` when the modification year differs from the current year and in
the form `MMM dd hh:mm` otherwise. For an entry with a size in 0..99999999, a
modification year that is the current year or in 0..9999, and day, hour and
minute below 100, the name starts at column 52 plus the length of the month
abbreviation; so two such entries whose month abbreviations have the same
length have the name at the same column. -/
theorem listing_format (env : Env W) (currentYear : Int) (entries : List QFileInfo) :
    listing env currentYear entries
      = (entries.map (specListLine env currentYear)).flatten ∧
    (∀ info ∈ entries, PlainEntry currentYear info →
      nameColumn env currentYear info
        = 52 + (env.shortMonthName info.lastModified.month).length) ∧
    (∀ a ∈ entries, ∀ b ∈ entries, PlainEntry currentYear a → PlainEntry currentYear b →
      (env.shortMonthName a.lastModified.month).length
        = (env.shortMonthName b.lastModified.month).length →
      nameColumn env currentYear a = nameColumn env currentYear b) := by
  have hcol : ∀ info, PlainEntry currentYear info →
      nameColumn env currentYear info
        = 52 + (env.shortMonthName info.lastModified.month).length := by
    intro info h
    unfold nameColumn
    rw [listLine_length env currentYear info h]
    omega
  refine ⟨?_, fun info _ h => hcol info h, fun a _ b _ ha hb hm => ?_⟩
  · unfold listing
    congr 1
    exact List.map_congr_left (fun info _ => listLine_eq_spec env currentYear info)
  · rw [hcol a ha, hcol b hb, hm]

/-- C20 (amended), on the concrete environment: a file modified in the current
year 2024 and a directory modified in 1999 are listed with the name at column
55 in both lines. -/
theorem listing_format_witness :
    listing simEnv 2024 [simEntryThisYear, simEntryDir1999]
      = "-rw-r--r--   1    owner    group        5 Jan 02 03:04 a.txt\r\n".toList
        ++ "drw-r--r--   1    owner    group     4096 Dec 31  1999 pub\r\n".toList ∧
    PlainEntry 2024 simEntryThisYear ∧ PlainEntry 2024 simEntryDir1999 ∧
    nameColumn simEnv 2024 simEntryThisYear = 55 ∧
    nameColumn simEnv 2024 simEntryDir1999 = 55 ∧
    (listing simEnv 2024 [simEntryThisYear, simEntryDir1999]
        = ([simEntryThisYear, simEntryDir1999].map (specListLine simEnv 2024)).flatten ∧
      (∀ info ∈ [simEntryThisYear, simEntryDir1999], PlainEntry 2024 info →
        nameColumn simEnv 2024 info
          = 52 + (simEnv.shortMonthName info.lastModified.month).length) ∧
      (∀ a ∈ [simEntryThisYear, simEntryDir1999], ∀ b ∈ [simEntryThisYear, simEntryDir1999],
        PlainEntry 2024 a → PlainEntry 2024 b →
        (simEnv.shortMonthName a.lastModified.month).length
          = (simEnv.shortMonthName b.lastModified.month).length →
        nameColumn simEnv 2024 a = nameColumn simEnv 2024 b)) :=
  ⟨by decide, by unfold PlainEntry; decide, by unfold PlainEntry; decide, by decide, by decide,
    listing_format simEnv 2024 [simEntryThisYear, simEntryDir1999]⟩

/-! ## The replies of the other handlers and of the slots -/

/-- One call, then one reply. -/
theorem ext_call_reply (R : Int → QString → Prop) (s : Sys W) (w : W) (a : Action)
    (code : Int) (m : QString) (ha : a.reply? = none) (hR : R code m) :
    Ext R s (sendResponse { (s.log a) with world := w } code m) :=
  (ext_action R s ({ (s.log a) with world := w } : Sys W) a rfl ha).followedBy
    (ext_sendResponse R _ _ _ hR)

theorem ext_handleUSER (R : Int → QString → Prop) (s : Sys W) (p : QString)
    (hR : ∀ c m, (c, m) ∈ fixedReplies → R c m) : Ext R s (handleUSER s p) :=
  ext_reply R s _ _ _ rfl (hR _ _ (by decide))

theorem ext_handlePASS (R : Int → QString → Prop) (s : Sys W) (p : QString)
    (hR : ∀ c m, (c, m) ∈ fixedReplies → R c m) : Ext R s (handlePASS s p) := by
  unfold handlePASS
  split_ifs
  · exact ext_reply R s _ _ _ rfl (hR _ _ (by decide))
  · exact ext_reply R s _ _ _ rfl (hR _ _ (by decide))
  · exact ext_reply R s _ _ _ rfl (hR _ _ (by decide))

theorem ext_handleSYST (R : Int → QString → Prop) (s : Sys W) (p : QString)
    (hR : ∀ c m, (c, m) ∈ fixedReplies → R c m) : Ext R s (handleSYST s p) :=
  ext_reply R s _ _ _ rfl (hR _ _ (by decide))

theorem ext_handleQUIT (R : Int → QString → Prop) (s : Sys W) (p : QString)
    (hR : ∀ c m, (c, m) ∈ fixedReplies → R c m) : Ext R s (handleQUIT s p) :=
  (ext_sendResponse R s _ _ (hR _ _ (by decide))).followedBy
    (ext_log R _ Action.emitDisconnected rfl)

theorem ext_handleNOOP (R : Int → QString → Prop) (s : Sys W) (p : QString)
    (hR : ∀ c m, (c, m) ∈ fixedReplies → R c m) : Ext R s (handleNOOP s p) :=
  ext_reply R s _ _ _ rfl (hR _ _ (by decide))

theorem ext_handleTYPE (R : Int → QString → Prop) (s : Sys W) (p : QString)
    (hR : ∀ c m, (c, m) ∈ fixedReplies → R c m) : Ext R s (handleTYPE s p) := by
  unfold handleTYPE
  split_ifs
  · exact ext_reply R s _ _ _ rfl (hR _ _ (by decide))
  · exact ext_reply R s _ _ _ rfl (hR _ _ (by decide))
  · exact ext_reply R s _ _ _ rfl (hR _ _ (by decide))

theorem ext_handlePORT (R : Int → QString → Prop) (env : Env W) (s : Sys W) (p : QString)
    (hR : ∀ c m, (c, m) ∈ fixedReplies → R c m) : Ext R s (handlePORT env s p) := by
  unfold handlePORT
  cases hlog : s.conn.m_isLoggedIn with
  | false =>
    rw [checkLogin_false s hlog]
    exact ext_sendResponse R _ _ _ (hR _ _ (by decide))
  | true =>
    rw [checkLogin_true s hlog]
    simp only
    split_ifs
    · exact ext_reply R s _ _ _ rfl (hR _ _ (by decide))
    · exact ext_reply R s _ _ _ rfl (hR _ _ (by decide))

theorem ext_handlePASV (R : Int → QString → Prop) (env : Env W) (s : Sys W) (p : QString)
    (hR : ∀ c m, (c, m) ∈ fixedReplies → R c m)
    (h227 : ∀ (address : QHostAddress) (port : Nat),
      R 227 ("Entering Passive Mode (".toList ++ replaceChar '.' ',' (
        if address.protocol = NetworkLayerProtocol.IPv6Protocol then "127.0.0.1".toList
        else replaceChar ':' '.' address.toString)
        ++ ",".toList ++ number ((port >>> 8 : Nat) : Int)
        ++ ",".toList ++ number ((port &&& 0xFF : Nat) : Int) ++ ")".toList)) :
    Ext R s (handlePASV env s p) := by
  unfold handlePASV
  cases hlog : s.conn.m_isLoggedIn with
  | false =>
    rw [checkLogin_false s hlog]
    exact ext_sendResponse R _ _ _ (hR _ _ (by decide))
  | true =>
    rw [checkLogin_true s hlog]
    simp only
    have h2 : Ext R s (setupDataConnection env
        { s with conn := { s.conn with m_transferMode := TransferMode.Passive } }) :=
      (ext_same R s _ rfl).followedBy (ext_setupDataConnection R env _ (hR _ _ (by decide)))
    generalize setupDataConnection env
        { s with conn := { s.conn with m_transferMode := TransferMode.Passive } } = s2 at h2 ⊢
    split
    · exact h2
    · exact h2.followedBy (ext_sendResponse R _ _ _ (h227 _ _))

theorem ext_handleCWD (R : Int → QString → Prop) (env : Env W) (server : FtpServer)
    (s : Sys W) (p : QString) (hR : ∀ c m, (c, m) ∈ fixedReplies → R c m)
    (h250 : R 250 ("Directory changed to ".toList ++ resolvePath s.conn.m_currentPath p)) :
    Ext R s (handleCWD env server s p) := by
  unfold handleCWD
  cases hlog : s.conn.m_isLoggedIn with
  | false =>
    rw [checkLogin_false s hlog]
    exact ext_sendResponse R _ _ _ (hR _ _ (by decide))
  | true =>
    rw [checkLogin_true s hlog]
    simp only
    split_ifs
    · exact (ext_log R s (Action.dirExists _) rfl).followedBy
        (ext_sendResponse R _ _ _ (hR _ _ (by decide)))
    · exact (ext_log R s (Action.dirExists _) rfl).followedBy
        (ext_reply R _ _ _ _ rfl h250)

theorem ext_handlePWD (R : Int → QString → Prop) (s : Sys W) (p : QString)
    (hR : ∀ c m, (c, m) ∈ fixedReplies → R c m)
    (h257 : R 257 ("\"".toList ++ s.conn.m_currentPath ++ "\" is current directory".toList)) :
    Ext R s (handlePWD s p) := by
  unfold handlePWD
  cases hlog : s.conn.m_isLoggedIn with
  | false =>
    rw [checkLogin_false s hlog]
    exact ext_sendResponse R _ _ _ (hR _ _ (by decide))
  | true =>
    rw [checkLogin_true s hlog]
    exact ext_sendResponse R _ _ _ h257

theorem ext_handleMKD (R : Int → QString → Prop) (env : Env W) (server : FtpServer)
    (s : Sys W) (p : QString) (hR : ∀ c m, (c, m) ∈ fixedReplies → R c m)
    (h257 : R 257 ("\"".toList ++ resolvePath s.conn.m_currentPath p ++ "\" created".toList)) :
    Ext R s (handleMKD env server s p) := by
  unfold handleMKD
  cases hlog : s.conn.m_isLoggedIn with
  | false =>
    rw [checkLogin_false s hlog]
    exact ext_sendResponse R _ _ _ (hR _ _ (by decide))
  | true =>
    rw [checkLogin_true s hlog]
    simp only
    split_ifs
    · exact ext_sendResponse R _ _ _ (hR _ _ (by decide))
    · split
      · exact ext_call_reply R s _ (Action.mkdir _) _ _ rfl h257
      · exact ext_call_reply R s _ (Action.mkdir _) _ _ rfl (hR _ _ (by decide))

theorem ext_handleRMD (R : Int → QString → Prop) (env : Env W) (server : FtpServer)
    (s : Sys W) (p : QString) (hR : ∀ c m, (c, m) ∈ fixedReplies → R c m) :
    Ext R s (handleRMD env server s p) := by
  unfold handleRMD
  cases hlog : s.conn.m_isLoggedIn with
  | false =>
    rw [checkLogin_false s hlog]
    exact ext_sendResponse R _ _ _ (hR _ _ (by decide))
  | true =>
    rw [checkLogin_true s hlog]
    simp only
    split_ifs
    · exact ext_sendResponse R _ _ _ (hR _ _ (by decide))
    · split
      · exact ext_call_reply R s _ (Action.rmdir _) _ _ rfl (hR _ _ (by decide))
      · exact ext_call_reply R s _ (Action.rmdir _) _ _ rfl (hR _ _ (by decide))

theorem ext_handleDELE (R : Int → QString → Prop) (env : Env W) (server : FtpServer)
    (s : Sys W) (p : QString) (hR : ∀ c m, (c, m) ∈ fixedReplies → R c m) :
    Ext R s (handleDELE env server s p) := by
  unfold handleDELE
  cases hlog : s.conn.m_isLoggedIn with
  | false =>
    rw [checkLogin_false s hlog]
    exact ext_sendResponse R _ _ _ (hR _ _ (by decide))
  | true =>
    rw [checkLogin_true s hlog]
    simp only
    split_ifs
    · exact ext_sendResponse R _ _ _ (hR _ _ (by decide))
    · split
      · exact ext_call_reply R s _ (Action.remove _) _ _ rfl (hR _ _ (by decide))
      · exact ext_call_reply R s _ (Action.remove _) _ _ rfl (hR _ _ (by decide))

theorem ext_handleRNFR (R : Int → QString → Prop) (env : Env W) (server : FtpServer)
    (s : Sys W) (p : QString) (hR : ∀ c m, (c, m) ∈ fixedReplies → R c m) :
    Ext R s (handleRNFR env server s p) := by
  unfold handleRNFR
  cases hlog : s.conn.m_isLoggedIn with
  | false =>
    rw [checkLogin_false s hlog]
    exact ext_sendResponse R _ _ _ (hR _ _ (by decide))
  | true =>
    rw [checkLogin_true s hlog]
    simp only
    split_ifs
    · exact ext_sendResponse R _ _ _ (hR _ _ (by decide))
    · exact (ext_action R s _ (Action.fileExists _) rfl rfl).followedBy
        (ext_sendResponse R _ _ _ (hR _ _ (by decide)))
    · exact ((ext_action R s _ (Action.fileExists _) rfl rfl).followedBy
        (ext_sendResponse R _ _ _ (hR _ _ (by decide)))).followedBy (ext_same R _ _ rfl)

theorem ext_handleRNTO (R : Int → QString → Prop) (env : Env W) (server : FtpServer)
    (s : Sys W) (p : QString) (hR : ∀ c m, (c, m) ∈ fixedReplies → R c m) :
    Ext R s (handleRNTO env server s p) := by
  unfold handleRNTO
  cases hlog : s.conn.m_isLoggedIn with
  | false =>
    rw [checkLogin_false s hlog]
    exact ext_sendResponse R _ _ _ (hR _ _ (by decide))
  | true =>
    rw [checkLogin_true s hlog]
    simp only
    split_ifs
    · exact ext_sendResponse R _ _ _ (hR _ _ (by decide))
    · exact ext_reply R s _ _ _ rfl (hR _ _ (by decide))
    · refine Ext.followedBy ?_ (ext_same R _ _ rfl)
      split
      · exact ext_call_reply R s _ (Action.rename _ _) _ _ rfl (hR _ _ (by decide))
      · exact ext_call_reply R s _ (Action.rename _ _) _ _ rfl (hR _ _ (by decide))

theorem fixed_of_list (R : Int → QString → Prop) (hR : ∀ c m, (c, m) ∈ fixedReplies → R c m) :
    ∀ c m, (c, m) ∈ listReplies → R c m := by
  intro c m hm
  apply hR
  simp only [listReplies, List.mem_cons, Prod.mk.injEq, List.mem_singleton,
    List.not_mem_nil, or_false] at hm
  rcases hm with h | h | h | h | h | h <;> rw [h.1, h.2] <;> decide

/-- What a dispatched command adds to the trace. -/
theorem ext_dispatch (R : Int → QString → Prop) (env : Env W) (server : FtpServer)
    (s s1 : Sys W) (command parameter : QString)
    (hR : ∀ c m, (c, m) ∈ fixedReplies → R c m)
    (h227 : ∀ (address : QHostAddress) (port : Nat),
      R 227 ("Entering Passive Mode (".toList ++ replaceChar '.' ',' (
        if address.protocol = NetworkLayerProtocol.IPv6Protocol then "127.0.0.1".toList
        else replaceChar ':' '.' address.toString)
        ++ ",".toList ++ number ((port >>> 8 : Nat) : Int)
        ++ ",".toList ++ number ((port &&& 0xFF : Nat) : Int) ++ ")".toList))
    (h250 : R 250 ("Directory changed to ".toList
      ++ resolvePath s.conn.m_currentPath parameter))
    (h257 : R 257 ("\"".toList ++ resolvePath s.conn.m_currentPath parameter
      ++ "\" created".toList))
    (hpwd : R 257 ("\"".toList ++ s.conn.m_currentPath ++ "\" is current directory".toList))
    (h : dispatch env server s command parameter = some s1) : Ext R s s1 := by
  by_cases hmem : command ∈ tableCommands
  · simp only [tableCommands, List.mem_cons, List.mem_singleton, List.not_mem_nil, or_false]
      at hmem
    rcases hmem with e | e | e | e | e | e | e | e | e | e | e | e | e | e | e | e | e | e <;>
      subst e
    · rw [dispatch_USER] at h; cases h; exact ext_handleUSER R s parameter hR
    · rw [dispatch_PASS] at h; cases h; exact ext_handlePASS R s parameter hR
    · rw [dispatch_SYST] at h; cases h; exact ext_handleSYST R s parameter hR
    · rw [dispatch_QUIT] at h; cases h; exact ext_handleQUIT R s parameter hR
    · rw [dispatch_TYPE] at h; cases h; exact ext_handleTYPE R s parameter hR
    · rw [dispatch_PORT] at h; cases h; exact ext_handlePORT R env s parameter hR
    · rw [dispatch_PASV] at h; cases h; exact ext_handlePASV R env s parameter hR h227
    · rw [dispatch_LIST] at h
      exact ext_handleLIST R env server s parameter (fixed_of_list R hR) s1 h
    · rw [dispatch_CWD] at h; cases h; exact ext_handleCWD R env server s parameter hR h250
    · rw [dispatch_PWD] at h; cases h; exact ext_handlePWD R s parameter hR hpwd
    · rw [dispatch_MKD] at h; cases h; exact ext_handleMKD R env server s parameter hR h257
    · rw [dispatch_RMD] at h; cases h; exact ext_handleRMD R env server s parameter hR
    · rw [dispatch_DELE] at h; cases h; exact ext_handleDELE R env server s parameter hR
    · rw [dispatch_RNFR] at h; cases h; exact ext_handleRNFR R env server s parameter hR
    · rw [dispatch_RNTO] at h; cases h; exact ext_handleRNTO R env server s parameter hR
    · rw [dispatch_STOR] at h; cases h; exact ext_handleSTOR R env server s parameter hR
    · rw [dispatch_RETR] at h
      exact ext_handleRETR R env server s parameter hR s1 h
    · rw [dispatch_NOOP] at h; cases h; exact ext_handleNOOP R s parameter hR
  · rw [dispatch_other env server s command parameter hmem] at h
    cases h; exact ext_sendResponse R _ _ _ (hR _ _ (by decide))

theorem ext_onDataReadyRead (R : Int → QString → Prop) (env : Env W) (s : Sys W)
    (data : QByteArray) : Ext R s (onDataReadyRead env s data) := by
  unfold onDataReadyRead
  split
  · exact ext_action R s _ (Action.fileWrite _ data) rfl rfl
  · exact Ext.nothing R s

theorem ext_onDataDisconnected (R : Int → QString → Prop) (s : Sys W)
    (hR : ∀ c m, (c, m) ∈ fixedReplies → R c m) : Ext R s (onDataDisconnected s) := by
  unfold onDataDisconnected
  have h1 : Ext R s (match s.conn.m_file with
      | some f =>
        sendResponse
          { s.log (Action.closeFile f.fileName) with conn := { s.conn with m_file := none } }
          226 "Transfer complete".toList
      | none => s) := by
    split
    · exact (ext_action R s _ (Action.closeFile _) rfl rfl).followedBy
        (ext_sendResponse R _ _ _ (hR _ _ (by decide)))
    · exact Ext.nothing R s
  simp only
  generalize (match s.conn.m_file with
      | some f =>
        sendResponse
          { s.log (Action.closeFile f.fileName) with conn := { s.conn with m_file := none } }
          226 "Transfer complete".toList
      | none => s) = s1 at h1 ⊢
  split
  · exact h1.followedBy (ext_same R _ _ rfl)
  · exact h1

theorem ext_onTimeout (R : Int → QString → Prop) (s : Sys W)
    (hR : ∀ c m, (c, m) ∈ fixedReplies → R c m) : Ext R s (onTimeout s) :=
  (ext_sendResponse R s _ _ (hR _ _ (by decide))).followedBy
    (ext_log R _ Action.emitDisconnected rfl)

theorem ext_onBytesWritten (R : Int → QString → Prop) (env : Env W) (s : Sys W)
    (bytes : Int) : Ext R s (onBytesWritten env s bytes) := by
  unfold onBytesWritten
  simp only
  split
  · split_ifs
    · exact ((ext_same R s _ rfl).followedBy (ext_log R _ (Action.fileRead _ _) rfl)).followedBy
        ((ext_log R _ (Action.socketWrite _) rfl).followedBy (ext_same R _ _ rfl))
    · exact (ext_same R s _ rfl).followedBy (ext_log R _ Action.disconnectFromHost rfl)
  · exact ext_same R s _ rfl

/-! ## Line feeds -/

theorem digitChar_ne_lf (n : Nat) : Nat.digitChar (n % 10) ≠ '\n' := by
  have h : n % 10 < 10 := Nat.mod_lt _ (by decide)
  generalize n % 10 = k at h
  interval_cases k <;> decide

theorem toDigitsCore_no_lf (fuel : Nat) :
    ∀ (n : Nat) (ds : List Char), '\n' ∉ ds → '\n' ∉ Nat.toDigitsCore 10 fuel n ds := by
  induction fuel with
  | zero => intro n ds hds; simpa [Nat.toDigitsCore] using hds
  | succ fuel ih =>
    intro n ds hds
    have hcons : '\n' ∉ Nat.digitChar (n % 10) :: ds := by
      intro hc
      rcases List.mem_cons.1 hc with hc | hc
      · exact digitChar_ne_lf n hc.symm
      · exact hds hc
    simp only [Nat.toDigitsCore]
    split_ifs
    · exact hcons
    · exact ih _ _ hcons

theorem toDigits_no_lf (n : Nat) : '\n' ∉ Nat.toDigits 10 n :=
  toDigitsCore_no_lf _ _ _ (by simp)

theorem number_no_lf (n : Int) : '\n' ∉ number n := by
  unfold number
  split_ifs
  · intro h
    rcases List.mem_cons.1 h with h | h
    · exact absurd h (by decide)
    · exact toDigits_no_lf _ h
  · exact toDigits_no_lf _

/-- A character of a joined list is the separator or a character of a part. -/
theorem mem_join (sep c : Char) (parts : List QString) (h : c ∈ join sep parts) :
    c = sep ∨ ∃ seg ∈ parts, c ∈ seg := by
  induction parts with
  | nil => simp [join, List.intercalate] at h
  | cons a rest ih =>
    cases rest with
    | nil =>
      rw [join_singleton] at h
      exact Or.inr ⟨a, List.mem_cons_self _ _, h⟩
    | cons b rest =>
      rw [join_cons_cons] at h
      rcases List.mem_append.1 h with h | h
      · exact Or.inr ⟨a, List.mem_cons_self _ _, h⟩
      · rcases List.mem_cons.1 h with h | h
        · exact Or.inl h
        · rcases ih h with h | ⟨seg, hs, hc⟩
          · exact Or.inl h
          · exact Or.inr ⟨seg, List.mem_cons_of_mem _ hs, hc⟩

/-- A character of a part is a character of the joined list. -/
theorem mem_join_of_mem (sep c : Char) (parts : List QString) (seg : QString)
    (hs : seg ∈ parts) (hc : c ∈ seg) : c ∈ join sep parts := by
  induction parts with
  | nil => simp at hs
  | cons a rest ih =>
    cases rest with
    | nil =>
      rw [join_singleton]
      have : seg = a := by simpa using hs
      rw [← this]; exact hc
    | cons b rest =>
      rw [join_cons_cons]
      rcases List.mem_cons.1 hs with hs | hs
      · rw [← hs]; exact List.mem_append_left _ hc
      · exact List.mem_append_right _ (List.mem_cons_of_mem _ (ih hs))

/-- A character of a piece of a split is a character of the string. -/
theorem mem_of_mem_split (sep c : Char) (s seg : QString) (hs : seg ∈ split sep s)
    (hc : c ∈ seg) : c ∈ s := by
  have h := mem_join_of_mem sep c (split sep s) seg hs hc
  unfold join split at h
  rwa [List.intercalate_splitOn] at h

/-- Every segment `resolvePath` keeps is one of the segments it was given. -/
theorem resolveSegments_subset (segments : List QString) :
    ∀ seg ∈ resolveSegments segments, seg ∈ segments := by
  unfold resolveSegments
  suffices H : ∀ (acc : List QString), (∀ seg ∈ acc, seg ∈ segments) →
      ∀ (todo : List QString), (∀ seg ∈ todo, seg ∈ segments) →
      ∀ seg ∈ todo.foldl (fun result segment =>
        if segment = ".".toList then result
        else if segment = "..".toList then
          (if !result.isEmpty then result.dropLast else result)
        else result ++ [segment]) acc, seg ∈ segments by
    exact H [] (by simp) segments (fun _ h => h)
  intro acc hacc todo
  induction todo generalizing acc with
  | nil => intro _; simpa using hacc
  | cons x xs ih =>
    intro htodo
    simp only [List.foldl_cons]
    apply ih _ _ (fun seg hs => htodo seg (List.mem_cons_of_mem _ hs))
    by_cases h1 : x = ".".toList
    · simpa [h1] using hacc
    · by_cases h2 : x = "..".toList
      · simp only [h1, h2, if_true, if_false]
        by_cases h3 : (!acc.isEmpty) = true
        · rw [if_pos h3]
          intro seg hs; exact hacc seg (List.mem_of_mem_dropLast hs)
        · rw [if_neg h3]; exact hacc
      · simp only [h1, h2, if_false]
        intro seg hs
        rcases List.mem_append.1 hs with hs | hs
        · exact hacc seg hs
        · have : seg = x := by simpa using hs
          subst this
          exact htodo seg (List.mem_cons_self _ _)

theorem mem_resolveStart (cwd path : QString) (c : Char) (h : c ∈ resolveStart cwd path) :
    c = '/' ∨ c ∈ cwd ∨ c ∈ path := by
  unfold resolveStart at h
  split_ifs at h
  · exact Or.inr (Or.inr h)
  · exact Or.inr (Or.inl h)
  · rcases List.mem_append.1 h with h | h
    · exact Or.inr (Or.inl h)
    · exact Or.inr (Or.inr h)
  · rcases List.mem_append.1 h with h | h
    · exact Or.inr (Or.inl h)
    · rcases List.mem_cons.1 h with h | h
      · exact Or.inl h
      · exact Or.inr (Or.inr h)

/-- A character of a resolved path is a slash, a character of the current
directory, or a character of the client path. -/
theorem mem_resolvePath (cwd path : QString) (c : Char) (h : c ∈ resolvePath cwd path) :
    c = '/' ∨ c ∈ cwd ∨ c ∈ path := by
  rw [resolvePath_eq] at h
  rcases List.mem_cons.1 h with h | h
  · exact Or.inl h
  rcases mem_join '/' c _ h with h | ⟨seg, hs, hc⟩
  · exact Or.inl h
  have hs2 := resolveSegments_subset _ seg hs
  simp only [splitSkipEmptyParts, List.mem_filter] at hs2
  exact mem_resolveStart cwd path c (mem_of_mem_split '/' c _ seg hs2.1 hc)

theorem resolvePath_no_lf (cwd path : QString) (hc : '\n' ∉ cwd) (hp : '\n' ∉ path) :
    '\n' ∉ resolvePath cwd path := by
  intro h
  rcases mem_resolvePath cwd path '\n' h with h | h | h
  · exact absurd h (by decide)
  · exact hc h
  · exact hp h

/-- The parameter of a line is a part of the line. -/
theorem mem_parseLine_parameter (env : Env W) (line : QString) (c : Char)
    (h : c ∈ (parseLine env line).2) : c ∈ line := by
  unfold parseLine at h
  simp only at h
  split_ifs at h
  · simp at h
  · exact List.mem_of_mem_drop h

theorem mem_replaceChar (x y c : Char) (s : QString) (h : c ∈ replaceChar x y s) :
    c = y ∨ c ∈ s := by
  unfold replaceChar at h
  obtain ⟨d, hd, rfl⟩ := List.mem_map.1 h
  split_ifs
  · exact Or.inl rfl
  · exact Or.inr hd

theorem toString_no_lf (address : QHostAddress)
    (h : address.protocol ≠ NetworkLayerProtocol.IPv6Protocol) :
    '\n' ∉ address.toString := by
  cases address with
  | null => simp [QHostAddress.toString]
  | ipv4 ip4 =>
    intro hm
    simp only [QHostAddress.toString] at hm
    rcases mem_join '.' '\n' _ hm with hm | ⟨seg, hs, hc⟩
    · exact absurd hm (by decide)
    · obtain ⟨o, _, rfl⟩ := List.mem_map.1 hs
      exact toDigits_no_lf o hc
  | ipv6 text => exact absurd rfl h

/-- The text of the PASV reply has no line feed. -/
theorem pasv_no_lf (address : QHostAddress) (port : Nat) :
    '\n' ∉ ("Entering Passive Mode (".toList ++ replaceChar '.' ',' (
        if address.protocol = NetworkLayerProtocol.IPv6Protocol then "127.0.0.1".toList
        else replaceChar ':' '.' address.toString)
        ++ ",".toList ++ number ((port >>> 8 : Nat) : Int)
        ++ ",".toList ++ number ((port &&& 0xFF : Nat) : Int) ++ ")".toList) := by
  have hip : '\n' ∉ replaceChar '.' ',' (
      if address.protocol = NetworkLayerProtocol.IPv6Protocol then "127.0.0.1".toList
      else replaceChar ':' '.' address.toString) := by
    intro h
    rcases mem_replaceChar _ _ _ _ h with h | h
    · exact absurd h (by decide)
    · split_ifs at h with hv6
      · exact absurd h (by decide)
      · rcases mem_replaceChar _ _ _ _ h with h | h
        · exact absurd h (by decide)
        · exact toString_no_lf address hv6 h
  have h1 : '\n' ∉ "Entering Passive Mode (".toList := by decide
  have h2 : '\n' ∉ ",".toList := by decide
  have h3 : '\n' ∉ ")".toList := by decide
  simp only [List.mem_append, not_or]
  exact ⟨⟨⟨⟨⟨⟨h1, hip⟩, h2⟩, number_no_lf _⟩, h2⟩, number_no_lf _⟩, h3⟩

/-- Every reply with a fixed text has a listed code and no line feed. -/
theorem fixedReplies_singleLine : ∀ c m, (c, m) ∈ fixedReplies → SingleLine c m := by
  intro c m h
  have hall : ∀ cm ∈ fixedReplies, cm.1 ∈ replyCodes ∧ '\n' ∉ cm.2 := by decide
  exact hall (c, m) h

/-- `simTrimmed` keeps the contract of `QString::trimmed` that the command loop
relies on: a line whose only line feed is its last character, as `readLine`
returns it, has no line feed once trimmed. -/
theorem simTrimmed_no_lf (raw : QString) (h : '\n' ∉ raw.dropLast) :
    '\n' ∉ simTrimmed raw := by
  intro hm
  unfold simTrimmed at hm
  rw [List.mem_reverse] at hm
  obtain ⟨p, hp⟩ := List.dropWhile_suffix isAsciiSpace (l := raw)
  generalize raw.dropWhile isAsciiSpace = Y at hm hp
  obtain ⟨pre, hpre⟩ := List.dropWhile_suffix isAsciiSpace (l := Y.reverse)
  have hhead := List.head?_dropWhile_not isAsciiSpace Y.reverse
  generalize Y.reverse.dropWhile isAsciiSpace = Z at hm hpre hhead
  cases Z with
  | nil => simp at hm
  | cons z Z1 =>
    simp only [List.head?_cons] at hhead
    have hz : z ≠ '\n' := by
      intro e
      rw [e] at hhead
      exact absurd hhead (by decide)
    have hm1 : '\n' ∈ Z1 := by
      rcases List.mem_cons.1 hm with hm | hm
      · exact absurd hm.symm hz
      · exact hm
    have hY : Y = Z1.reverse ++ (z :: pre.reverse) := by
      have := congrArg List.reverse hpre
      simp only [List.reverse_append, List.reverse_cons, List.reverse_reverse,
        List.append_assoc, List.singleton_append] at this
      exact this.symm
    have hYd : '\n' ∈ Y.dropLast := by
      rw [hY, List.dropLast_append_of_ne_nil _ (List.cons_ne_nil _ _)]
      exact List.mem_append_left _ (List.mem_reverse.2 hm1)
    have hYne : Y ≠ [] := by rw [hY]; simp
    apply h
    rw [← hp, List.dropLast_append_of_ne_nil _ hYne]
    exact List.mem_append_right _ hYd

/-- The wire text of a reply with a listed code and a message without a line
feed: the line feed is its last character and occurs nowhere else. -/
theorem responseText_single_line (code : Int) (message : QString) (h : SingleLine code message) :
    responseText code message = number code ++ ' ' :: message ++ ['\r', '\n'] ∧
    '\n' ∉ (responseText code message).dropLast ∧
    (responseText code message).getLast? = some '\n' := by
  have hcodes : ∀ c ∈ replyCodes, '\n' ∉ number c := by decide
  have hc := hcodes code h.1
  have he : responseText code message = (number code ++ ' ' :: message ++ ['\r']) ++ ['\n'] := by
    simp [responseText]
  refine ⟨by simp [responseText], ?_, ?_⟩
  · rw [he, List.dropLast_concat]
    simp only [List.mem_append, List.mem_cons, List.mem_singleton, List.not_mem_nil, not_or,
      or_false]
    exact ⟨⟨hc, by decide, h.2⟩, by decide⟩
  · rw [he, List.getLast?_concat]

/-- One event: the replies it adds have a listed code and no line feed in the
message, and it brings no line feed into the current directory. -/
theorem handleEvent_singleLine (env : Env W) (server : FtpServer) (s s1 : Sys W) (e : Event)
    (hline : ∀ raw, e = Event.line raw → '\n' ∉ env.trimmed raw)
    (hcwd : '\n' ∉ s.conn.m_currentPath)
    (h : handleEvent env server s e = some s1) :
    Ext SingleLine s s1 ∧ '\n' ∉ s1.conn.m_currentPath := by
  have hfix := fixedReplies_singleLine
  cases e with
  | line rawLine =>
    have hl := hline rawLine rfl
    simp only [handleEvent] at h
    replace h := (processCommand_single env server s s1 rawLine h).1
    rw [processLine_eq] at h
    split_ifs at h
    · cases h; exact ⟨Ext.nothing _ s, hcwd⟩
    · have hparam : '\n' ∉ parameterOf env rawLine := fun hm =>
        hl (mem_parseLine_parameter env _ _ hm)
      have hres := resolvePath_no_lf s.conn.m_currentPath (parameterOf env rawLine) hcwd hparam
      refine ⟨ext_dispatch SingleLine env server s s1 _ _ hfix
        (fun address port => ⟨by decide, pasv_no_lf address port⟩) ⟨by decide, ?_⟩
        ⟨by decide, ?_⟩ ⟨by decide, ?_⟩ h, ?_⟩
      · simp only [List.mem_append, not_or]
        exact ⟨by decide, hres⟩
      · simp only [List.mem_append, not_or]
        exact ⟨⟨by decide, hres⟩, by decide⟩
      · simp only [List.mem_append, not_or]
        exact ⟨⟨by decide, hcwd⟩, by decide⟩
      · rcases dispatch_cwd env server s s1 _ _ h with h1 | h1
        · rw [h1]; exact hcwd
        · rw [h1]; exact hres
  | dataConnected =>
    simp only [handleEvent] at h; cases h
    refine ⟨ext_onDataConnected SingleLine env s (hfix _ _ (by decide)), ?_⟩
    rw [(frame_onDataConnected (fun _ => True) env s).1]; exact hcwd
  | dataReadyRead data =>
    simp only [handleEvent] at h; cases h
    refine ⟨ext_onDataReadyRead SingleLine env s data, ?_⟩
    rw [onDataReadyRead_conn]; exact hcwd
  | dataDisconnected =>
    simp only [handleEvent] at h; cases h
    refine ⟨ext_onDataDisconnected SingleLine s hfix, ?_⟩
    rw [onDataDisconnected_cwd]; exact hcwd
  | bytesWritten bytes =>
    simp only [handleEvent] at h; cases h
    refine ⟨ext_onBytesWritten SingleLine env s bytes, ?_⟩
    rw [onBytesWritten_cwd]; exact hcwd
  | timeout =>
    simp only [handleEvent] at h; cases h
    exact ⟨ext_onTimeout SingleLine s hfix, hcwd⟩
  | welcome =>
    simp only [handleEvent] at h; cases h
    refine ⟨?_, by rw [sendWelcome_cwd]; exact hcwd⟩
    unfold sendWelcome
    split_ifs
    · exact ext_sendResponse SingleLine s _ _ (hfix _ _ (by decide))
    · exact Ext.nothing _ s

theorem run_singleLine (env : Env W) (server : FtpServer) (events : List Event) :
    ∀ s s1 : Sys W, (∀ raw, Event.line raw ∈ events → '\n' ∉ env.trimmed raw) →
      '\n' ∉ s.conn.m_currentPath → run env server s events = some s1 →
      Ext SingleLine s s1 ∧ '\n' ∉ s1.conn.m_currentPath := by
  induction events with
  | nil => intro s s1 _ hcwd h; cases h; exact ⟨Ext.nothing _ s, hcwd⟩
  | cons e rest ih =>
    intro s s1 hlines hcwd h
    simp only [run] at h
    cases hstep : handleEvent env server s e with
    | none => rw [hstep] at h; exact absurd h (by simp)
    | some s2 =>
      rw [hstep] at h
      have h1 := handleEvent_singleLine env server s s2 e
        (fun raw he => hlines raw (by rw [he]; exact List.mem_cons_self _ _)) hcwd hstep
      have h2 := ih s2 s1 (fun raw hm => hlines raw (List.mem_cons_of_mem _ hm)) h1.2 h
      exact ⟨h1.1.followedBy h2.1, h2.2⟩

/-- C18: along every run of a session over events (lines received on the
control socket, the signals of the data connection, the timers), from every
state whose current directory has no line feed (the constructed session has
`/`, and the run brings none in), every reply the run writes has one of the
listed codes; its text is the code, a space, the message, CR, LF; and its only
line feed is its final character, also for the replies of CWD, MKD and PWD
that echo a path. The lines are as `readLine` returns them, with no line feed
before their last character, and `trimmed` removes a final line feed. -/
theorem replies_single_line (env : Env W) (server : FtpServer) (s0 s : Sys W)
    (events : List Event)
    (htrim : ∀ raw, '\n' ∉ raw.dropLast → '\n' ∉ env.trimmed raw)
    (hlines : ∀ raw, Event.line raw ∈ events → '\n' ∉ raw.dropLast)
    (hcwd : '\n' ∉ s0.conn.m_currentPath)
    (hrun : run env server s0 events = some s) :
    ∃ new, s.trace = s0.trace ++ new ∧
      ∀ code message, Action.reply code message ∈ new →
        code ∈ replyCodes ∧
        responseText code message = number code ++ ' ' :: message ++ ['\r', '\n'] ∧
        '\n' ∉ (responseText code message).dropLast ∧
        (responseText code message).getLast? = some '\n' := by
  obtain ⟨⟨new, hn, hr⟩, _⟩ := run_singleLine env server events s0 s
    (fun raw hm => htrim raw (hlines raw hm)) hcwd hrun
  exact ⟨new, hn, fun code message hm =>
    ⟨(hr code message hm).1, responseText_single_line code message (hr code message hm)⟩⟩

/-- C18, on the concrete environment: a session that logs in, creates and
enters a directory whose name has a carriage return in it, asks for the
current directory and for passive mode. -/
theorem replies_single_line_witness :
    ∃ s, run simEnv simServer simFresh
        [Event.welcome, Event.line "USER admin\r\n".toList, Event.line "PASS password\r\n".toList,
          Event.line "MKD a\rb\r\n".toList, Event.line "CWD a\rb\r\n".toList,
          Event.line "PWD\r\n".toList, Event.line "PASV\r\n".toList] = some s ∧
      replies s.trace
        = [((220 : Int), "FTP Server Ready".toList),
           ((331 : Int), "User name okay, need password".toList),
           ((230 : Int), "User logged in, proceed".toList),
           ((257 : Int), "\"/a\rb\" created".toList),
           ((250 : Int), "Directory changed to /a\rb".toList),
           ((257 : Int), "\"/a\rb\" is current directory".toList),
           ((227 : Int), "Entering Passive Mode (192,168,1,10,195,80)".toList)] ∧
      ∃ new, s.trace = simFresh.trace ++ new ∧
        ∀ code message, Action.reply code message ∈ new →
          code ∈ replyCodes ∧
          responseText code message = number code ++ ' ' :: message ++ ['\r', '\n'] ∧
          '\n' ∉ (responseText code message).dropLast ∧
          (responseText code message).getLast? = some '\n' :=
  ⟨_, rfl, rfl,
    replies_single_line simEnv simServer simFresh _
      [Event.welcome, Event.line "USER admin\r\n".toList, Event.line "PASS password\r\n".toList,
        Event.line "MKD a\rb\r\n".toList, Event.line "CWD a\rb\r\n".toList,
        Event.line "PWD\r\n".toList, Event.line "PASV\r\n".toList]
      simTrimmed_no_lf
      (fun raw hm => by
        simp only [List.mem_cons, Event.line.injEq, List.mem_singleton, List.not_mem_nil,
          or_false, false_or, reduceCtorEq] at hm
        rcases hm with e | e | e | e | e | e <;> subst e <;> decide)
      (by decide) rfl⟩

/-! ## Resolving a resolved path -/

/-- The loop of `resolvePath` keeps a list of kept segments as it is. -/
theorem resolveSegments_of_good (stack : List QString) (h : ∀ seg ∈ stack, GoodSegment seg) :
    resolveSegments stack = stack := by
  unfold resolveSegments
  suffices H : ∀ (todo acc : List QString), (∀ seg ∈ todo, GoodSegment seg) →
      todo.foldl (fun result segment =>
        if segment = ".".toList then result
        else if segment = "..".toList then
          (if !result.isEmpty then result.dropLast else result)
        else result ++ [segment]) acc = acc ++ todo by
    simpa using H stack [] h
  intro todo
  induction todo with
  | nil => intro acc _; simp
  | cons x xs ih =>
    intro acc hgood
    have hx := hgood x (List.mem_cons_self _ _)
    simp only [List.foldl_cons, hx.2.1, hx.2.2.1, if_false]
    rw [ih _ (fun seg hs => hgood seg (List.mem_cons_of_mem _ hs))]
    simp

/-- Splitting `/` followed by the joined kept segments, without the empty
parts, gives the kept segments back. -/
theorem splitSkipEmptyParts_join_good (stack : List QString)
    (h : ∀ seg ∈ stack, GoodSegment seg) :
    splitSkipEmptyParts '/' ('/' :: join '/' stack) = stack := by
  have hsplit : splitSkipEmptyParts '/' ('/' :: join '/' stack)
      = (split '/' ('/' :: join '/' stack)).filter (fun seg => !seg.isEmpty) := rfl
  rw [hsplit, split_cons_sep]
  by_cases hne : stack = []
  · subst hne
    decide
  · rw [split_join_good stack hne h]
    simp only [List.filter_cons, List.isEmpty_nil, Bool.not_true, Bool.false_eq_true, if_false]
    apply List.filter_eq_self.2
    intro seg hs
    have := (h seg hs).1
    cases seg with
    | nil => exact absurd rfl this
    | cons c cs => rfl

theorem resolveStart_absolute (cwd rest : QString) :
    resolveStart cwd ('/' :: rest) = '/' :: rest := by
  simp [resolveStart, startsWith]

/-- C22: `resolvePath` is idempotent, and its result is a fixed point whatever
the current directory: for all current directories `c1`, `c2` and every client
path `p`, resolving the result of `resolvePath c1 p` relative to `c2` returns
that result unchanged. -/
theorem resolvePath_idempotent (c1 c2 p : QString) :
    resolvePath c2 (resolvePath c1 p) = resolvePath c1 p := by
  have hgood := resolvePath_stack_good c1 p
  rw [resolvePath_eq c1 p]
  generalize resolveSegments (splitSkipEmptyParts '/' (resolveStart c1 p)) = stack at hgood
  rw [resolvePath_eq, resolveStart_absolute, splitSkipEmptyParts_join_good stack hgood,
    resolveSegments_of_good stack hgood]

/-! ## The root path of the server -/

/-- `setRootPath` assigns the root path and no other member, whatever the
members are. -/
theorem setRootPath_server (env : ServerEnv W) (s : ServerSys W) (path : QString) :
    (FtpServer.setRootPath env s path).server = { s.server with m_rootPath := path } := by
  unfold FtpServer.setRootPath
  simp only
  split_ifs <;> rfl

theorem stop_rootPath (env : ServerEnv W) (s : ServerSys W) :
    (FtpServer.stop env s).server.m_rootPath = s.server.m_rootPath := by
  unfold FtpServer.stop
  split_ifs <;> rfl

theorem stop_isRunning (env : ServerEnv W) (s : ServerSys W) :
    (FtpServer.stop env s).server.m_isRunning = false := by
  unfold FtpServer.stop
  split_ifs with h
  · rfl
  · simpa using h

theorem start_rootPath (env : ServerEnv W) (s : ServerSys W) (port : Int) :
    (FtpServer.start env s port).2.server.m_rootPath = s.server.m_rootPath := by
  have h1 : (if s.server.m_isRunning then FtpServer.stop env s else s).server.m_rootPath
      = s.server.m_rootPath := by
    split_ifs
    · exact stop_rootPath env s
    · rfl
  unfold FtpServer.start
  simp only
  generalize (if s.server.m_isRunning then FtpServer.stop env s else s) = s1 at h1 ⊢
  split <;> exact h1

/-- The result of `start` tells whether the server is running afterwards. -/
theorem start_isRunning (env : ServerEnv W) (s : ServerSys W) (port : Int) :
    (FtpServer.start env s port).2.server.m_isRunning = (FtpServer.start env s port).1 := by
  have h1 : (if s.server.m_isRunning then FtpServer.stop env s else s).server.m_isRunning
      = false := by
    split_ifs with h
    · exact stop_isRunning env s
    · simpa using h
  unfold FtpServer.start
  simp only
  generalize (if s.server.m_isRunning then FtpServer.stop env s else s) = s1 at h1 ⊢
  split
  · exact h1
  · rfl

/-- Every event of the main window keeps the start button enabled exactly when
the server is not running. -/
theorem guiStep_synced (env : ServerEnv W) (win : MainWindow W) (e : GuiEvent)
    (h : StartButtonSynced win) : StartButtonSynced (guiStep env win e) := by
  unfold StartButtonSynced at h ⊢
  cases e with
  | startClicked createDirectory =>
    simp only [guiStep]
    split_ifs with hen
    · unfold onStartButtonClicked
      simp only
      split
      · exact h
      · rename_i w hv
        have hr := start_isRunning env
          (FtpServer.setRootPath env { win.m_server with world := w } win.rootDirEdit)
          win.portSpinBox
        split
        · rename_i s2 hst
          rw [hst] at hr
          simp only at hr ⊢
          rw [hr, hen]; rfl
        · rename_i s2 hst
          rw [hst] at hr
          simp only [updateUiState]
          rw [hr]
    · exact h
  | stopClicked =>
    simp only [guiStep]
    split_ifs
    · simp only [onStopButtonClicked, updateUiState]
      rw [stop_isRunning]
    · exact h
  | browseClicked dir =>
    simp only [guiStep, onBrowseButtonClicked]
    split_ifs <;> exact h
  | rootDirEdited text =>
    simp only [guiStep]
    split_ifs <;> exact h
  | portChanged value =>
    simp only [guiStep]
    split_ifs <;> exact h

/-- While the server is running, no event of the main window changes the root
path: `setRootPath` is called from the start button only, which is then
disabled. -/
theorem guiStep_rootPath (env : ServerEnv W) (win : MainWindow W) (e : GuiEvent)
    (h : StartButtonSynced win) (hrun : win.m_server.server.m_isRunning = true) :
    (guiStep env win e).m_server.server.m_rootPath = win.m_server.server.m_rootPath := by
  unfold StartButtonSynced at h
  rw [hrun] at h
  cases e with
  | startClicked createDirectory =>
    simp only [guiStep, h, Bool.not_true, Bool.false_eq_true, if_false]
  | stopClicked =>
    simp only [guiStep]
    split_ifs
    · simp only [onStopButtonClicked, updateUiState]
      exact stop_rootPath env win.m_server
    · rfl
  | browseClicked dir =>
    simp only [guiStep, onBrowseButtonClicked]
    split_ifs <;> rfl
  | rootDirEdited text =>
    simp only [guiStep]
    split_ifs <;> rfl
  | portChanged value =>
    simp only [guiStep]
    split_ifs <;> rfl

theorem guiRun_synced (env : ServerEnv W) (events : List GuiEvent) :
    ∀ win : MainWindow W, StartButtonSynced win → StartButtonSynced (guiRun env win events) := by
  induction events with
  | nil => intro win h; exact h
  | cons e rest ih => intro win h; exact ih _ (guiStep_synced env win e h)

/-- C21, counterexample: the running server rooted at `/srv/ftp` takes
`setRootPath("/tmp/ftp")`: it is still running and its root path is now
`/tmp/ftp`. A live session, which reads the root path of the server at every
command, asked `/srv/ftp/` for `CWD /` before the call and asks `/tmp/ftp/`
after it. -/
theorem setRootPath_running_counterexample :
    simRunning.server.m_isRunning = true ∧
    simRunning.server.rootPath = "/srv/ftp".toList ∧
    (FtpServer.setRootPath simServerEnv simRunning "/tmp/ftp".toList).server.m_isRunning
      = true ∧
    (FtpServer.setRootPath simServerEnv simRunning "/tmp/ftp".toList).server.rootPath
      = "/tmp/ftp".toList ∧
    Action.dirExists "/srv/ftp/".toList
      ∈ (handleCWD simEnv simRunning.server simLoggedIn "/".toList).trace ∧
    Action.dirExists "/tmp/ftp/".toList
      ∈ (handleCWD simEnv
          (FtpServer.setRootPath simServerEnv simRunning "/tmp/ftp".toList).server
          simLoggedIn "/".toList).trace :=
  ⟨rfl, rfl, rfl, rfl, by decide, by decide⟩

/-- C21 (amended): `setRootPath` has no check of the running flag. For every
state of the server, running or stopped, and every path, it sets the root path
to the path, leaves the port and the running flag as they are, and creates the
directory when it does not exist. `stop` and `start` do not change the root
path. In the main window, where the start button is enabled exactly when the
server is not running, every event keeps it so, and no event changes the root
path of a running server: the only call of `setRootPath` is in the slot of the
start button. -/
theorem setRootPath_always_assigns (env : ServerEnv W) (s : ServerSys W) (path : QString)
    (port : Int) (win : MainWindow W) (e : GuiEvent) :
    (FtpServer.setRootPath env s path).server = { s.server with m_rootPath := path } ∧
    (FtpServer.setRootPath env s path).world
      = (if env.dirExists s.world path then s.world else (env.mkpath s.world path).2) ∧
    (FtpServer.stop env s).server.m_rootPath = s.server.m_rootPath ∧
    (FtpServer.start env s port).2.server.m_rootPath = s.server.m_rootPath ∧
    (StartButtonSynced win →
      StartButtonSynced (guiStep env win e) ∧
      (win.m_server.server.m_isRunning = true →
        (guiStep env win e).m_server.server.m_rootPath
          = win.m_server.server.m_rootPath)) := by
  refine ⟨setRootPath_server env s path, ?_, stop_rootPath env s, start_rootPath env s port,
    fun h => ⟨guiStep_synced env win e h, guiStep_rootPath env win e h⟩⟩
  unfold FtpServer.setRootPath
  simp only
  cases env.dirExists s.world path <;> simp

/-- C21 (amended), on the concrete world. The main window starts the server
on the root typed into the field; while it runs, typing, browsing and the start
button change nothing; after a stop, the next start takes the new root. And
`setRootPath` on the running server rooted at `/srv/ftp` sets the root. -/
theorem setRootPath_always_assigns_witness :
    ((guiRun simServerEnv simWindow
        [GuiEvent.rootDirEdited "/srv/new".toList, GuiEvent.startClicked true,
          GuiEvent.rootDirEdited "/other".toList, GuiEvent.browseClicked "/other".toList,
          GuiEvent.startClicked true]).m_server.server
      = { m_rootPath := "/srv/new".toList, m_port := 21, m_isRunning := true }) ∧
    ((guiRun simServerEnv simWindow
        [GuiEvent.rootDirEdited "/srv/new".toList, GuiEvent.startClicked true,
          GuiEvent.stopClicked, GuiEvent.rootDirEdited "/other".toList,
          GuiEvent.startClicked true]).m_server.server
      = { m_rootPath := "/other".toList, m_port := 21, m_isRunning := true }) ∧
    StartButtonSynced simWindow ∧
    ((FtpServer.setRootPath simServerEnv simRunning "/tmp/ftp".toList).server
        = { simRunning.server with m_rootPath := "/tmp/ftp".toList } ∧
      (FtpServer.setRootPath simServerEnv simRunning "/tmp/ftp".toList).world
        = (if simServerEnv.dirExists simRunning.world "/tmp/ftp".toList then simRunning.world
           else (simServerEnv.mkpath simRunning.world "/tmp/ftp".toList).2) ∧
      (FtpServer.stop simServerEnv simRunning).server.m_rootPath
        = simRunning.server.m_rootPath ∧
      (FtpServer.start simServerEnv simRunning 2121).2.server.m_rootPath
        = simRunning.server.m_rootPath ∧
      (StartButtonSynced simWindow →
        StartButtonSynced (guiStep simServerEnv simWindow (GuiEvent.startClicked true)) ∧
        (simWindow.m_server.server.m_isRunning = true →
          (guiStep simServerEnv simWindow (GuiEvent.startClicked true)).m_server.server.m_rootPath
            = simWindow.m_server.server.m_rootPath))) :=
  ⟨by decide, by decide, rfl,
    setRootPath_always_assigns simServerEnv simRunning "/tmp/ftp".toList 2121 simWindow
      (GuiEvent.startClicked true)⟩

/-! ## The timer pointer

No function of the session assigns `m_timer`. -/

theorem closeDataConnection_timer (s : Sys W) :
    (closeDataConnection s).conn.m_timer = s.conn.m_timer := by
  unfold closeDataConnection closeOpenFile closePassiveServer closeDataSocket
  cases s.conn.m_dataSocket <;> cases s.conn.m_passiveServer <;> cases s.conn.m_file <;> rfl

theorem setupDataConnection_timer (env : Env W) (s : Sys W) :
    (setupDataConnection env s).conn.m_timer = s.conn.m_timer := by
  have h := closeDataConnection_timer s
  unfold setupDataConnection
  generalize closeDataConnection s = s1 at h
  simp only
  split_ifs
  · rcases env.listen s1.world with ⟨_ | port, w⟩ <;> exact h
  · exact h

theorem checkLogin_timer (s : Sys W) : (checkLogin s).2.conn.m_timer = s.conn.m_timer := by
  unfold checkLogin
  split_ifs <;> rfl

theorem onDataConnected_timer (env : Env W) (s : Sys W) :
    (onDataConnected env s).conn.m_timer = s.conn.m_timer := by
  unfold onDataConnected
  simp only [sendResponse]
  split_ifs
  · split
    · split <;> rfl
    · rfl
  · rfl

theorem waitActive_timer (env : Env W) (s : Sys W) (socket : QTcpSocket) :
    (waitActive env s socket).2.conn.m_timer = s.conn.m_timer := by
  unfold waitActive
  generalize (match socket with
    | .outgoing host port => env.waitForConnected s.world host port
    | .accepted _ => (true, s.world)) = r
  rcases r with ⟨_ | _, w⟩
  · exact closeDataConnection_timer _
  · simp only
    rw [onDataConnected_timer, onDataConnected_timer]

theorem startTransfer_timer (env : Env W) (s : Sys W) (m : QString) :
    (startTransfer env s m).2.conn.m_timer = s.conn.m_timer := by
  unfold startTransfer
  split
  · exact waitActive_timer env s _
  · rfl

theorem waitPassive_timer (env : Env W) (s : Sys W) (r : Bool × Sys W)
    (hw : waitPassive env s = some r) : r.2.conn.m_timer = s.conn.m_timer := by
  unfold waitPassive at hw
  split_ifs at hw
  · split at hw
    · exact absurd hw (by simp)
    · split at hw <;> simp only [Option.some.injEq] at hw <;> subst hw
      · exact closeDataConnection_timer _
      · simp only
        rw [onDataConnected_timer]
  · simp only [Option.some.injEq] at hw
    subst hw; rfl

theorem handleLIST_timer (env : Env W) (server : FtpServer) (s : Sys W) (param : QString)
    (s' : Sys W) (h : handleLIST env server s param = some s') :
    s'.conn.m_timer = s.conn.m_timer := by
  unfold handleLIST at h
  have hc := checkLogin_timer s
  rcases hcl : checkLogin s with ⟨_ | _, s1⟩
  · rw [hcl] at h hc
    simp only [Option.some.injEq] at h
    subst h; exact hc
  rw [hcl] at h hc
  simp only at h hc
  have h2 := (setupDataConnection_timer env s1).trans hc
  generalize setupDataConnection env s1 = s2 at h h2
  split_ifs at h with hnone
  · simp only [Option.some.injEq] at h
    subst h; exact h2
  have hready := (startTransfer_timer env s2
    "Opening data connection for directory listing".toList).trans h2
  generalize startTransfer env s2 "Opening data connection for directory listing".toList
    = ready at h hready
  rcases ready with ⟨_ | _, s3⟩
  · simp only [Option.some.injEq] at h
    subst h; exact hready
  simp only at h hready
  generalize hp : server.rootPath ++ resolvePath s3.conn.m_currentPath param = full at h
  have h4 : (s3.log (Action.dirExists full)).conn.m_timer = s.conn.m_timer := hready
  generalize s3.log (Action.dirExists full) = s4 at h h4
  split_ifs at h with hex
  · simp only [Option.some.injEq] at h
    subst h
    exact (closeDataConnection_timer _).trans h4
  have h5 : (s4.log (Action.entryInfoList full)).conn.m_timer = s.conn.m_timer := h4
  generalize s4.log (Action.entryInfoList full) = s5 at h h5
  rcases hw : waitPassive env s5 with _ | ⟨_ | _, s6⟩
  · rw [hw] at h; exact absurd h (by simp)
  · rw [hw] at h
    simp only [Option.some.injEq] at h
    subst h; exact (waitPassive_timer env s5 _ hw).trans h5
  · rw [hw] at h
    have h6 := (waitPassive_timer env s5 _ hw).trans h5
    simp only at h h6
    split at h <;> simp only [Option.some.injEq] at h <;> subst h
    · exact h6
    · exact h6

theorem openNewFile_timer (env : Env W) (s : Sys W) (fullPath : QString) (mode : OpenMode) :
    (openNewFile env s fullPath mode).2.conn.m_timer = s.conn.m_timer := by
  rw [openNewFile_eq]

theorem handleSTOR_timer (env : Env W) (server : FtpServer) (s : Sys W) (param : QString) :
    (handleSTOR env server s param).conn.m_timer = s.conn.m_timer := by
  unfold handleSTOR
  have hc := checkLogin_timer s
  rcases hcl : checkLogin s with ⟨_ | _, s1⟩
  · rw [hcl] at hc; exact hc
  rw [hcl] at hc
  simp only at hc ⊢
  by_cases hp : param.isEmpty = true
  · rw [if_pos hp]; exact hc
  rw [if_neg hp]
  have h2 := (setupDataConnection_timer env s1).trans hc
  generalize setupDataConnection env s1 = s2 at h2 ⊢
  by_cases hnone : s2.conn.m_dataSocket.isNone = true ∧ s2.conn.m_passiveServer.isNone = true
  · rw [if_pos hnone]; exact h2
  rw [if_neg hnone]
  have h3 := (openNewFile_timer env s2 (server.rootPath ++ resolvePath s2.conn.m_currentPath param)
    OpenMode.WriteOnly).trans h2
  rcases hop : openNewFile env s2 (server.rootPath ++ resolvePath s2.conn.m_currentPath param)
    OpenMode.WriteOnly with ⟨_ | _, s3⟩
  · rw [hop] at h3
    exact (closeDataConnection_timer _).trans h3
  · rw [hop] at h3
    exact (startTransfer_timer env _ _).trans h3

theorem sendFirstChunk_timer (env : Env W) (s s' : Sys W)
    (h : sendFirstChunk env s = some s') : s'.conn.m_timer = s.conn.m_timer := by
  unfold sendFirstChunk at h
  split at h
  · simp only at h
    split_ifs at h <;> simp only [Option.some.injEq] at h <;> subst h <;> rfl
  · exact absurd h (by simp)

theorem startDownload_timer (env : Env W) (s s' : Sys W)
    (h : startDownload env s = some s') : s'.conn.m_timer = s.conn.m_timer := by
  unfold startDownload at h
  split at h
  · exact absurd h (by simp)
  rename_i f hf
  have h1 : ({ s with conn := { s.conn with
      m_bytesTotal := env.fileSize s.world f.fileName, m_bytesSent := 0 } } : Sys W).conn.m_timer
      = s.conn.m_timer := rfl
  simp only at h
  generalize ({ s with conn := { s.conn with
      m_bytesTotal := env.fileSize s.world f.fileName, m_bytesSent := 0 } } : Sys W) = s1
    at h h1
  split at h
  · rename_i socket hmode hsock
    have h2 := (waitActive_timer env s1 socket).trans h1
    rcases hwa : waitActive env s1 socket with ⟨_ | _, s2⟩
    · rw [hwa] at h h2
      simp only [Option.some.injEq] at h
      subst h; exact h2
    · rw [hwa] at h h2
      exact (sendFirstChunk_timer env _ _ h).trans h2
  · simp only [Option.some.injEq] at h
    subst h; exact h1

theorem handleRETR_timer (env : Env W) (server : FtpServer) (s : Sys W) (param : QString)
    (s' : Sys W) (h : handleRETR env server s param = some s') :
    s'.conn.m_timer = s.conn.m_timer := by
  unfold handleRETR at h
  have hc := checkLogin_timer s
  rcases hcl : checkLogin s with ⟨_ | _, s1⟩
  · rw [hcl] at h hc
    simp only [Option.some.injEq] at h
    subst h; exact hc
  rw [hcl] at h hc
  simp only at h hc
  by_cases hp : param.isEmpty = true
  · rw [if_pos hp] at h
    simp only [Option.some.injEq] at h
    subst h; exact hc
  rw [if_neg hp] at h
  have h2 := (openNewFile_timer env s1 (server.rootPath ++ resolvePath s1.conn.m_currentPath param)
    OpenMode.ReadOnly).trans hc
  rcases hop : openNewFile env s1 (server.rootPath ++ resolvePath s1.conn.m_currentPath param)
    OpenMode.ReadOnly with ⟨_ | _, s2⟩
  · rw [hop] at h h2
    simp only [Option.some.injEq] at h
    subst h
    exact h2
  rw [hop] at h h2
  simp only at h h2
  have h3 := (setupDataConnection_timer env s2).trans h2
  generalize setupDataConnection env s2 = s3 at h h3
  by_cases hnone : s3.conn.m_dataSocket.isNone = true ∧ s3.conn.m_passiveServer.isNone = true
  · rw [if_pos hnone] at h
    simp only [Option.some.injEq] at h
    subst h
    exact (closeDataConnection_timer _).trans h3
  rw [if_neg hnone] at h
  exact (startDownload_timer env _ _ h).trans h3

/-- The shape of the handlers that start with `checkLogin` and then only reply
and assign members other than `m_timer`. -/
theorem handlePORT_timer (env : Env W) (s : Sys W) (p : QString) :
    (handlePORT env s p).conn.m_timer = s.conn.m_timer := by
  unfold handlePORT
  have hc := checkLogin_timer s
  rcases hcl : checkLogin s with ⟨_ | _, s1⟩ <;> rw [hcl] at hc
  · exact hc
  · simp only
    split_ifs <;> exact hc

theorem handlePASV_timer (env : Env W) (s : Sys W) (p : QString) :
    (handlePASV env s p).conn.m_timer = s.conn.m_timer := by
  unfold handlePASV
  have hc := checkLogin_timer s
  rcases hcl : checkLogin s with ⟨_ | _, s1⟩ <;> rw [hcl] at hc
  · exact hc
  · simp only
    have h2 : (setupDataConnection env
        { s1 with conn := { s1.conn with m_transferMode := TransferMode.Passive } }).conn.m_timer
        = s.conn.m_timer := (setupDataConnection_timer env _).trans hc
    generalize setupDataConnection env
        { s1 with conn := { s1.conn with m_transferMode := TransferMode.Passive } } = s2 at h2 ⊢
    split <;> exact h2

theorem handleCWD_timer (env : Env W) (server : FtpServer) (s : Sys W) (p : QString) :
    (handleCWD env server s p).conn.m_timer = s.conn.m_timer := by
  unfold handleCWD
  have hc := checkLogin_timer s
  rcases hcl : checkLogin s with ⟨_ | _, s1⟩ <;> rw [hcl] at hc
  · exact hc
  · simp only
    split_ifs <;> exact hc

theorem handlePWD_timer (s : Sys W) (p : QString) :
    (handlePWD s p).conn.m_timer = s.conn.m_timer := by
  unfold handlePWD
  have hc := checkLogin_timer s
  rcases hcl : checkLogin s with ⟨_ | _, s1⟩ <;> rw [hcl] at hc <;> exact hc

theorem handleMKD_timer (env : Env W) (server : FtpServer) (s : Sys W) (p : QString) :
    (handleMKD env server s p).conn.m_timer = s.conn.m_timer := by
  unfold handleMKD
  have hc := checkLogin_timer s
  rcases hcl : checkLogin s with ⟨_ | _, s1⟩ <;> rw [hcl] at hc
  · exact hc
  · simp only
    split_ifs
    · exact hc
    · split <;> exact hc

theorem handleRMD_timer (env : Env W) (server : FtpServer) (s : Sys W) (p : QString) :
    (handleRMD env server s p).conn.m_timer = s.conn.m_timer := by
  unfold handleRMD
  have hc := checkLogin_timer s
  rcases hcl : checkLogin s with ⟨_ | _, s1⟩ <;> rw [hcl] at hc
  · exact hc
  · simp only
    split_ifs
    · exact hc
    · split <;> exact hc

theorem handleDELE_timer (env : Env W) (server : FtpServer) (s : Sys W) (p : QString) :
    (handleDELE env server s p).conn.m_timer = s.conn.m_timer := by
  unfold handleDELE
  have hc := checkLogin_timer s
  rcases hcl : checkLogin s with ⟨_ | _, s1⟩ <;> rw [hcl] at hc
  · exact hc
  · simp only
    split_ifs
    · exact hc
    · split <;> exact hc

theorem handleRNFR_timer (env : Env W) (server : FtpServer) (s : Sys W) (p : QString) :
    (handleRNFR env server s p).conn.m_timer = s.conn.m_timer := by
  unfold handleRNFR
  have hc := checkLogin_timer s
  rcases hcl : checkLogin s with ⟨_ | _, s1⟩ <;> rw [hcl] at hc
  · exact hc
  · simp only
    split_ifs <;> exact hc

theorem handleRNTO_timer (env : Env W) (server : FtpServer) (s : Sys W) (p : QString) :
    (handleRNTO env server s p).conn.m_timer = s.conn.m_timer := by
  unfold handleRNTO
  have hc := checkLogin_timer s
  rcases hcl : checkLogin s with ⟨_ | _, s1⟩ <;> rw [hcl] at hc
  · exact hc
  · simp only
    split_ifs
    · exact hc
    · exact hc
    · split <;> exact hc

theorem handlePASS_timer (s : Sys W) (p : QString) :
    (handlePASS s p).conn.m_timer = s.conn.m_timer := by
  unfold handlePASS
  split_ifs <;> rfl

theorem handleTYPE_timer (s : Sys W) (p : QString) :
    (handleTYPE s p).conn.m_timer = s.conn.m_timer := by
  unfold handleTYPE
  split_ifs <;> rfl

/-- No command assigns `m_timer`. -/
theorem dispatch_timer (env : Env W) (server : FtpServer) (s s1 : Sys W)
    (command parameter : QString) (h : dispatch env server s command parameter = some s1) :
    s1.conn.m_timer = s.conn.m_timer := by
  by_cases hmem : command ∈ tableCommands
  · simp only [tableCommands, List.mem_cons, List.mem_singleton, List.not_mem_nil, or_false]
      at hmem
    rcases hmem with e | e | e | e | e | e | e | e | e | e | e | e | e | e | e | e | e | e <;>
      subst e
    · rw [dispatch_USER] at h; cases h; rfl
    · rw [dispatch_PASS] at h; cases h; exact handlePASS_timer s parameter
    · rw [dispatch_SYST] at h; cases h; rfl
    · rw [dispatch_QUIT] at h; cases h; rfl
    · rw [dispatch_TYPE] at h; cases h; exact handleTYPE_timer s parameter
    · rw [dispatch_PORT] at h; cases h; exact handlePORT_timer env s parameter
    · rw [dispatch_PASV] at h; cases h; exact handlePASV_timer env s parameter
    · rw [dispatch_LIST] at h; exact handleLIST_timer env server s parameter s1 h
    · rw [dispatch_CWD] at h; cases h; exact handleCWD_timer env server s parameter
    · rw [dispatch_PWD] at h; cases h; exact handlePWD_timer s parameter
    · rw [dispatch_MKD] at h; cases h; exact handleMKD_timer env server s parameter
    · rw [dispatch_RMD] at h; cases h; exact handleRMD_timer env server s parameter
    · rw [dispatch_DELE] at h; cases h; exact handleDELE_timer env server s parameter
    · rw [dispatch_RNFR] at h; cases h; exact handleRNFR_timer env server s parameter
    · rw [dispatch_RNTO] at h; cases h; exact handleRNTO_timer env server s parameter
    · rw [dispatch_STOR] at h; cases h; exact handleSTOR_timer env server s parameter
    · rw [dispatch_RETR] at h; exact handleRETR_timer env server s parameter s1 h
    · rw [dispatch_NOOP] at h; cases h; rfl
  · rw [dispatch_other env server s command parameter hmem] at h
    cases h; rfl

theorem processLine_timer (env : Env W) (server : FtpServer) (s s1 : Sys W) (rawLine : QString)
    (h : processLine env server s rawLine = some s1) : s1.conn.m_timer = s.conn.m_timer := by
  rw [processLine_eq] at h
  split_ifs at h
  · cases h; rfl
  · exact dispatch_timer env server s s1 _ _ h

theorem processLines_timer (env : Env W) (server : FtpServer) (lines : List QString) :
    ∀ s s1 : Sys W, processLines env server s lines = some s1 →
      s1.conn.m_timer = s.conn.m_timer := by
  induction lines with
  | nil => intro s s1 h; simp only [processLines, Option.some.injEq] at h; rw [h]
  | cons l rest ih =>
    intro s s1 h
    simp only [processLines] at h
    cases hp : processLine env server s l with
    | none => rw [hp] at h; exact absurd h (by simp)
    | some s2 =>
      rw [hp] at h
      exact (ih s2 s1 h).trans (processLine_timer env server s s2 l hp)

/-- No event assigns `m_timer`. -/
theorem handleEvent_timer (env : Env W) (server : FtpServer) (s s1 : Sys W) (e : Event)
    (h : handleEvent env server s e = some s1) : s1.conn.m_timer = s.conn.m_timer := by
  cases e with
  | line rawLine =>
    simp only [handleEvent] at h
    exact processLine_timer env server s s1 rawLine
      (processCommand_single env server s s1 rawLine h).1
  | dataConnected =>
    simp only [handleEvent] at h; cases h
    exact onDataConnected_timer env s
  | dataReadyRead data =>
    simp only [handleEvent] at h; cases h
    rw [onDataReadyRead_conn]
  | dataDisconnected =>
    simp only [handleEvent] at h; cases h
    unfold onDataDisconnected
    cases hf : s.conn.m_file <;> cases hs : s.conn.m_dataSocket <;>
      simp [sendResponse, Sys.log, hs]
  | bytesWritten bytes =>
    simp only [handleEvent] at h; cases h
    unfold onBytesWritten
    simp only
    split
    · split_ifs <;> rfl
    · rfl
  | timeout =>
    simp only [handleEvent] at h; cases h; rfl
  | welcome =>
    simp only [handleEvent] at h; cases h
    unfold sendWelcome
    split_ifs <;> rfl

/-- With `m_timer` not pointing to a timer, `processCommand` has no result,
whatever the lines are. -/
theorem processCommand_no_timer (env : Env W) (server : FtpServer) (s : Sys W)
    (lines : List QString) (h : ∀ t, s.conn.m_timer ≠ Pointer.object t) :
    processCommand env server s lines = none := by
  unfold processCommand
  split
  · rename_i t ht
    exact absurd ht (h t)
  · rfl

/-- With a timer, `processCommand` is the loop over the lines. -/
theorem processCommand_timer (env : Env W) (server : FtpServer) (s : Sys W)
    (lines : List QString) (t : QTimer) (h : s.conn.m_timer = Pointer.object t) :
    processCommand env server s lines = processLines env server s lines := by
  unfold processCommand
  rw [h]

/-- A session whose `m_timer` does not point to a timer has no run through a
line: the run ends, without a result, at the first line that is received. -/
theorem run_no_timer (env : Env W) (server : FtpServer) (events : List Event) :
    ∀ s : Sys W, (∀ t, s.conn.m_timer ≠ Pointer.object t) →
      (∃ rawLine, Event.line rawLine ∈ events) → run env server s events = none := by
  induction events with
  | nil => intro s _ h; obtain ⟨l, hl⟩ := h; simp at hl
  | cons e rest ih =>
    intro s ht hl
    simp only [run]
    cases hstep : handleEvent env server s e with
    | none => rfl
    | some s1 =>
      simp only
      have ht1 : ∀ t, s1.conn.m_timer ≠ Pointer.object t := by
        rw [handleEvent_timer env server s s1 e hstep]; exact ht
      apply ih s1 ht1
      obtain ⟨l, hl⟩ := hl
      rcases List.mem_cons.1 hl with hl | hl
      · subst hl
        simp only [handleEvent] at hstep
        rw [processCommand_no_timer env server s _ ht] at hstep
        exact absurd hstep (by simp)
      · exact ⟨l, hl⟩

/-! ## Letter case of the verb -/

theorem toUpper_letter (n : Nat) (h1 : 65 ≤ n) (h2 : n ≤ 90) :
    (Char.ofNat n).toUpper = Char.ofNat n ∧ (Char.ofNat (n + 32)).toUpper = Char.ofNat n := by
  interval_cases n <;> decide

theorem sameLetter_toUpper (a b : Char) (h : sameLetter a b) : a.toUpper = b.toUpper := by
  rcases h with h | ⟨h1, h2, h3⟩ | ⟨h1, h2, h3⟩
  · rw [h]
  · have hl := toUpper_letter a.toNat h1 h2
    rw [← h3, Char.ofNat_toNat, Char.ofNat_toNat] at hl
    rw [hl.1, hl.2]
  · have hl := toUpper_letter b.toNat h1 h2
    rw [← h3, Char.ofNat_toNat, Char.ofNat_toNat] at hl
    rw [hl.1, hl.2]

theorem sameLetter_ascii (a b : Char) (h : sameLetter a b) (ha : a.toNat < 128) :
    b.toNat < 128 := by
  rcases h with h | ⟨h1, h2, h3⟩ | ⟨h1, h2, h3⟩
  · rw [← h]; exact ha
  · omega
  · omega

theorem sameUpToCase_map (a b : QString) (h : SameUpToCase a b) :
    a.map Char.toUpper = b.map Char.toUpper := by
  induction h with
  | nil => rfl
  | cons hab _ ih => simp only [List.map_cons, sameLetter_toUpper _ _ hab, ih]

theorem sameUpToCase_ascii (a b : QString) (h : SameUpToCase a b)
    (ha : ∀ c ∈ a, c.toNat < 128) : ∀ c ∈ b, c.toNat < 128 := by
  induction h with
  | nil => intro c hc; simp at hc
  | cons hab _ ih =>
    intro c hc
    rcases List.mem_cons.1 hc with hc | hc
    · rw [hc]; exact sameLetter_ascii _ _ hab (ha _ (List.mem_cons_self _ _))
    · exact ih (fun d hd => ha d (List.mem_cons_of_mem _ hd)) c hc

/-- Under the contract of `toUpper`, two ASCII verbs that differ only in letter
case have the same upper-cased form. -/
theorem toUpper_sameUpToCase (env : Env W) (hup : UpperCasesAscii env) (a b : QString)
    (ha : ∀ c ∈ a, c.toNat < 128) (h : SameUpToCase a b) : env.toUpper a = env.toUpper b := by
  rw [hup a ha, hup b (sameUpToCase_ascii a b h ha), sameUpToCase_map a b h]

theorem simEnv_upperCasesAscii : UpperCasesAscii simEnv := fun _ _ => rfl

/-! ## Lines received by a session -/

/-- With a timer, lines that arrive one by one are processed as the loop
processes them. -/
theorem run_lines (env : Env W) (server : FtpServer) (lines : List QString) :
    ∀ (s : Sys W) (t : QTimer), s.conn.m_timer = Pointer.object t →
      run env server s (lines.map Event.line) = processLines env server s lines := by
  induction lines with
  | nil => intro s t _; rfl
  | cons l rest ih =>
    intro s t ht
    simp only [List.map_cons, run, handleEvent, processCommand_timer env server s _ t ht,
      processLines]
    cases hp : processLine env server s l with
    | none => rfl
    | some s1 =>
      simp only
      exact ih s1 t ((processLine_timer env server s s1 l hp).trans ht)

/-- C1: the code does not answer the lines. `processCommand` starts with
`m_timer->start()`, and no statement of the sources assigns `m_timer`: in a
session whose `m_timer` does not point to a timer, as the constructor leaves
it, `processCommand` has no result on the lines and no run through them has
one, so the line with the command is not answered 530. The handlers themselves
do what the specification says: in a session with a timer that is not logged
in, along every sequence of lines in which no `PASS` is accepted, a line whose
command is one of PORT, PASV, LIST, CWD, PWD, MKD, RMD, DELE, RNFR, RNTO, STOR,
RETR is answered with exactly one reply, 530, and leaves the members of the
session and the world as they were; the whole sequence is processed and the
session is still not logged in. -/
theorem login_gate_needs_timer (env : Env W) (server : FtpServer) (s0 : Sys W)
    (pre post : List QString) (line : QString)
    (h0 : s0.conn.m_isLoggedIn = false)
    (hno : noPassAccepted env server s0 (pre ++ line :: post) = true)
    (hne : env.trimmed line ≠ [])
    (hcmd : commandOf env line ∈ loginCommands) :
    ((∀ t, s0.conn.m_timer ≠ Pointer.object t) →
      processCommand env server s0 (pre ++ line :: post) = none ∧
      run env server s0 ((pre ++ line :: post).map Event.line) = none) ∧
    (∀ t, s0.conn.m_timer = Pointer.object t →
      ∃ s, run env server s0 (pre.map Event.line) = some s ∧
        run env server s [Event.line line]
          = some { world := s.world, conn := s.conn,
                   trace := s.trace ++ [Action.reply 530 "Not logged in".toList] } ∧
        ∃ sEnd, run env server s0 ((pre ++ line :: post).map Event.line) = some sEnd ∧
          sEnd.conn.m_isLoggedIn = false) := by
  constructor
  · intro ht
    refine ⟨processCommand_no_timer env server s0 _ ht, ?_⟩
    apply run_no_timer env server _ s0 ht
    exact ⟨line, List.mem_map.2 ⟨line, by simp, rfl⟩⟩
  · intro t ht
    obtain ⟨s, hs, hline, sEnd, hEnd, hu⟩ :=
      loop_login_required env server s0 pre post line h0 hno hne hcmd
    have hts : s.conn.m_timer = Pointer.object t :=
      (processLines_timer env server pre s0 s hs).trans ht
    refine ⟨s, by rw [run_lines env server pre s0 t ht, hs], ?_,
      sEnd, by rw [run_lines env server _ s0 t ht, hEnd], hu⟩
    have := run_lines env server [line] s t hts
    simp only [List.map_cons, List.map_nil] at this
    rw [this]
    simp only [processLines, hline]

/-- C1, on the concrete environment: the session as the constructor leaves it
has no result on `PWD`, nor on any sequence of lines that contains it. -/
theorem login_gate_needs_timer_witness :
    simConstructed.conn.m_isLoggedIn = false ∧
    simConstructed.conn.m_timer = Pointer.unassigned ∧
    processCommand simEnv simServer simConstructed
      (["NOOP\r\n".toList] ++ "PWD\r\n".toList :: ["CWD /\r\n".toList]) = none ∧
    run simEnv simServer simConstructed
      ((["NOOP\r\n".toList] ++ "PWD\r\n".toList :: ["CWD /\r\n".toList]).map Event.line)
      = none :=
  ⟨rfl, rfl,
    (login_gate_needs_timer simEnv simServer simConstructed ["NOOP\r\n".toList]
      ["CWD /\r\n".toList] "PWD\r\n".toList rfl (by decide) (by decide) (by decide)).1
      (fun t => by simp [simConstructed])⟩

/-- C19: the code does not deliver the scenario. In a session as the
constructor leaves it (current directory `/`, `m_timer` not assigned, every
member it does not assign arbitrary), `processCommand` has no result on any lines, and no run through a line has
one: `USER admin` is not answered. The handlers themselves do what the
specification says: from every state with the current directory `/`, the
handlers of `USER admin`, `PASS password`, `PWD` reply in order 331, 230 and
exactly `257 "/" is current directory` followed by CRLF; the auth predicate
accepts exactly user `admin` with password `password`; in every logged-in
session `PWD` replies 257 with the text `"<cwd>" is current directory` and
changes nothing else; and a session with a timer answers the three lines with
these three replies. -/
theorem happy_login_needs_timer (env : Env W) (server : FtpServer) (s0 : Sys W) (p : QString)
    (hc : Constructed s0.conn) :
    (∀ lines, processCommand env server s0 lines = none) ∧
    (∀ events rawLine, Event.line rawLine ∈ events → run env server s0 events = none) ∧
    (handlePWD (handlePASS (handleUSER s0 "admin".toList) "password".toList) p).trace
      = s0.trace ++
        [Action.reply 331 "User name okay, need password".toList,
         Action.reply 230 "User logged in, proceed".toList,
         Action.reply 257 "\"/\" is current directory".toList] ∧
    responseText 257 "\"/\" is current directory".toList
      = "257 \"/\" is current directory\r\n".toList ∧
    dispatch env server s0 "USER".toList "admin".toList
      = some (handleUSER s0 "admin".toList) ∧
    dispatch env server (handleUSER s0 "admin".toList) "PASS".toList "password".toList
      = some (handlePASS (handleUSER s0 "admin".toList) "password".toList) ∧
    dispatch env server (handlePASS (handleUSER s0 "admin".toList) "password".toList)
        "PWD".toList p
      = some (handlePWD (handlePASS (handleUSER s0 "admin".toList) "password".toList) p) ∧
    (∀ user password : QString,
      authenticateUser user password = true ↔
        user = "admin".toList ∧ password = "password".toList) ∧
    (∀ (s : Sys W) (q : QString), s.conn.m_isLoggedIn = true →
      handlePWD s q
        = { world := s.world, conn := s.conn,
            trace := s.trace ++ [Action.reply 257
              ("\"".toList ++ s.conn.m_currentPath ++ "\" is current directory".toList)] }) ∧
    (run simEnv simServer simFresh
        [Event.line "USER admin\r\n".toList, Event.line "PASS password\r\n".toList,
          Event.line "PWD\r\n".toList]).map
        (fun s => (replies s.trace).map (fun r => responseText r.1 r.2))
      = some ["331 User name okay, need password\r\n".toList,
              "230 User logged in, proceed\r\n".toList,
              "257 \"/\" is current directory\r\n".toList] := by
  have ht : ∀ t, s0.conn.m_timer ≠ Pointer.object t := by
    intro t e
    rw [hc.2.1] at e
    exact absurd e (by simp)
  have hh := login_handlers env server s0 p hc.1
  exact ⟨fun lines => processCommand_no_timer env server s0 lines ht,
    fun events rawLine hm => run_no_timer env server events s0 ht ⟨rawLine, hm⟩,
    hh.1, hh.2.1, hh.2.2.1, hh.2.2.2.1, hh.2.2.2.2.1, hh.2.2.2.2.2.1, hh.2.2.2.2.2.2.1,
    by decide⟩

/-- C19, on the concrete environment: the session as the constructor leaves it
has no result on `USER admin`. -/
theorem happy_login_needs_timer_witness :
    Constructed simConstructed.conn ∧
    run simEnv simServer simConstructed [Event.line "USER admin\r\n".toList] = none ∧
    (handlePWD (handlePASS (handleUSER simConstructed "admin".toList) "password".toList)
        []).trace
      = simConstructed.trace ++
        [Action.reply 331 "User name okay, need password".toList,
         Action.reply 230 "User logged in, proceed".toList,
         Action.reply 257 "\"/\" is current directory".toList] :=
  ⟨⟨rfl, rfl, rfl, rfl, rfl⟩,
    (happy_login_needs_timer simEnv simServer simConstructed []
      ⟨rfl, rfl, rfl, rfl, rfl⟩).2.1 _ "USER admin\r\n".toList (List.mem_cons_self _ _),
    (happy_login_needs_timer simEnv simServer simConstructed []
      ⟨rfl, rfl, rfl, rfl, rfl⟩).2.2.1⟩

/-- With a timer, the slot run for one line is one turn of the loop. -/
theorem handleEvent_line (env : Env W) (server : FtpServer) (s : Sys W) (rawLine : QString)
    (t : QTimer) (ht : s.conn.m_timer = Pointer.object t) :
    handleEvent env server s (Event.line rawLine) = processLine env server s rawLine := by
  simp only [handleEvent, processCommand_timer env server s _ t ht, processLines]
  cases processLine env server s rawLine <;> rfl

/-- C17: the code does not reach the dispatcher. `processCommand` starts with
`m_timer->start()`, and no statement of the sources assigns `m_timer`: in a
session whose `m_timer` does not point to a timer, as the constructor leaves
it, the slot has no result on a line: the line is not parsed and a verb outside
the table is not answered 502. The loop itself does what the specification
says: in a session with a timer, the slot takes the trimmed line; an empty
trimmed line produces no reply and no change; otherwise the line is split at
its first space into a verb and a parameter, the parameter being the rest of
the line verbatim (it ends where the trimmed line ends, so it has no trailing
white space when the trimmed line has none), and the handler is selected by
the upper-cased verb; where `toUpper` upper-cases ASCII text, two lines whose
ASCII verbs differ only in letter case and whose parameters are equal are
handled identically; a verb outside the command table is answered 502 and
changes nothing. -/
theorem line_dispatch_needs_timer (env : Env W) (server : FtpServer) (s : Sys W)
    (rawLine other : QString) :
    ((∀ t, s.conn.m_timer ≠ Pointer.object t) →
      processCommand env server s [rawLine] = none ∧
      handleEvent env server s (Event.line rawLine) = none) ∧
    (∀ t, s.conn.m_timer = Pointer.object t →
      handleEvent env server s (Event.line rawLine) = processLine env server s rawLine ∧
      handleEvent env server s (Event.line other) = processLine env server s other) ∧
    (env.trimmed rawLine = [] → processLine env server s rawLine = some s) ∧
    (env.trimmed rawLine ≠ [] →
      processLine env server s rawLine
        = dispatch env server s (env.toUpper (specVerb (env.trimmed rawLine)))
            (specParameter (env.trimmed rawLine))) ∧
    ' ' ∉ specVerb (env.trimmed rawLine) ∧
    (' ' ∉ env.trimmed rawLine →
      specVerb (env.trimmed rawLine) = env.trimmed rawLine ∧
      specParameter (env.trimmed rawLine) = []) ∧
    (' ' ∈ env.trimmed rawLine →
      env.trimmed rawLine
        = specVerb (env.trimmed rawLine) ++ ' ' :: specParameter (env.trimmed rawLine)) ∧
    specParameter (env.trimmed rawLine) <:+ env.trimmed rawLine ∧
    (specParameter (env.trimmed rawLine) ≠ [] →
      (specParameter (env.trimmed rawLine)).getLast? = (env.trimmed rawLine).getLast?) ∧
    (UpperCasesAscii env → env.trimmed rawLine ≠ [] → env.trimmed other ≠ [] →
      (∀ c ∈ specVerb (env.trimmed rawLine), c.toNat < 128) →
      SameUpToCase (specVerb (env.trimmed rawLine)) (specVerb (env.trimmed other)) →
      specParameter (env.trimmed rawLine) = specParameter (env.trimmed other) →
      processLine env server s rawLine = processLine env server s other) ∧
    (env.trimmed rawLine ≠ [] →
      env.toUpper (specVerb (env.trimmed rawLine)) ∉ tableCommands →
      processLine env server s rawLine
        = some { world := s.world, conn := s.conn,
                 trace := s.trace ++ [Action.reply 502 "Command not implemented".toList] }) ∧
    (handleEvent simEnv simServer simLoggedIn (Event.line "cwd /srv\r\n".toList)
        = handleEvent simEnv simServer simLoggedIn (Event.line "  CwD /srv".toList) ∧
      handleEvent simEnv simServer simLoggedIn (Event.line "CWD /srv".toList)
        = handleEvent simEnv simServer simLoggedIn (Event.line "  CwD /srv".toList) ∧
      (handleEvent simEnv simServer simLoggedIn (Event.line "feat\r\n".toList)).map
          (fun s1 => replies s1.trace)
        = some [((502 : Int), "Command not implemented".toList)] ∧
      handleEvent simEnv simServer simConstructed (Event.line "feat\r\n".toList) = none) := by
  have hl := loop_line_dispatch env server s rawLine other
  obtain ⟨h1, h2, h3, h4, h5, h6, h7, h8, h9, _⟩ := hl
  refine ⟨fun ht => ⟨processCommand_no_timer env server s _ ht, ?_⟩,
    fun t ht => ⟨handleEvent_line env server s rawLine t ht,
      handleEvent_line env server s other t ht⟩,
    h1, h2, h3, h4, h5, h6, h7, ?_, h9, rfl, rfl, by decide, rfl⟩
  · simp only [handleEvent]
    exact processCommand_no_timer env server s _ ht
  · intro hup hne1 hne2 hascii hsame hparam
    exact h8 hne1 hne2 (toUpper_sameUpToCase env hup _ _ hascii hsame) hparam

/-! ## LIST always has a result; RETR without one -/

theorem closeDataSocket_socket (s : Sys W) : (closeDataSocket s).conn.m_dataSocket = none := by
  unfold closeDataSocket
  split
  · rfl
  · assumption

theorem closePassiveServer_pointers (s : Sys W) :
    (closePassiveServer s).conn.m_passiveServer = none ∧
    (closePassiveServer s).conn.m_dataSocket = s.conn.m_dataSocket := by
  unfold closePassiveServer
  split
  · exact ⟨rfl, rfl⟩
  · exact ⟨by assumption, rfl⟩

theorem closeOpenFile_pointers (s : Sys W) :
    (closeOpenFile s).conn.m_passiveServer = s.conn.m_passiveServer ∧
    (closeOpenFile s).conn.m_dataSocket = s.conn.m_dataSocket := by
  unfold closeOpenFile
  split <;> exact ⟨rfl, rfl⟩

theorem closeDataConnection_pointers (s : Sys W) :
    (closeDataConnection s).conn.m_dataSocket = none ∧
    (closeDataConnection s).conn.m_passiveServer = none := by
  unfold closeDataConnection
  rw [(closeOpenFile_pointers _).1, (closeOpenFile_pointers _).2,
    (closePassiveServer_pointers _).1, (closePassiveServer_pointers _).2]
  exact ⟨closeDataSocket_socket s, rfl⟩

/-- After `setupDataConnection`: in passive mode there is no data socket, in
active mode there is one. -/
theorem setupDataConnection_shape (env : Env W) (s : Sys W) :
    ((setupDataConnection env s).conn.m_transferMode = TransferMode.Passive ∧
      (setupDataConnection env s).conn.m_dataSocket = none) ∨
    ((setupDataConnection env s).conn.m_transferMode = TransferMode.Active ∧
      ∃ socket, (setupDataConnection env s).conn.m_dataSocket = some socket) := by
  have hp := closeDataConnection_pointers s
  unfold setupDataConnection
  generalize closeDataConnection s = s1 at hp
  simp only
  split_ifs with hm
  · left
    rcases env.listen s1.world with ⟨_ | port, w⟩
    · exact ⟨hm, hp.1⟩
    · exact ⟨hm, hp.1⟩
  · right
    refine ⟨?_, _, rfl⟩
    cases hmode : s1.conn.m_transferMode
    · exact absurd hmode hm
    · rfl

theorem onDataConnected_active (env : Env W) (s : Sys W)
    (hm : s.conn.m_transferMode = TransferMode.Active) :
    (onDataConnected env s).conn = s.conn := by
  unfold onDataConnected
  simp [hm, sendResponse]

theorem waitPassive_isSome (env : Env W) (s : Sys W)
    (h : s.conn.m_transferMode = TransferMode.Active ∨ s.conn.m_passiveServer ≠ none) :
    waitPassive env s ≠ none := by
  unfold waitPassive
  split_ifs with hc
  · rcases h with h | h
    · rw [h] at hc; exact absurd hc.1 (by decide)
    · cases hs : s.conn.m_passiveServer with
      | none => exact absurd hs h
      | some srv =>
        simp only
        rcases env.waitForNewConnection s.world srv.serverPort with ⟨_ | _, w⟩ <;> simp
  · simp

/-- `handleLIST` always has a result: where it waits on the passive server,
the server is there. -/
theorem handleLIST_isSome (env : Env W) (server : FtpServer) (s : Sys W) (param : QString) :
    handleLIST env server s param ≠ none := by
  unfold handleLIST
  rcases hcl : checkLogin s with ⟨_ | _, s1⟩
  · simp
  simp only
  have hshape := setupDataConnection_shape env s1
  generalize setupDataConnection env s1 = s2 at hshape
  split_ifs with hnone
  · simp
  have hready : ∀ s3, startTransfer env s2 "Opening data connection for directory listing".toList
      = (true, s3) →
      s3.conn.m_transferMode = TransferMode.Active ∨ s3.conn.m_passiveServer ≠ none := by
    intro s3 hst
    rcases hshape with ⟨hm, hs⟩ | ⟨hm, socket, hs⟩
    · right
      have hsrv : s2.conn.m_passiveServer ≠ none := by
        intro e
        exact hnone ⟨by rw [hs]; rfl, by rw [e]; rfl⟩
      unfold startTransfer at hst
      rw [hm, hs] at hst
      simp only [Prod.mk.injEq, true_and] at hst
      rw [← hst]; exact hsrv
    · left
      unfold startTransfer at hst
      rw [hm, hs] at hst
      simp only at hst
      unfold waitActive at hst
      generalize (match socket with
        | .outgoing host port => env.waitForConnected s2.world host port
        | .accepted _ => (true, s2.world)) = r at hst
      rcases r with ⟨_ | _, w⟩
      · simp at hst
      · simp only [Prod.mk.injEq, true_and] at hst
        have hm1 : ({ s2 with world := w } : Sys W).conn.m_transferMode
            = TransferMode.Active := hm
        have e1 := onDataConnected_active env _ hm1
        have hm2 : (onDataConnected env { s2 with world := w }).conn.m_transferMode
            = TransferMode.Active := by rw [e1]; exact hm
        have e2 := onDataConnected_active env _ hm2
        rw [← hst, e2, e1]; exact hm
  rcases hst : startTransfer env s2 "Opening data connection for directory listing".toList
    with ⟨_ | _, s3⟩
  · simp
  simp only
  have h3 := hready s3 hst
  split_ifs
  · simp
  have hw := waitPassive_isSome env
    ((s3.log (Action.dirExists (server.rootPath ++ resolvePath s3.conn.m_currentPath param))).log
      (Action.entryInfoList (server.rootPath ++ resolvePath s3.conn.m_currentPath param))) h3
  rcases hwp : waitPassive env
    ((s3.log (Action.dirExists (server.rootPath ++ resolvePath s3.conn.m_currentPath param))).log
      (Action.entryInfoList (server.rootPath ++ resolvePath s3.conn.m_currentPath param)))
    with _ | ⟨_ | _, s6⟩
  · exact absurd hwp hw
  · simp
  · simp only
    split <;> simp

/-- Where `handleRETR` has no result in a logged-in session, the parameter is
not empty, the file opened, and the handler has come to `m_file->size()` in
the state that `setupDataConnection` left, in which `m_file` is null. -/
theorem handleRETR_none (env : Env W) (server : FtpServer) (s : Sys W) (param : QString)
    (hl : s.conn.m_isLoggedIn = true) (h : handleRETR env server s param = none) :
    handleRETR env server s param
      = startDownload env (setupDataConnection env (openNewFile env s
          (server.rootPath ++ resolvePath s.conn.m_currentPath param) OpenMode.ReadOnly).2) ∧
    (env.openFile s.world (server.rootPath ++ resolvePath s.conn.m_currentPath param)
      OpenMode.ReadOnly).1 = true := by
  unfold handleRETR at h ⊢
  rw [checkLogin_true s hl] at h ⊢
  simp only at h ⊢
  by_cases hp : param.isEmpty = true
  · rw [if_pos hp] at h; exact absurd h (by simp)
  rw [if_neg hp] at h ⊢
  rw [openNewFile_eq] at h ⊢
  cases hop : (env.openFile s.world (server.rootPath ++ resolvePath s.conn.m_currentPath param)
      OpenMode.ReadOnly).1
  · rw [hop] at h; exact absurd h (by simp)
  · rw [hop] at h
    refine ⟨?_, rfl⟩
    dsimp only at h ⊢
    split_ifs at h ⊢ with hnone
    rfl

/-- C3: for every logged-in session and every parameter, each filesystem path
that LIST, CWD, MKD, RMD, DELE, RNFR, RNTO, STOR and RETR hand to the
filesystem is `rootPath` followed by `resolvePath` of the client path: of the
parameter of the command, or, for the old name of RNTO, of the parameter that
RNFR recorded; it has `rootPath` as a prefix and no `..` segment after it. The
pending rename path stays empty or resolved, and what RNFR records is the
resolved parameter. This holds of every command that has a result; the only
command without one is RETR of a file that opens, where the handler ends at
`m_file->size()` on the null `m_file` in the state that `setupDataConnection`
left: the first action until then is `QFile::open` on `rootPath` followed by
`resolvePath` of the parameter, and no action until then hands the filesystem
another path. -/
theorem filesystem_paths_under_root (env : Env W) (server : FtpServer) (w : W)
    (conn : FtpConnection) (command param : QString)
    (hl : conn.m_isLoggedIn = true) (hr : RenameFromResolved conn)
    (hcmd : command ∈ pathCommands) :
    (∀ s1, dispatch env server { world := w, conn := conn, trace := [] } command param
        = some s1 →
      (∀ a ∈ s1.trace, ∀ q ∈ a.paths,
        (q = server.rootPath ++ resolvePath conn.m_currentPath param ∨
          (command = "RNTO".toList ∧ q = server.rootPath ++ conn.m_renameFrom ∧
            ∃ cwd path, conn.m_renameFrom = resolvePath cwd path)) ∧
        server.rootPath <+: q ∧
        "..".toList ∉ split '/' (q.drop server.rootPath.length)) ∧
      (command = "RNTO".toList → ∀ o n, Action.rename o n ∈ s1.trace →
        o = server.rootPath ++ conn.m_renameFrom ∧
        n = server.rootPath ++ resolvePath conn.m_currentPath param) ∧
      RenameFromResolved s1.conn ∧
      (command = "RNFR".toList → param ≠ [] →
        s1.conn.m_renameFrom = [] ∨
        s1.conn.m_renameFrom = resolvePath conn.m_currentPath param)) ∧
    (dispatch env server { world := w, conn := conn, trace := [] } command param = none →
      command = "RETR".toList ∧
      (env.openFile w (server.rootPath ++ resolvePath conn.m_currentPath param)
        OpenMode.ReadOnly).1 = true ∧
      handleRETR env server { world := w, conn := conn, trace := [] } param
        = startDownload env (setupDataConnection env
            (openNewFile env { world := w, conn := conn, trace := [] }
              (server.rootPath ++ resolvePath conn.m_currentPath param) OpenMode.ReadOnly).2) ∧
      (setupDataConnection env
        (openNewFile env { world := w, conn := conn, trace := [] }
          (server.rootPath ++ resolvePath conn.m_currentPath param)
          OpenMode.ReadOnly).2).conn.m_file = none ∧
      (∃ rest, (setupDataConnection env
        (openNewFile env { world := w, conn := conn, trace := [] }
          (server.rootPath ++ resolvePath conn.m_currentPath param) OpenMode.ReadOnly).2).trace
        = Action.openFile (server.rootPath ++ resolvePath conn.m_currentPath param)
            OpenMode.ReadOnly :: rest) ∧
      ∀ a ∈ (setupDataConnection env
        (openNewFile env { world := w, conn := conn, trace := [] }
          (server.rootPath ++ resolvePath conn.m_currentPath param) OpenMode.ReadOnly).2).trace,
        ∀ q ∈ a.paths,
          q = server.rootPath ++ resolvePath conn.m_currentPath param ∧
          server.rootPath <+: q ∧
          "..".toList ∉ split '/' (q.drop server.rootPath.length)) := by
  refine ⟨fun s1 h => dispatch_paths_under_root env server w conn command param s1 hl hr hcmd h,
    fun h => ?_⟩
  have hretr : command = "RETR".toList := by
    simp only [pathCommands, List.mem_cons, List.mem_singleton, List.not_mem_nil, or_false]
      at hcmd
    rcases hcmd with e | e | e | e | e | e | e | e | e <;> subst e
    · rw [dispatch_LIST] at h; exact absurd h (handleLIST_isSome env server _ param)
    · rw [dispatch_CWD] at h; exact absurd h (by simp)
    · rw [dispatch_MKD] at h; exact absurd h (by simp)
    · rw [dispatch_RMD] at h; exact absurd h (by simp)
    · rw [dispatch_DELE] at h; exact absurd h (by simp)
    · rw [dispatch_RNFR] at h; exact absurd h (by simp)
    · rw [dispatch_RNTO] at h; exact absurd h (by simp)
    · rw [dispatch_STOR] at h; exact absurd h (by simp)
    · rfl
  subst hretr
  rw [dispatch_RETR] at h
  have hn := handleRETR_none env server { world := w, conn := conn, trace := [] } param hl h
  refine ⟨rfl, hn.2, hn.1, setupDataConnection_file env _, ?_, ?_⟩
  · obtain ⟨new, hnew, _⟩ := ext_setupDataConnection (fun _ _ => True) env
      (openNewFile env { world := w, conn := conn, trace := [] }
        (server.rootPath ++ resolvePath conn.m_currentPath param) OpenMode.ReadOnly).2 trivial
    refine ⟨new, ?_⟩
    rw [hnew, openNewFile_eq]
    rfl
  · have hframe := (frame_openNewFile
        (fun q => q = server.rootPath ++ resolvePath conn.m_currentPath param) env
        { world := w, conn := conn, trace := [] }
        (server.rootPath ++ resolvePath conn.m_currentPath param) OpenMode.ReadOnly rfl).trans
      (frame_setupDataConnection _ env _)
    intro a ha q hq
    have hq1 := hframe.2.2.2 (tracePaths_nil _) a ha q hq
    refine ⟨hq1, ?_⟩
    rw [hq1]
    exact under_root server _ _

/-- C3, on the concrete environment: RNTO with leading `..` segments, which
has a result, and RETR of a file that opens in active mode, which has none. -/
theorem filesystem_paths_under_root_witness :
    (∀ a ∈ (handleRNTO simEnv simServer
        { world := simWorld, conn := simPending, trace := [] } "../../new.txt".toList).trace,
      ∀ q ∈ a.paths,
      (q = simServer.rootPath ++ resolvePath simPending.m_currentPath "../../new.txt".toList ∨
        ("RNTO".toList = "RNTO".toList ∧ q = simServer.rootPath ++ simPending.m_renameFrom ∧
          ∃ cwd path, simPending.m_renameFrom = resolvePath cwd path)) ∧
      simServer.rootPath <+: q ∧
      "..".toList ∉ split '/' (q.drop simServer.rootPath.length)) ∧
    (handleRETR simEnv simServer
        { world := simWorld, conn := simAfterPORT.conn, trace := [] } "../../old.txt".toList
      = none) ∧
    (∃ rest, (setupDataConnection simEnv
        (openNewFile simEnv { world := simWorld, conn := simAfterPORT.conn, trace := [] }
          (simServer.rootPath ++ resolvePath simAfterPORT.conn.m_currentPath
            "../../old.txt".toList) OpenMode.ReadOnly).2).trace
        = Action.openFile (simServer.rootPath ++ resolvePath simAfterPORT.conn.m_currentPath
            "../../old.txt".toList) OpenMode.ReadOnly :: rest) ∧
    simServer.rootPath ++ resolvePath simAfterPORT.conn.m_currentPath "../../old.txt".toList
      = "/srv/ftp/old.txt".toList :=
  ⟨((filesystem_paths_under_root simEnv simServer simWorld simPending "RNTO".toList
      "../../new.txt".toList rfl (Or.inr ⟨"/".toList, "old.txt".toList, by decide⟩)
      (by decide)).1 _ (dispatch_RNTO _ _ _ _)).1,
    rfl,
    ((filesystem_paths_under_root simEnv simServer simWorld simAfterPORT.conn "RETR".toList
      "../../old.txt".toList rfl (Or.inl rfl) (by decide)).2 rfl).2.2.2.2.1,
    by decide⟩

/-! ## Awaiting the password -/

/-- C14 fails as stated: after the handler of `USER admin` the session awaits
the password and is not logged in, and `SYST`, `TYPE I` and the unknown `FEAT`
are answered 215, 200 and 502, not 530. -/
theorem await_pass_530_counterexample :
    (handleUSER simFresh "admin".toList).conn.m_isLoggedIn = false ∧
    (handleUSER simFresh "admin".toList).conn.m_waitingForPassword = true ∧
    (dispatch simEnv simServer (handleUSER simFresh "admin".toList) "SYST".toList []).map
        (fun s => (replies s.trace).map Prod.fst) = some [331, 215] ∧
    (dispatch simEnv simServer (handleUSER simFresh "admin".toList) "TYPE".toList
        "I".toList).map
        (fun s => ((replies s.trace).map Prod.fst, s.conn.m_transferType))
      = some ([331, 200], TransferType.Binary) ∧
    (dispatch simEnv simServer (handleUSER simFresh "admin".toList) "FEAT".toList []).map
        (fun s => (replies s.trace).map Prod.fst) = some [331, 502] := by
  decide

/-- C14, as the code has it: in a session that is not logged in and awaits the
password, a command other than `PASS`, `USER`, `QUIT` and `NOOP` is answered
with one reply, and that reply is 530 exactly for the twelve commands whose
handler starts with `checkLogin`, which then change nothing. `SYST` is answered
215 and changes nothing. `TYPE` with the parameter `A` or `A N` is answered 200
and sets the transfer type to ASCII, with `I` or `L 8` it is answered 200 and
sets the transfer type to Binary, changing no other member; with any other
parameter it is answered 504 and changes nothing. A verb outside the command
table is answered 502 and changes nothing. -/
theorem await_pass_replies (env : Env W) (server : FtpServer) (s : Sys W)
    (command param : QString)
    (hl : s.conn.m_isLoggedIn = false) (_hw : s.conn.m_waitingForPassword = true)
    (h1 : command ≠ "PASS".toList) (h2 : command ≠ "USER".toList)
    (h3 : command ≠ "QUIT".toList) (h4 : command ≠ "NOOP".toList) :
    ∃ code msg conn1,
      dispatch env server s command param
        = some { world := s.world, conn := conn1,
                 trace := s.trace ++ [Action.reply code msg] } ∧
      ((command ∈ loginCommands ∧ code = 530 ∧ conn1 = s.conn) ∨
       (command = "SYST".toList ∧ code = 215 ∧ conn1 = s.conn) ∨
       (command = "TYPE".toList ∧
         (((param = "A".toList ∨ param = "A N".toList) ∧ code = 200 ∧
             conn1 = { s.conn with m_transferType := TransferType.ASCII }) ∨
           (¬ (param = "A".toList ∨ param = "A N".toList) ∧
             (param = "I".toList ∨ param = "L 8".toList) ∧ code = 200 ∧
             conn1 = { s.conn with m_transferType := TransferType.Binary }) ∨
           (¬ (param = "A".toList ∨ param = "A N".toList) ∧
             ¬ (param = "I".toList ∨ param = "L 8".toList) ∧ code = 504 ∧
             conn1 = s.conn))) ∨
       (command ∉ tableCommands ∧ code = 502 ∧ conn1 = s.conn)) ∧
      (code = 530 ↔ command ∈ loginCommands) := by
  by_cases hlc : command ∈ loginCommands
  · exact ⟨530, _, s.conn, dispatch_login_unauth env server s command param hl hlc,
      Or.inl ⟨hlc, rfl, rfl⟩, iff_of_true rfl hlc⟩
  by_cases hs : command = "SYST".toList
  · subst hs
    exact ⟨215, _, s.conn, rfl, Or.inr (Or.inl ⟨rfl, rfl, rfl⟩), iff_of_false (by decide) hlc⟩
  by_cases ht : command = "TYPE".toList
  · subst ht
    rw [dispatch_TYPE]
    unfold handleTYPE
    split_ifs with ha hb
    · exact ⟨200, _, _, rfl, Or.inr (Or.inr (Or.inl ⟨rfl, Or.inl ⟨ha, rfl, rfl⟩⟩)),
        iff_of_false (by decide) hlc⟩
    · exact ⟨200, _, _, rfl, Or.inr (Or.inr (Or.inl ⟨rfl, Or.inr (Or.inl ⟨ha, hb, rfl, rfl⟩)⟩)),
        iff_of_false (by decide) hlc⟩
    · exact ⟨504, _, _, rfl, Or.inr (Or.inr (Or.inl ⟨rfl, Or.inr (Or.inr ⟨ha, hb, rfl, rfl⟩)⟩)),
        iff_of_false (by decide) hlc⟩
  have hnot : command ∉ tableCommands := by
    simp only [loginCommands, tableCommands, List.mem_cons, List.mem_singleton,
      List.not_mem_nil, or_false, not_or] at hlc ⊢
    tauto
  exact ⟨502, _, s.conn, dispatch_other env server s command param hnot,
    Or.inr (Or.inr (Or.inr ⟨hnot, rfl, rfl⟩)), iff_of_false (by decide) hlc⟩

/-- C14, as the code has it, on the concrete environment: `TYPE I` after the
handler of `USER admin`. -/
theorem await_pass_replies_witness :
    (handleUSER simFresh "admin".toList).conn.m_isLoggedIn = false ∧
    (handleUSER simFresh "admin".toList).conn.m_waitingForPassword = true ∧
    ∃ code msg conn1,
      dispatch simEnv simServer (handleUSER simFresh "admin".toList) "TYPE".toList "I".toList
        = some { world := (handleUSER simFresh "admin".toList).world, conn := conn1,
                 trace := (handleUSER simFresh "admin".toList).trace
                   ++ [Action.reply code msg] } ∧
      (("TYPE".toList ∈ loginCommands ∧ code = 530
          ∧ conn1 = (handleUSER simFresh "admin".toList).conn) ∨
       ("TYPE".toList = "SYST".toList ∧ code = 215
          ∧ conn1 = (handleUSER simFresh "admin".toList).conn) ∨
       ("TYPE".toList = "TYPE".toList ∧
         ((("I".toList = "A".toList ∨ "I".toList = "A N".toList) ∧ code = 200 ∧
             conn1 = { (handleUSER simFresh "admin".toList).conn with
               m_transferType := TransferType.ASCII }) ∨
           (¬ ("I".toList = "A".toList ∨ "I".toList = "A N".toList) ∧
             ("I".toList = "I".toList ∨ "I".toList = "L 8".toList) ∧ code = 200 ∧
             conn1 = { (handleUSER simFresh "admin".toList).conn with
               m_transferType := TransferType.Binary }) ∨
           (¬ ("I".toList = "A".toList ∨ "I".toList = "A N".toList) ∧
             ¬ ("I".toList = "I".toList ∨ "I".toList = "L 8".toList) ∧ code = 504 ∧
             conn1 = (handleUSER simFresh "admin".toList).conn))) ∨
       ("TYPE".toList ∉ tableCommands ∧ code = 502
          ∧ conn1 = (handleUSER simFresh "admin".toList).conn)) ∧
      (code = 530 ↔ "TYPE".toList ∈ loginCommands) :=
  ⟨rfl, rfl,
    await_pass_replies simEnv simServer (handleUSER simFresh "admin".toList) "TYPE".toList
      "I".toList rfl rfl (by decide) (by decide) (by decide) (by decide)⟩

end Ftp
